import Mathlib

/-!
# Cypress touchkey driver: a shallow embedding

Embedding of `drivers/input/keyboard/cypress-touchkey.c`.

The driver state (`struct cptk_data`, the platform data it points to and the
module globals `touch_led_timer`, `touch_led_timeout`, `touch_led_mode`) is
gathered in one record `World`.  Calls into the kernel are recorded, in
program order, in `World.trace`; the values the driver reads back from the
kernel (result of `i2c_transfer`, `timer_pending`, `gpio_get_value`,
`jiffies`, result of `request_firmware_nowait`, result of
`touchkey_flash_firmware`) are supplied by the world.  Log output
(`pr_err`, `pr_info`, `pr_debug`, `dev_err`) is not modelled.
-/

namespace Cptk

/-! ## Constants of the driver -/

def FW_SIZE : Nat := 8192

def KEYCODE_REG : Nat := 0x00
def CMD_REG : Nat := 0x03

def AUTO_CAL_MODE_CMD : Nat := 0x50
def LED_ON_CMD : Nat := 0x10
def LED_OFF_CMD : Nat := 0x20

def AUTO_CAL_EN_CMD : Nat := 0x01

def UPDOWN_EVENT_BIT : Nat := 0x08
def KEYCODE_BIT : Nat := 0x07

def I2C_M_WR : Nat := 0
def I2C_M_RD : Nat := 1

def ENODEV : Int := 19
def EINVAL : Int := 22

def IRQ_HANDLED : Int := 1

def MODE_OFF : Int := 0
def MODE_KEY : Int := 1
def MODE_TS : Int := 2

/-! ## Data model -/

/-- One `struct i2c_msg` as handed to `i2c_transfer`. -/
structure i2c_msg where
  addr : Nat
  flags : Nat
  len : Nat
  buf : List Nat
  deriving DecidableEq, Repr

/-- Calls into the kernel, recorded in program order. -/
inductive Event where
  | i2c_transfer (msgs : List i2c_msg) (ret : Int)
  | msleep (msecs : Nat)
  | input_report_key (code : Nat) (value : Int)
  | input_sync
  | power (onoff : Int)
  | enable_irq
  | disable_irq
  | add_timer (expires : Nat)
  | mod_timer (expires : Nat)
  | del_timer
  | request_firmware_nowait (name : String)
  | i2c_lock_adapter
  | i2c_unlock_adapter
  | touchkey_flash_firmware (ret : Int)
  | release_firmware
  deriving DecidableEq, Repr

/-- Outcome of one `i2c_transfer`: its return value (negative on failure) and
the bytes the device delivers into a read message (byte `i` of the answer). -/
structure i2c_result where
  ret : Int
  rx : Nat → Nat

/-- The fields of `struct cptk_platform_data` the driver uses.  The header
declaring the structure is not part of the sources: `power` says whether the
callback pointer is non-NULL, `keymap` is the memory behind the `keymap`
pointer, `fw_name` is `none` for a NULL pointer. -/
structure cptk_platform_data where
  power : Bool
  mod_ver : Nat
  firm_ver : Nat
  keymap : Nat → Nat
  keymap_size : Nat
  fw_name : Option String

/-- The scalar fields of `struct cptk_data`; the two mutexes are modelled by
a held flag each. -/
structure cptk_data where
  i2c_lock : Bool
  lock : Bool
  led_status : Nat
  cur_firm_ver : List Nat
  touchkey_update_status : Int
  enable : Bool
  notification : Bool
  calibrated : Bool

/-- The `struct timer_list` fields the driver depends on. -/
structure timer_list where
  pending : Bool
  expires : Nat
  deriving DecidableEq, Repr

/-- Driver state together with the environment it runs in. -/
structure World where
  /-- Contents of `struct cptk_data`. -/
  cptk : cptk_data
  /-- Contents of `cptk->pdata`. -/
  pdata : cptk_platform_data
  /-- Value of `cptk->client->addr`. -/
  client_addr : Nat
  /-- Global `touch_led_timer`. -/
  touch_led_timer : timer_list
  /-- Global `touch_led_timeout`. -/
  touch_led_timeout : Int
  /-- Global `touch_led_mode`. -/
  touch_led_mode : Int
  /-- Kernel tick counter. -/
  jiffies : Nat
  /-- Kernel tick rate. -/
  HZ : Nat
  /-- Level of the interrupt line, as returned by `gpio_get_value`. -/
  gpio_value : Int
  /-- Outcome of the n-th `i2c_transfer` on the bus. -/
  bus : Nat → i2c_result
  /-- Number of `i2c_transfer` calls made so far. -/
  xfers : Nat
  /-- Return value of the n-th `touchkey_flash_firmware`. -/
  flash : Nat → Int
  /-- Number of `touchkey_flash_firmware` calls made so far. -/
  flashes : Nat
  /-- Return value of `request_firmware_nowait`. -/
  request_firmware_ret : Int
  /-- Kernel calls made so far, oldest first. -/
  trace : List Event

/-! ## Kernel services -/

/-- Append one kernel call to the trace. -/
def emit (e : Event) (w : World) : World :=
  { w with trace := w.trace ++ [e] }

def mutex_lock_i2c_lock (w : World) : World :=
  { w with cptk := { w.cptk with i2c_lock := true } }

def mutex_unlock_i2c_lock (w : World) : World :=
  { w with cptk := { w.cptk with i2c_lock := false } }

def mutex_lock_lock (w : World) : World :=
  { w with cptk := { w.cptk with lock := true } }

def mutex_unlock_lock (w : World) : World :=
  { w with cptk := { w.cptk with lock := false } }

def msleep (msecs : Nat) (w : World) : World :=
  emit (.msleep msecs) w

/-- The call `i2c_transfer(adapter, msgs, num)`: consumes the next bus outcome. -/
def i2c_transfer (msgs : List i2c_msg) (w : World) : i2c_result × World :=
  let r := w.bus w.xfers
  (r, { w with xfers := w.xfers + 1, trace := w.trace ++ [.i2c_transfer msgs r.ret] })

def input_report_key (code : Nat) (value : Int) (w : World) : World :=
  emit (.input_report_key code value) w

def input_sync (w : World) : World :=
  emit .input_sync w

def enable_irq (w : World) : World :=
  emit .enable_irq w

def disable_irq (w : World) : World :=
  emit .disable_irq w

/-- The guarded call `if (cptk && cptk->pdata->power) cptk->pdata->power(onoff);`. -/
def pdata_power (onoff : Int) (w : World) : World :=
  if w.pdata.power then emit (.power onoff) w else w

def timer_pending (w : World) : Int :=
  if w.touch_led_timer.pending then 1 else 0

/-- The value `jiffies + (HZ * touch_led_timeout)` as an `unsigned long`
(32 bits on this ARM target). -/
def led_timer_expiry (w : World) : Nat :=
  (((w.jiffies : Int) + (w.HZ : Int) * w.touch_led_timeout) % 4294967296).toNat

/-- The pair `touch_led_timer.expires = ...; add_timer(&touch_led_timer);`. -/
def set_expires_add_timer (w : World) : World :=
  let e := led_timer_expiry w
  { w with touch_led_timer := { pending := true, expires := e },
           trace := w.trace ++ [.add_timer e] }

/-- The call `mod_timer(&touch_led_timer, jiffies + (HZ * touch_led_timeout))`:
the timer is pending afterwards with the new expiry. -/
def mod_timer (w : World) : World :=
  let e := led_timer_expiry w
  { w with touch_led_timer := { pending := true, expires := e },
           trace := w.trace ++ [.mod_timer e] }

def del_timer (w : World) : World :=
  { w with touch_led_timer := { w.touch_led_timer with pending := false },
           trace := w.trace ++ [.del_timer] }

/-! ## Transport layer -/

/-- The single write message built by `cptk_i2c_write`. -/
def write_msg (w : World) (cmd val : Nat) : i2c_msg :=
  { addr := w.client_addr, flags := I2C_M_WR, len := 2, buf := [cmd % 256, val % 256] }

/-- The loop `while (retry--) { ... }` of `cptk_i2c_write` and the code after
it; `ret` is the value of the local `ret` on entry to the loop test. -/
def cptk_i2c_write_loop (cmd val : Nat) : Nat → Int → World → Int × World
  | 0, ret, w => (ret, mutex_unlock_i2c_lock w)
  | retry + 1, _, w =>
    let r := i2c_transfer [write_msg w cmd val] w
    if r.1.ret ≥ 0 then
      (0, mutex_unlock_i2c_lock r.2)
    else
      cptk_i2c_write_loop cmd val retry r.1.ret (msleep 20 r.2)

/-- Embedding of `cptk_i2c_write(cptk, cmd, val)`; `cmd` and `val` are `u8`. -/
def cptk_i2c_write (w : World) (cmd val : Nat) : Int × World :=
  if !w.cptk.enable then
    (-ENODEV, w)
  else
    cptk_i2c_write_loop cmd val 2 0 (mutex_lock_i2c_lock w)

/-- The two messages built by `cptk_i2c_read`; `val` is the current content
of the destination buffer. -/
def read_msgs (w : World) (cmd : Nat) (val : List Nat) (len : Nat) : List i2c_msg :=
  [ { addr := w.client_addr, flags := I2C_M_WR, len := 1, buf := [cmd % 256] },
    { addr := w.client_addr, flags := I2C_M_RD, len := len, buf := val } ]

/-- Content of the destination buffer after a successful read of `len` bytes. -/
def read_fill (rx : Nat → Nat) (val : List Nat) (len : Nat) : List Nat :=
  (List.range len).map (fun i => rx i % 256) ++ val.drop len

/-- The loop `while (retry--) { ... }` of `cptk_i2c_read` and the code after it. -/
def cptk_i2c_read_loop (cmd : Nat) (val : List Nat) (len : Nat) :
    Nat → Int → World → Int × List Nat × World
  | 0, ret, w => (ret, val, mutex_unlock_i2c_lock w)
  | retry + 1, _, w =>
    let r := i2c_transfer (read_msgs w cmd val len) w
    if r.1.ret ≥ 0 then
      (0, read_fill r.1.rx val len, mutex_unlock_i2c_lock r.2)
    else
      cptk_i2c_read_loop cmd val len retry r.1.ret (msleep 20 r.2)

/-- Embedding of `cptk_i2c_read(cptk, cmd, val, len)`: returns the status, the
content of the buffer `val` afterwards, and the new world.  A failed transfer
leaves the buffer as it was. -/
def cptk_i2c_read (w : World) (cmd : Nat) (val : List Nat) (len : Nat) :
    Int × List Nat × World :=
  if !w.cptk.enable then
    (-ENODEV, val, w)
  else
    cptk_i2c_read_loop cmd val len 10 0 (mutex_lock_i2c_lock w)

/-! ## Event dispatcher -/

def gpio_get_value (w : World) : Int :=
  w.gpio_value

/-- The `CONFIG_KEY_NOTIFICATION` block of the key-up branch of
`cptk_irq_thread` ("touch led timeout on keyup"). -/
def irq_keyup_led (w : World) : World :=
  if w.touch_led_mode > MODE_OFF then
    if timer_pending w = 0 ∧ !w.cptk.notification then
      set_expires_add_timer w
    else
      mod_timer w
  else
    w

/-- The block `if (!cptk->enable) { power(1); cptk->enable = true; enable_irq(); }`
shared by `cptk_irq_thread` and `touchkey_enable`. -/
def power_on_if_disabled (w : World) : World :=
  if !w.cptk.enable then
    let w := pdata_power 1 w
    let w := { w with cptk := { w.cptk with enable := true } }
    enable_irq w
  else
    w

/-- The `CONFIG_KEY_NOTIFICATION` block of the key-down branch of
`cptk_irq_thread` ("enable lights on keydown"). -/
def irq_keydown_led (w : World) : World :=
  if w.touch_led_mode > MODE_OFF then
    let w := if timer_pending w = 1 then del_timer w else w
    if w.cptk.led_status = LED_OFF_CMD then
      let w := power_on_if_disabled w
      let w := (cptk_i2c_write w KEYCODE_REG LED_ON_CMD).2
      { w with cptk := { w.cptk with led_status := LED_ON_CMD } }
    else
      w
  else
    w

/-- Embedding of `cptk_irq_thread`.  `CONFIG_KEY_NOTIFICATION` selects the
build; `keycode` is the indeterminate initial value of the local variable
`keycode`, which the register read overwrites only when it succeeds.  The
status returned by `cptk_i2c_read` is assigned to `ret` and not looked at. -/
def cptk_irq_thread (CONFIG_KEY_NOTIFICATION : Bool) (keycode : Nat) (w : World) :
    Int × World :=
  let w := mutex_lock_lock w
  let w :=
    if gpio_get_value w = 0 then
      let r := cptk_i2c_read w KEYCODE_REG [keycode % 256] 1
      let keycode := r.2.1.headD 0
      let w := r.2.2
      let w :=
        if keycode &&& UPDOWN_EVENT_BIT ≠ 0 then
          let w := input_report_key (w.pdata.keymap (keycode &&& KEYCODE_BIT)) 0 w
          if CONFIG_KEY_NOTIFICATION then irq_keyup_led w else w
        else
          let w := input_report_key (w.pdata.keymap (keycode &&& KEYCODE_BIT)) 1 w
          if CONFIG_KEY_NOTIFICATION then irq_keydown_led w else w
      input_sync w
    else
      w
  (IRQ_HANDLED, mutex_unlock_lock w)

/-! ## Suspend and resume -/

/-- The loop `for (i = 1; i < keymap_size; i++) input_report_key(keymap[i], 0);`
started at index `i` with `n` iterations left. -/
def release_keys_from (i : Nat) : Nat → World → World
  | 0, w => w
  | n + 1, w => release_keys_from (i + 1) n (input_report_key (w.pdata.keymap i) 0 w)

/-- The key release loop of `cptk_early_suspend`: indices `1 .. keymap_size - 1`. -/
def release_keys (w : World) : World :=
  release_keys_from 1 (w.pdata.keymap_size - 1) w

/-- The statements of `cptk_early_suspend` common to both builds: interrupt
off, power off, `enable = false`, (`calibrated = false`,) release the keys. -/
def suspend_power_down (CONFIG_KEY_NOTIFICATION : Bool) (w : World) : World :=
  let w := disable_irq w
  let w := pdata_power 0 w
  let w := { w with cptk := { w.cptk with enable := false } }
  let w := if CONFIG_KEY_NOTIFICATION then
      { w with cptk := { w.cptk with calibrated := false } } else w
  release_keys w

/-- Embedding of `cptk_early_suspend`. -/
def cptk_early_suspend (CONFIG_KEY_NOTIFICATION : Bool) (w : World) : Int × World :=
  let w := mutex_lock_lock w
  let w :=
    if CONFIG_KEY_NOTIFICATION then
      if w.cptk.enable ∧ !w.cptk.notification then
        let w := if timer_pending w = 1 then del_timer w else w
        let w := (cptk_i2c_write w KEYCODE_REG LED_OFF_CMD).2
        let w := { w with cptk := { w.cptk with led_status := LED_OFF_CMD } }
        suspend_power_down true w
      else
        w
    else
      suspend_power_down false w
  (0, mutex_unlock_lock w)

/-- The unconditional power-up of `cptk_late_resume` in the build without
`CONFIG_KEY_NOTIFICATION`. -/
def resume_power_on (w : World) : World :=
  let w := pdata_power 1 w
  let w := { w with cptk := { w.cptk with enable := true } }
  enable_irq w

/-- The tail of `cptk_late_resume` under `CONFIG_KEY_NOTIFICATION`. -/
def resume_led_notification (w : World) : World :=
  if w.cptk.enable then
    let w :=
      if w.touch_led_mode > MODE_OFF ∧ w.cptk.led_status = LED_OFF_CMD then
        let w := (cptk_i2c_write w KEYCODE_REG LED_ON_CMD).2
        { w with cptk := { w.cptk with led_status := LED_ON_CMD } }
      else
        w
    if timer_pending w = 0 ∧ !w.cptk.notification then
      set_expires_add_timer w
    else
      w
  else
    w

/-- The tail of `cptk_late_resume` in the build without `CONFIG_KEY_NOTIFICATION`. -/
def resume_led_plain (w : World) : World :=
  let w :=
    if w.cptk.led_status = LED_ON_CMD then
      (cptk_i2c_write w KEYCODE_REG LED_ON_CMD).2
    else
      w
  msleep 20 w

/-- Embedding of `cptk_late_resume`. -/
def cptk_late_resume (CONFIG_KEY_NOTIFICATION : Bool) (w : World) : Int × World :=
  let w := mutex_lock_lock w
  let w :=
    if CONFIG_KEY_NOTIFICATION then power_on_if_disabled w else resume_power_on w
  let w := (cptk_i2c_write w KEYCODE_REG AUTO_CAL_MODE_CMD).2
  let w := (cptk_i2c_write w CMD_REG AUTO_CAL_EN_CMD).2
  let w := if CONFIG_KEY_NOTIFICATION then
      { w with cptk := { w.cptk with calibrated := true } } else w
  let w := msleep 50 w
  let w :=
    if CONFIG_KEY_NOTIFICATION then resume_led_notification w else resume_led_plain w
  (0, mutex_unlock_lock w)

/-! ## Firmware update request -/

/-- The call `request_firmware_nowait(...)`: the request is recorded and the
world supplies the return value.  The completion callback runs later, as a
separate operation. -/
def request_firmware_nowait (name : String) (w : World) : Int × World :=
  (w.request_firmware_ret, emit (.request_firmware_nowait name) w)

/-- Embedding of `cptk_update_firmware`. -/
def cptk_update_firmware (w : World) : Int × World :=
  let w := { w with cptk := { w.cptk with touchkey_update_status := 1 } }
  match w.pdata.fw_name with
  | none => (-EINVAL, w)
  | some name =>
    let r := request_firmware_nowait name w
    if r.1 ≠ 0 then (r.1, r.2) else (0, r.2)

/-- Embedding of `set_touchkey_firm_update_store`: `buf` holds the bytes
written to the attribute (its first byte is 0 when nothing was written, the
buffer being NUL-terminated), `size` is the byte count passed along. -/
def set_touchkey_firm_update_store (w : World) (buf : List Nat) (size : Nat) :
    Int × World :=
  let c := buf.headD 0
  if c = 'S'.toNat ∨ c = 'F'.toNat then
    if (c ≠ 'F'.toNat ∧ w.cptk.cur_firm_ver.getD 1 0 ≥ w.pdata.firm_ver) ∧
        w.cptk.cur_firm_ver.getD 1 0 ≠ 0xFF then
      ((size : Int), { w with cptk := { w.cptk with touchkey_update_status := 0 } })
    else
      ((size : Int), (cptk_update_firmware w).2)
  else
    ((size : Int), w)

/-! ## Firmware update callback -/

/-- The fields of `struct firmware` the driver uses. -/
structure firmware where
  size : Nat
  data : List Nat

/-- The call `touchkey_flash_firmware(cptk->pdata, fw->data)`: the flasher is
not part of this file; the world supplies its return value (0 on success). -/
def touchkey_flash_firmware (_fw : firmware) (w : World) : Int × World :=
  let r := w.flash w.flashes
  (r, { w with flashes := w.flashes + 1, trace := w.trace ++ [.touchkey_flash_firmware r] })

/-- The loop `while (retries--) { ret = touchkey_flash_firmware(...); if (!ret) break; }`
of `cptk_update_firmware_cb`; the result carries the value of `ret` after it. -/
def flash_loop (fw : firmware) : Nat → Int → World → Int × World
  | 0, ret, w => (ret, w)
  | retries + 1, _, w =>
    let r := touchkey_flash_firmware fw w
    if r.1 = 0 then (r.1, r.2) else flash_loop fw retries r.1 r.2

/-- The statement `cptk_i2c_read(cptk, KEYCODE_REG, cptk->cur_firm_ver,
sizeof(cptk->cur_firm_ver));` that ends `cptk_update_firmware_cb`: the three
bytes are read straight into the field. -/
def reread_firm_ver (w : World) : World :=
  let r := cptk_i2c_read w KEYCODE_REG w.cptk.cur_firm_ver 3
  { r.2.2 with cptk := { r.2.2.cptk with cur_firm_ver := r.2.1 } }

/-- The part of `cptk_update_firmware_cb` from `disable_irq` to
`release_firmware`, executed with `cptk->lock` held. -/
def flash_with_irq_off (fw : firmware) (w : World) : World :=
  let w := disable_irq w
  let w := emit .i2c_lock_adapter w
  let r := flash_loop fw 3 0 w
  let w := r.2
  let w :=
    if r.1 ≠ 0 then
      { w with cptk := { w.cptk with touchkey_update_status := -1 } }
    else
      { w with cptk := { w.cptk with touchkey_update_status := 0 } }
  let w := emit .i2c_unlock_adapter w
  let w := enable_irq w
  emit .release_firmware w

/-- Embedding of `cptk_update_firmware_cb(fw, context)`.  The local `ret` is
assigned by the first iteration of the loop before it is read. -/
def cptk_update_firmware_cb (fw : firmware) (w : World) : World :=
  if fw.size ≠ FW_SIZE then
    w
  else
    let w := mutex_lock_lock w
    let w := flash_with_irq_off fw w
    let w := mutex_unlock_lock w
    reread_firm_ver w

/-! ## Backlight policy (`CONFIG_KEY_NOTIFICATION`) -/

/-- Embedding of `touchkey_enable`. -/
def touchkey_enable (w : World) : World :=
  let w := mutex_lock_lock w
  let w :=
    if w.touch_led_mode > MODE_OFF ∧ w.cptk.led_status = LED_OFF_CMD then
      let w := power_on_if_disabled w
      let w := (cptk_i2c_write w KEYCODE_REG LED_ON_CMD).2
      let w := { w with cptk := { w.cptk with led_status := LED_ON_CMD } }
      if timer_pending w = 0 ∧ !w.cptk.notification then
        set_expires_add_timer w
      else
        w
    else
      w
  mutex_unlock_lock w

/-- Embedding of `touchkey_disable`. -/
def touchkey_disable (w : World) : World :=
  let w := mutex_lock_lock w
  let w :=
    if w.touch_led_mode > MODE_OFF ∧ !w.cptk.notification then
      let w := if timer_pending w = 1 then del_timer w else w
      if w.cptk.enable then
        let w := (cptk_i2c_write w KEYCODE_REG LED_OFF_CMD).2
        let w := { w with cptk := { w.cptk with led_status := LED_OFF_CMD } }
        let w := disable_irq w
        let w := pdata_power 0 w
        { w with cptk := { w.cptk with enable := false } }
      else
        w
    else
      w
  mutex_unlock_lock w

/-- Embedding of `touch_led_enable`. -/
def touch_led_enable (w : World) : World :=
  touchkey_enable w

/-- Embedding of `touch_led_disable`. -/
def touch_led_disable (w : World) : World :=
  let w := mutex_lock_lock w
  let w :=
    if w.touch_led_mode > MODE_OFF then
      let w := if timer_pending w = 1 then del_timer w else w
      if w.cptk.enable then
        let w := (cptk_i2c_write w KEYCODE_REG LED_OFF_CMD).2
        { w with cptk := { w.cptk with led_status := LED_OFF_CMD } }
      else
        w
    else
      w
  mutex_unlock_lock w

/-- Embedding of `touch_led_mode_store`.  `parsed` is what
`sscanf(buf, "%d\n", &data)` delivers: `none` when no integer was read
(`ret != 1`), otherwise the value of `data`. -/
def touch_led_mode_store (w : World) (parsed : Option Int) (size : Nat) : Int × World :=
  match parsed with
  | none => (-EINVAL, w)
  | some data =>
    let w := if data = 0 then touch_led_disable w else touch_led_enable w
    ((size : Int), { w with touch_led_mode := data })

/-- Embedding of `touch_led_notification`; `parsed` as in `touch_led_mode_store`. -/
def touch_led_notification (w : World) (parsed : Option Int) (size : Nat) : Int × World :=
  match parsed with
  | none => (-EINVAL, w)
  | some data =>
    if data > 0 ∧ w.touch_led_mode > MODE_OFF then
      let w := { w with cptk := { w.cptk with notification := true } }
      ((size : Int), touch_led_enable w)
    else
      let w := { w with cptk := { w.cptk with notification := false } }
      ((size : Int), touch_led_disable w)

/-- Embedding of `touch_led_timedout_work`. -/
def touch_led_timedout_work (w : World) : World :=
  let w := mutex_lock_lock w
  let w :=
    if !w.cptk.notification ∧ w.touch_led_timeout ≠ 0 then
      let w := (cptk_i2c_write w KEYCODE_REG LED_OFF_CMD).2
      { w with cptk := { w.cptk with led_status := LED_OFF_CMD } }
    else
      w
  mutex_unlock_lock w

/-- The value of `data << 4` once stored in a `u8` (the argument `val` of
`cptk_i2c_write` and the field `led_status`). -/
def shl4_u8 (data : Int) : Nat :=
  ((data * 16) % 256).toNat

/-- Embedding of `touch_led_control`; `parsed` as in `touch_led_mode_store`. -/
def touch_led_control (w : World) (parsed : Option Int) (size : Nat) : Int × World :=
  let w := mutex_lock_lock w
  match parsed with
  | none => (-EINVAL, mutex_unlock_lock w)
  | some data =>
    let w := (cptk_i2c_write w KEYCODE_REG (shl4_u8 data)).2
    let w := { w with cptk := { w.cptk with led_status := shl4_u8 data } }
    let w := msleep 20 w
    ((size : Int), mutex_unlock_lock w)

/-! ## Teardown -/

/-- Embedding of `cptk_remove`: the function body is `return 0;`. -/
def cptk_remove (w : World) : Int × World :=
  (0, w)

/-- Embedding of `cptk_shutdown`. -/
def cptk_shutdown (w : World) : World :=
  let w := disable_irq w
  pdata_power 0 w

end Cptk

/-! # USB PHY trim tuning

Embedding of `omap4430_phy_init_for_eyediagram` from
`arch/arm/mach-omap2/omap_phy_tune.c`.  The function works on three 32-bit
registers of the system control module and on the static `phy_tune`; the
transceiver clock calls, `ioremap` / `iounmap` and the log output are not
modelled.  All `u32` values are natural numbers below `2^32`.
-/

namespace PhyTune

def swcap_trim_check_offset : Nat := 1
def bg_trim_check_offset : Nat := 2
def rterm_rmx_check_offset : Nat := 4

/-- The static `struct omap_phy_tune phy_tune`. -/
structure omap_phy_tune where
  swcap_trim_cal : Nat
  bg_trim_cal : Nat
  rterm_rmx_cal : Nat
  cal_check : Nat
  deriving DecidableEq, Repr

/-- The registers at `OCP2SCP_TIMING_OFFSET`, `USB2PHYCM_TRIM_OFFSET` and
`TREMINATIOM_CONTROL`. -/
structure scm_regs where
  ocp2scp_timing : Nat
  usb2phycm_trim : Nat
  termination_control : Nat
  deriving DecidableEq, Repr

/-- The sum `cal + offset` of a `u32` and an `int` as C computes it: the
`int` is converted to `u32` and the addition wraps modulo `2^32`. -/
def add_u32_int (cal : Nat) (offset : Int) : Nat :=
  (((cal : Int) + offset) % 4294967296).toNat

/-- The cast `(int)u` of a `u32` (two's complement). -/
def to_int (u : Nat) : Int :=
  if u < 2147483648 then (u : Int) else (u : Int) - 4294967296

/-- The three-way choice
`if ((int)(cal + offset) < 0) 0; else if ((int)(cal + offset) > max) max; else cal + offset`. -/
def trim_value (cal : Nat) (offset : Int) (max : Nat) : Nat :=
  if to_int (add_u32_int cal offset) < 0 then 0
  else if to_int (add_u32_int cal offset) > (max : Int) then max
  else add_u32_int cal offset

/-- The `swcap_trim` part of the function: latch the calibration value on the
first call, then rewrite bits 8..15 of `read_val`. -/
def swcap_stage (swcap_trim_offset : Int) (t : omap_phy_tune) (read_val : Nat) :
    omap_phy_tune × Nat :=
  let swcap_trim := (read_val &&& 0x00007F00) >>> 8
  let t :=
    if t.cal_check &&& swcap_trim_check_offset = 0 then
      { t with swcap_trim_cal := swcap_trim,
               cal_check := t.cal_check ||| swcap_trim_check_offset }
    else t
  if swcap_trim_offset ≠ 0 then
    let swcap_trim := trim_value t.swcap_trim_cal swcap_trim_offset 0x7f
    let read_val := read_val &&& 0xFFFF80FF
    let read_val := read_val ||| (swcap_trim <<< 8)
    let read_val := read_val ||| 0x00008000
    (t, read_val)
  else
    (t, read_val &&& 0xFFFF7FFF)

/-- The `bg_trim` part of the function: bits 16..31 of `read_val`. -/
def bg_stage (bg_trim_offset : Int) (t : omap_phy_tune) (read_val : Nat) :
    omap_phy_tune × Nat :=
  let t :=
    if t.cal_check &&& bg_trim_check_offset = 0 then
      { t with bg_trim_cal := (read_val &&& 0x7FFF0000) >>> 16,
               cal_check := t.cal_check ||| bg_trim_check_offset }
    else t
  if bg_trim_offset ≠ 0 then
    let bg_trim := trim_value t.bg_trim_cal bg_trim_offset 0x7FFF
    let read_val := read_val &&& 0x0000FFFF
    let read_val := read_val ||| (bg_trim <<< 16)
    let read_val := read_val ||| 0x80000000
    (t, read_val)
  else
    (t, read_val &&& 0x7FFFFFFF)

/-- The `rterm_rmx` part of the function: bits 14..21 of the termination
control register. -/
def rterm_stage (rterm_rmx_offset : Int) (t : omap_phy_tune) (read_val : Nat) :
    omap_phy_tune × Nat :=
  let t :=
    if t.cal_check &&& rterm_rmx_check_offset = 0 then
      { t with rterm_rmx_cal := (read_val &&& 0x001FC000) >>> 14,
               cal_check := t.cal_check ||| rterm_rmx_check_offset }
    else t
  if rterm_rmx_offset ≠ 0 then
    let rterm_rmx := trim_value t.rterm_rmx_cal rterm_rmx_offset 0x7F
    let read_val := read_val &&& 0xFFE03FFF
    let read_val := read_val ||| (rterm_rmx <<< 14)
    let read_val := read_val ||| 0x00200000
    (t, read_val)
  else
    (t, read_val &&& 0xFFDFFFFF)

/-- Embedding of `omap4430_phy_init_for_eyediagram(swcap_trim_offset,
bg_trim_offset, rterm_rmx_offset)`: the static `phy_tune` and the registers
before the call give those after it. -/
def omap4430_phy_init_for_eyediagram (swcap_trim_offset bg_trim_offset rterm_rmx_offset : Int)
    (t : omap_phy_tune) (r : scm_regs) : omap_phy_tune × scm_regs :=
  let r := if r.ocp2scp_timing ≠ 0x0000000F then { r with ocp2scp_timing := 0x0000000F } else r
  let read_val := r.usb2phycm_trim
  let s := swcap_stage swcap_trim_offset t read_val
  let b := bg_stage bg_trim_offset s.1 s.2
  let r := { r with usb2phycm_trim := b.2 }
  let read_val := r.termination_control
  let m := rterm_stage rterm_rmx_offset b.1 read_val
  let r := { r with termination_control := m.2 }
  (m.1, r)

end PhyTune

namespace Cptk

/-! ## Remaining sysfs attributes and the touchscreen hook -/

def THRESHOLD_REG : Nat := 0x04
def AUTOCAL_REG : Nat := 0x05
def IDAC_REG : Nat := 0x06
def DIFF_DATA_REG : Nat := 0x0A
def RAW_DATA_REG : Nat := 0x0E

def SENS_EN_CMD : Nat := 0x40

def TK_BIT_AUTOCAL : Nat := 0x80

/-- Embedding of `set_touchkey_firm_version_read_show`.  The result is
`.error ret` on the early return of a non-zero read status, and `.ok b` with
`b` the byte `data[1]` that is formatted into `buf` otherwise. -/
def set_touchkey_firm_version_read_show (w : World) : Except Int Nat × World :=
  let w := mutex_lock_lock w
  let r := cptk_i2c_read w KEYCODE_REG [0, 0, 0] 3
  let w := r.2.2
  if r.1 ≠ 0 then
    (.error r.1, mutex_unlock_lock w)
  else
    let w := mutex_unlock_lock w
    (.ok (r.2.1.getD 1 0), w)

/-- Embedding of `touchkey_enable_disable` (the store of `enable_disable`);
`parsed` as in `touch_led_mode_store`. -/
def touchkey_enable_disable (w : World) (parsed : Option Int) (size : Nat) : Int × World :=
  match parsed with
  | none => (-EINVAL, w)
  | some data =>
    let w := if data > 0 then touchkey_enable w else touchkey_disable w
    ((size : Int), w)

/-- Embedding of `touch_led_set_timeout`; `parsed` as in `touch_led_mode_store`. -/
def touch_led_set_timeout (w : World) (parsed : Option Int) (size : Nat) : Int × World :=
  match parsed with
  | none => (-EINVAL, w)
  | some data => ((size : Int), { w with touch_led_timeout := data })

/-- Embedding of `touch_led_timedout`, the handler of `touch_led_timer`:
`queue_work` hands the work item to the single-threaded queue `cptk_wq`,
which runs `touch_led_timedout_work`. -/
def touch_led_timedout (w : World) : World :=
  touch_led_timedout_work w

/-- Embedding of `touchscreen_state_report(state)`. -/
def touchscreen_state_report (state : Int) (w : World) : World :=
  if w.touch_led_mode = MODE_TS then
    if state = 1 then
      if w.cptk.led_status = LED_OFF_CMD then
        touch_led_enable w
      else
        if timer_pending w = 1 then mod_timer w else w
    else if state = 0 ∧ !w.cptk.notification then
      if timer_pending w = 1 then
        mod_timer w
      else if w.cptk.led_status = LED_ON_CMD then
        set_expires_add_timer w
      else
        w
    else
      w
  else
    w

/-- The expression `((0x00FF & data[0]) << 8) | data[1]` over a two-byte buffer. -/
def sensitivity_value (data : List Nat) : Nat :=
  ((0x00FF &&& data.getD 0 0) <<< 8) ||| data.getD 1 0

/-- Embedding of `touchkey_menu_show`; `d0` and `d1` are the indeterminate
initial bytes of the local `data`.  The first component is the number
formatted into `buf`. -/
def touchkey_menu_show (d0 d1 : Nat) (w : World) : Nat × World :=
  let w := mutex_lock_lock w
  let r := cptk_i2c_read w DIFF_DATA_REG [d0 % 256, d1 % 256] 2
  let menu_sensitivity := if r.1 ≥ 0 then sensitivity_value r.2.1 else 0
  let w := mutex_unlock_lock r.2.2
  (menu_sensitivity, w)

/-- Embedding of `touchkey_back_show`; parameters and result as in
`touchkey_menu_show`. -/
def touchkey_back_show (d0 d1 : Nat) (w : World) : Nat × World :=
  let w := mutex_lock_lock w
  let r := cptk_i2c_read w (DIFF_DATA_REG + 2) [d0 % 256, d1 % 256] 2
  let back_sensitivity := if r.1 ≥ 0 then sensitivity_value r.2.1 else 0
  let w := mutex_unlock_lock r.2.2
  (back_sensitivity, w)

/-- Embedding of `touch_sensitivity_control`. -/
def touch_sensitivity_control (w : World) (size : Nat) : Int × World :=
  let w := mutex_lock_lock w
  let w := (cptk_i2c_write w KEYCODE_REG SENS_EN_CMD).2
  let w := msleep 20 w
  let w := mutex_unlock_lock w
  ((size : Int), w)

/-- Embedding of `touchkey_raw_data0_show`; `d0` and `d1` as in
`touchkey_menu_show`, the result is the `u16` formatted into `buf`. -/
def touchkey_raw_data0_show (d0 d1 : Nat) (w : World) : Nat × World :=
  let r := cptk_i2c_read w RAW_DATA_REG [d0 % 256, d1 % 256] 2
  let raw_data0 := if r.1 ≥ 0 then sensitivity_value r.2.1 % 65536 else 0
  (raw_data0, r.2.2)

/-- Embedding of `touchkey_raw_data1_show`. -/
def touchkey_raw_data1_show (d0 d1 : Nat) (w : World) : Nat × World :=
  let r := cptk_i2c_read w (RAW_DATA_REG + 2) [d0 % 256, d1 % 256] 2
  let raw_data1 := if r.1 ≥ 0 then sensitivity_value r.2.1 % 65536 else 0
  (raw_data1, r.2.2)

/-- Embedding of `touchkey_threshold_show`; `data` is the indeterminate
initial value of the local `data`, which is formatted into `buf` whether or
not the read succeeded. -/
def touchkey_threshold_show (data : Nat) (w : World) : Nat × World :=
  let r := cptk_i2c_read w THRESHOLD_REG [data % 256] 1
  (r.2.1.headD 0, r.2.2)

/-- Embedding of `touchkey_autocal_status_show`; the first component is true
when `"Enabled"` is printed. -/
def touchkey_autocal_status_show (data : Nat) (w : World) : Bool × World :=
  let r := cptk_i2c_read w AUTOCAL_REG [data % 256] 1
  (decide (r.2.1.headD 0 &&& TK_BIT_AUTOCAL ≠ 0), r.2.2)

/-- Embedding of `touchkey_idac0_show`. -/
def touchkey_idac0_show (data : Nat) (w : World) : Nat × World :=
  let r := cptk_i2c_read w IDAC_REG [data % 256] 1
  (r.2.1.headD 0, r.2.2)

/-- Embedding of `touchkey_idac1_show`. -/
def touchkey_idac1_show (data : Nat) (w : World) : Nat × World :=
  let r := cptk_i2c_read w (IDAC_REG + 1) [data % 256] 1
  (r.2.1.headD 0, r.2.2)

/-! ## Observations on traces, sample worlds and proof vocabulary -/

/-- Whether a recorded call is an `i2c_transfer`. -/
def is_transfer : Event → Bool
  | .i2c_transfer _ _ => true
  | _ => false

/-- Number of bus transfers recorded in a trace. -/
def transfers (t : List Event) : Nat :=
  t.countP is_transfer

/-- Whether a recorded call goes to the input sink. -/
def is_input : Event → Bool
  | .input_report_key _ _ => true
  | .input_sync => true
  | _ => false

/-- The calls to the input sink recorded in a trace, oldest first. -/
def input_events (t : List Event) : List Event :=
  t.filter is_input

/-- A bus on which every transfer succeeds and every byte read is `b`. -/
def bus_ok (b : Nat) : Nat → i2c_result :=
  fun _ => { ret := 1, rx := fun _ => b }

/-- A bus on which the first `n` transfers fail with `-5` (`-EIO`) and the
later ones succeed, every byte read being `b`. -/
def bus_fail_first (n b : Nat) : Nat → i2c_result :=
  fun i => if i < n then { ret := -5, rx := fun _ => 0 } else { ret := 2, rx := fun _ => b }

/-- Platform data of a board with three keymap entries and a power callback. -/
def demo_pdata : cptk_platform_data :=
  { power := true, mod_ver := 8, firm_ver := 6,
    keymap := fun i => [99, 139, 158].getD i 0, keymap_size := 3,
    fw_name := some "cypress_touchkey.fw" }

/-- The state `cptk_i2c_probe` leaves behind on the demo board: enabled,
calibrated, LED off, no notification, interrupt line active. -/
def demo_world : World :=
  { cptk := { i2c_lock := false, lock := false, led_status := LED_OFF_CMD,
              cur_firm_ver := [0, 6, 8], touchkey_update_status := 0,
              enable := true, notification := false, calibrated := true },
    pdata := demo_pdata, client_addr := 0x20,
    touch_led_timer := { pending := false, expires := 0 },
    touch_led_timeout := 1, touch_led_mode := MODE_KEY,
    jiffies := 1000, HZ := 128, gpio_value := 0,
    bus := bus_ok 1, xfers := 0, flash := fun _ => 0, flashes := 0,
    request_firmware_ret := 0, trace := [] }

/-- The demo state after a suspend: device disabled. -/
def demo_disabled : World :=
  { demo_world with cptk := { demo_world.cptk with enable := false, calibrated := false } }

/-- The world after one failed transfer of `msgs` and the 20 ms sleep. -/
def after_failed_transfer (msgs : List i2c_msg) (w : World) : World :=
  msleep 20 (i2c_transfer msgs w).2

/-- The world `w` after bus activity only: `n` more transfers, the calls
`evs` appended to the trace, and the bus lock flag set to `l`. -/
def bus_update (w : World) (l : Bool) (n : Nat) (evs : List Event) : World :=
  { w with cptk := { w.cptk with i2c_lock := l }, xfers := w.xfers + n,
           trace := w.trace ++ evs }

/-- Every call in `evs` is a transfer of `msgs` or the 20 ms retry delay. -/
def bus_events (msgs : List i2c_msg) (evs : List Event) : Prop :=
  ∀ e, e ∈ evs → e = Event.msleep 20 ∨ ∃ r, e = Event.i2c_transfer msgs r

/-- The demo state on a bus whose first `n` transfers fail. -/
def demo_flaky (n b : Nat) : World :=
  { demo_world with bus := bus_fail_first n b }

/-- Relation between the worlds before and after a piece of code that does not
talk to the input sink: the trace grows by calls that are not input calls,
the platform data and the interrupt line are untouched, and an enabled
device stays enabled. -/
def quiet_step (w w' : World) : Prop :=
  (∃ evs, w'.trace = w.trace ++ evs ∧ input_events evs = []) ∧
  w'.pdata = w.pdata ∧ w'.gpio_value = w.gpio_value ∧
  (w.cptk.enable = true → w'.cptk.enable = true)

/-- A bus on which every transfer succeeds; bytes read by the first two
transfers are `b1`, bytes read by later transfers are `b2`. -/
def bus_two_reads (b1 b2 : Nat) : Nat → i2c_result :=
  fun i => { ret := 1, rx := fun _ => if i < 2 then b1 else b2 }

/-- The demo state on a bus answering `b1` then `b2`. -/
def demo_keys (b1 b2 : Nat) : World :=
  { demo_world with bus := bus_two_reads b1 b2 }

/-- The calls `input_report_key(keymap[i], 0)` for `i = 1 .. keymap_size - 1`. -/
def released_keys (w : World) : List Event :=
  (List.range' 1 (w.pdata.keymap_size - 1)).map
    (fun i => Event.input_report_key (w.pdata.keymap i) 0)

/-- What the guarded power callback adds to the trace: a call when the
platform provides the callback, nothing otherwise. -/
def power_events (onoff : Int) (w : World) : List Event :=
  if w.pdata.power then [Event.power onoff] else []

/-- What `if (timer_pending(&touch_led_timer) == 1) del_timer(&touch_led_timer);`
adds to the trace. -/
def cancel_events (w : World) : List Event :=
  if w.touch_led_timer.pending then [Event.del_timer] else []

/-- The demo state with a notification active. -/
def demo_notified : World :=
  { demo_world with cptk := { demo_world.cptk with notification := true } }

/-- What `power_on_if_disabled` adds to the trace: nothing on an enabled
device, otherwise the power-on call (when the platform has the callback)
followed by `enable_irq`. -/
def power_on_events (w : World) : List Event :=
  if w.cptk.enable then [] else power_events 1 w ++ [Event.enable_irq]

/-- The condition under which `cptk_late_resume` (notification build) writes
`LED_ON_CMD`. -/
def resume_led_cond (w : World) : Prop :=
  w.touch_led_mode > MODE_OFF ∧ w.cptk.led_status = LED_OFF_CMD

instance (w : World) : Decidable (resume_led_cond w) := by
  unfold resume_led_cond
  exact inferInstance

/-- The condition under which `cptk_late_resume` (notification build) calls
`add_timer`. -/
def resume_arm_cond (w : World) : Prop :=
  w.touch_led_timer.pending = false ∧ w.cptk.notification = false

instance (w : World) : Decidable (resume_arm_cond w) := by
  unfold resume_arm_cond
  exact inferInstance

/-- The register and value carried by a recorded bus transfer that consists
of one two-byte write message. -/
def written_pair : Event → Option (Nat × Nat)
  | .i2c_transfer [m] _ =>
    if m.flags = I2C_M_WR ∧ m.len = 2 then
      match m.buf with
      | [c, v] => some (c, v)
      | _ => none
    else none
  | _ => none

/-- The (register, value) pairs of the register writes that reached the bus,
one entry per transfer attempt, oldest first. -/
def written (t : List Event) : List (Nat × Nat) :=
  t.filterMap written_pair

/-- The demo state with the LED recorded as on. -/
def demo_led_on : World :=
  { demo_world with cptk := { demo_world.cptk with led_status := LED_ON_CMD } }

/-- The demo state with the backlight mode set to Off. -/
def demo_mode_off : World :=
  { demo_world with touch_led_mode := MODE_OFF }

/-- The condition of claim C10 under which a firmware update is requested:
the first byte written is 'F', or it is 'S' and the IC version
`cur_firm_ver[1]` is below the target `firm_ver` or is the sentinel 0xFF. -/
def firm_update_requested (w : World) (buf : List Nat) : Prop :=
  buf.headD 0 = 'F'.toNat ∨
  (buf.headD 0 = 'S'.toNat ∧
    (w.cptk.cur_firm_ver.getD 1 0 < w.pdata.firm_ver ∨ w.cptk.cur_firm_ver.getD 1 0 = 0xFF))

instance (w : World) (buf : List Nat) : Decidable (firm_update_requested w buf) := by
  unfold firm_update_requested
  exact inferInstance

/-- The behaviour claim C10 describes for a write to the firmware update
attribute: request the update under `firm_update_requested`; otherwise, for
'S', only set the status to 0 (Pass); otherwise do nothing.  Always return
the size. -/
def firm_update_store_spec (w : World) (buf : List Nat) (size : Nat) : Int × World :=
  if firm_update_requested w buf then
    ((size : Int), (cptk_update_firmware w).2)
  else if buf.headD 0 = 'S'.toNat then
    ((size : Int), { w with cptk := { w.cptk with touchkey_update_status := 0 } })
  else
    ((size : Int), w)

/-- The demo state with an IC firmware older than the target version. -/
def demo_outdated : World :=
  { demo_world with cptk := { demo_world.cptk with cur_firm_ver := [0, 5, 8] } }

/-- The calls `touchkey_flash_firmware` number `start`, ..., `start + n - 1`
with the return values the world supplies for them. -/
def flash_events (flash : Nat → Int) (start n : Nat) : List Event :=
  (List.range' start n).map (fun j => Event.touchkey_flash_firmware (flash j))

/-- A firmware image of the expected size. -/
def demo_fw : firmware :=
  { size := 8192, data := [] }

/-- A firmware image of 4096 bytes. -/
def demo_fw_short : firmware :=
  { size := 4096, data := [] }

/-- The demo state with a flasher that fails `n` times and then succeeds. -/
def demo_flash_fails (n : Nat) : World :=
  { demo_world with flash := fun i => if i < n then -1 else 0,
                    cptk := { demo_world.cptk with touchkey_update_status := 1 } }

/-- The demo state on a board that configures no firmware name. -/
def demo_no_fw_name : World :=
  { demo_world with pdata := { demo_pdata with fw_name := none } }

/-- The demo state with a notification active, the LED on and the idle timer
pending. -/
def demo_notified_lit : World :=
  { demo_world with
    cptk := { demo_world.cptk with notification := true, led_status := LED_ON_CMD },
    touch_led_timer := { pending := true, expires := 1100 } }

/-- The two backlight policy calls of claim C15. -/
inductive led_call where
  | enable
  | disable
  deriving DecidableEq, Repr

/-- Run a sequence of `touchkey_enable` / `touchkey_disable` calls, first
call first. -/
def run_led_calls : List led_call → World → World
  | [], w => w
  | led_call.enable :: t, w => run_led_calls t (touchkey_enable w)
  | led_call.disable :: t, w => run_led_calls t (touchkey_disable w)

/-- How one recorded call bears on the `enable` flag in the policy calls: the
flag is set just before `enable_irq` is called and cleared just after
`disable_irq` (and the power-off) is called. -/
def replay_step (en : Bool) : Event → Bool
  | .enable_irq => true
  | .disable_irq => false
  | _ => en

/-- The `enable` flag after the calls of a trace, starting from `en`. -/
def enable_replay (en : Bool) (t : List Event) : Bool :=
  t.foldl replay_step en

/-- Whether every bus transfer of the write (KEYCODE_REG, LED_ON_CMD) in the
trace is made while the `enable` flag, started at `en` and followed along the
trace, is true. -/
def led_on_only_enabled (en : Bool) : List Event → Bool
  | [] => true
  | e :: t =>
    (decide (written_pair e ≠ some (KEYCODE_REG, LED_ON_CMD)) || en) &&
      led_on_only_enabled (replay_step en e) t

/-- Whether a recorded call is a bus transfer that succeeded (`ret >= 0`). -/
def is_ok_transfer : Event → Bool
  | .i2c_transfer _ r => decide (0 ≤ r)
  | _ => false

/-- The (register, value) pairs of the register writes that were transmitted
successfully. -/
def written_ok (t : List Event) : List (Nat × Nat) :=
  written (t.filter is_ok_transfer)

/-- Relation between the worlds before and after an operation: the trace
grows, and if `led_status` has changed, a bus transfer writing the new value
to the keycode register is among the added calls. -/
def led_recorded (w w' : World) : Prop :=
  ∃ new, w'.trace = w.trace ++ new ∧
    (w'.cptk.led_status = w.cptk.led_status ∨
      (KEYCODE_REG, w'.cptk.led_status) ∈ written new)

/-- The demo state with the device disabled while the LED is recorded as on. -/
def demo_disabled_lit : World :=
  { demo_world with
    cptk := { demo_world.cptk with enable := false, led_status := LED_ON_CMD } }

/-- The demo state with the idle timer pending. -/
def demo_timer_pending : World :=
  { demo_world with touch_led_timer := { pending := true, expires := 1100 } }

/-- The demo state with a notification active, on a bus that answers every
read with the byte 0x0A (key-up for key index 2). -/
def demo_notified_keyup : World :=
  { demo_notified with bus := bus_ok 0x0A }

end Cptk

namespace PhyTune

/-- The value `x` limited to the range `lo .. hi`, over the integers. -/
def clamp (x lo hi : Int) : Int :=
  if x < lo then lo else if x > hi then hi else x

/-- The calibration value the `swcap_trim` computation uses: bits 8..14 of the
register when it is latched by this call (first call), the stored value
otherwise. -/
def latched_swcap_cal (t : omap_phy_tune) (r : scm_regs) : Nat :=
  if t.cal_check &&& swcap_trim_check_offset = 0 then
    (r.usb2phycm_trim &&& 0x00007F00) >>> 8
  else t.swcap_trim_cal

/-- Bits 8..14 of a register value. -/
def swcap_field (v : Nat) : Nat :=
  (v >>> 8) &&& 0x7F

/-- A state in which no calibration value has been latched yet. -/
def tune_fresh : omap_phy_tune :=
  { swcap_trim_cal := 0, bg_trim_cal := 0, rterm_rmx_cal := 0, cal_check := 0 }

/-- Registers whose `USB2PHYCM_TRIM` value has `swcap` field `cal`. -/
def regs_with_cal (cal : Nat) : scm_regs :=
  { ocp2scp_timing := 0x0000000F, usb2phycm_trim := cal <<< 8, termination_control := 0 }

end PhyTune

namespace Cptk

/-- Both mutexes of the driver, `cptk->lock` and `cptk->i2c_lock`, are free. -/
def locks_free (w : World) : Prop :=
  w.cptk.lock = false ∧ w.cptk.i2c_lock = false

instance (w : World) : Decidable (locks_free w) := by
  unfold locks_free
  infer_instance

/-- The functions of the driver that take `cptk->lock` or `cptk->i2c_lock`,
directly or through a function they call, each with the inputs it receives. -/
inductive locking_call where
  | i2c_write (cmd val : Nat)
  | i2c_read (cmd : Nat) (val : List Nat) (len : Nat)
  | irq_thread (CONFIG_KEY_NOTIFICATION : Bool) (keycode : Nat)
  | early_suspend (CONFIG_KEY_NOTIFICATION : Bool)
  | late_resume (CONFIG_KEY_NOTIFICATION : Bool)
  | update_firmware_cb (fw : firmware)
  | firm_version_read_show
  | enable
  | disable
  | enable_disable (parsed : Option Int) (size : Nat)
  | led_enable
  | led_disable
  | led_mode_store (parsed : Option Int) (size : Nat)
  | led_notification (parsed : Option Int) (size : Nat)
  | led_timedout
  | state_report (state : Int)
  | led_control (parsed : Option Int) (size : Nat)
  | menu_show (d0 d1 : Nat)
  | back_show (d0 d1 : Nat)
  | sensitivity_control (size : Nat)
  | raw_data0_show (d0 d1 : Nat)
  | raw_data1_show (d0 d1 : Nat)
  | threshold_show (data : Nat)
  | autocal_status_show (data : Nat)
  | idac0_show (data : Nat)
  | idac1_show (data : Nat)

/-- The world in which a call of one of the locking functions returns. -/
def world_after : locking_call → World → World
  | .i2c_write cmd val, w => (cptk_i2c_write w cmd val).2
  | .i2c_read cmd val len, w => (cptk_i2c_read w cmd val len).2.2
  | .irq_thread cfg keycode, w => (cptk_irq_thread cfg keycode w).2
  | .early_suspend cfg, w => (cptk_early_suspend cfg w).2
  | .late_resume cfg, w => (cptk_late_resume cfg w).2
  | .update_firmware_cb fw, w => cptk_update_firmware_cb fw w
  | .firm_version_read_show, w => (set_touchkey_firm_version_read_show w).2
  | .enable, w => touchkey_enable w
  | .disable, w => touchkey_disable w
  | .enable_disable parsed size, w => (touchkey_enable_disable w parsed size).2
  | .led_enable, w => touch_led_enable w
  | .led_disable, w => touch_led_disable w
  | .led_mode_store parsed size, w => (touch_led_mode_store w parsed size).2
  | .led_notification parsed size, w => (touch_led_notification w parsed size).2
  | .led_timedout, w => touch_led_timedout w
  | .state_report state, w => touchscreen_state_report state w
  | .led_control parsed size, w => (touch_led_control w parsed size).2
  | .menu_show d0 d1, w => (touchkey_menu_show d0 d1 w).2
  | .back_show d0 d1, w => (touchkey_back_show d0 d1 w).2
  | .sensitivity_control size, w => (touch_sensitivity_control w size).2
  | .raw_data0_show d0 d1, w => (touchkey_raw_data0_show d0 d1 w).2
  | .raw_data1_show d0 d1, w => (touchkey_raw_data1_show d0 d1 w).2
  | .threshold_show data, w => (touchkey_threshold_show data w).2
  | .autocal_status_show data, w => (touchkey_autocal_status_show data w).2
  | .idac0_show data, w => (touchkey_idac0_show data w).2
  | .idac1_show data, w => (touchkey_idac1_show data w).2

/-- The state `cptk_i2c_probe` sets up: device enabled, LED recorded as off,
no notification hold. -/
def probe_state (w : World) : Prop :=
  w.cptk.enable = true ∧ w.cptk.led_status = LED_OFF_CMD ∧ w.cptk.notification = false

instance (w : World) : Decidable (probe_state w) := by
  unfold probe_state
  infer_instance

/-- Expiry of `touch_led_timer`: the kernel takes the timer off its list and
calls the handler `touch_led_timedout`. -/
def timer_fires (w : World) : World :=
  touch_led_timedout { w with touch_led_timer := { w.touch_led_timer with pending := false } }

/-- The operations that act on the driver between probe and teardown in the
`CONFIG_KEY_NOTIFICATION` build, without the raw write to `brightness`
(`touch_led_control`).  A key interrupt comes with the level of the interrupt
line and the indeterminate initial value of the local `keycode`; `clock` is
the passage of time. -/
inductive policy_op where
  | key_interrupt (gpio_value : Int) (keycode : Nat)
  | suspend
  | resume
  | enable
  | disable
  | led_disable
  | enable_write (parsed : Option Int) (size : Nat)
  | mode_write (parsed : Option Int) (size : Nat)
  | notification_write (parsed : Option Int) (size : Nat)
  | timeout_write (parsed : Option Int) (size : Nat)
  | touchscreen_report (state : Int)
  | timer_fire
  | clock (jiffies : Nat)

/-- The world after one operation. -/
def apply_op : policy_op → World → World
  | .key_interrupt g keycode, w => (cptk_irq_thread true keycode { w with gpio_value := g }).2
  | .suspend, w => (cptk_early_suspend true w).2
  | .resume, w => (cptk_late_resume true w).2
  | .enable, w => touchkey_enable w
  | .disable, w => touchkey_disable w
  | .led_disable, w => touch_led_disable w
  | .enable_write parsed size, w => (touchkey_enable_disable w parsed size).2
  | .mode_write parsed size, w => (touch_led_mode_store w parsed size).2
  | .notification_write parsed size, w => (touch_led_notification w parsed size).2
  | .timeout_write parsed size, w => (touch_led_set_timeout w parsed size).2
  | .touchscreen_report state, w => touchscreen_state_report state w
  | .timer_fire, w => timer_fires w
  | .clock j, w => { w with jiffies := j }

/-- The world after a sequence of operations, first operation first. -/
def run_ops : List policy_op → World → World
  | [], w => w
  | o :: t, w => run_ops t (apply_op o w)

/-- A disabled device has its LED recorded as off. -/
def led_inv (w : World) : Prop :=
  w.cptk.enable = false → w.cptk.led_status = LED_OFF_CMD

/-- Whether a recorded call acts on `touch_led_timer`. -/
def is_timer_call : Event → Bool
  | .add_timer _ => true
  | .mod_timer _ => true
  | .del_timer => true
  | _ => false

/-- The calls of a trace that act on `touch_led_timer`, in order. -/
def timer_calls (t : List Event) : List Event :=
  t.filter is_timer_call

/-- How one recorded call bears on whether `touch_led_timer` is pending. -/
def timer_replay_step (p : Bool) : Event → Bool
  | .add_timer _ => true
  | .mod_timer _ => true
  | .del_timer => false
  | _ => p

/-- Whether every `add_timer` of the calls is made while the timer, pending
or not as `p` says at the start and followed along the calls, is not pending. -/
def add_timer_only_idle (p : Bool) : List Event → Bool
  | [] => true
  | e :: t =>
    (match e with
      | .add_timer _ => !p
      | _ => true) && add_timer_only_idle (timer_replay_step p e) t

/-- The value left in the local `keycode` of `cptk_irq_thread` by the read of
the keycode register; `keycode` is its indeterminate initial value. -/
def irq_keycode (keycode : Nat) (w : World) : Nat :=
  (cptk_i2c_read (mutex_lock_lock w) KEYCODE_REG [keycode % 256] 1).2.1.headD 0

/-- An event that re-arms the idle timer, with the value of `jiffies` at which
it happens: an interrupt (with the indeterminate initial value of the local
`keycode`), or the call `touchscreen_state_report(0)`. -/
inductive rearm_event where
  | key_up (time : Nat) (keycode : Nat)
  | touchscreen_idle (time : Nat)
  deriving DecidableEq, Repr

/-- The time of an event. -/
def event_time : rearm_event → Nat
  | .key_up t _ => t
  | .touchscreen_idle t => t

/-- The world after one event: the clock stands at the time of the event and
the handler runs (`CONFIG_KEY_NOTIFICATION` build). -/
def rearm : rearm_event → World → World
  | .key_up t keycode, w => (cptk_irq_thread true keycode { w with jiffies := t }).2
  | .touchscreen_idle t, w => touchscreen_state_report 0 { w with jiffies := t }

/-- The world after a sequence of events, first event first. -/
def run_rearms : List rearm_event → World → World
  | [], w => w
  | e :: t, w => run_rearms t (rearm e w)

/-- Whether the event is a re-arm event in the world it meets: the backlight
policy is active and no notification hold is set; an interrupt finds the
interrupt line active and decodes a byte with the up/down bit set (a key-up);
a touchscreen report finds the mode TouchscreenActivated. -/
def is_rearm : rearm_event → World → Bool
  | .key_up t keycode, w =>
    decide (w.touch_led_mode > MODE_OFF) && !w.cptk.notification &&
      decide (w.gpio_value = 0) &&
      decide (irq_keycode keycode { w with jiffies := t } &&& UPDOWN_EVENT_BIT ≠ 0)
  | .touchscreen_idle _, w =>
    decide (w.touch_led_mode = MODE_TS) && !w.cptk.notification

/-- Whether every event of the sequence is a re-arm event in the world it meets. -/
def all_rearm : List rearm_event → World → Bool
  | [], _ => true
  | e :: t, w => is_rearm e w && all_rearm t (rearm e w)

/-- The condition under which `touchscreen_state_report(0)` touches the timer:
a timer is pending or the LED is recorded as on.  A key-up needs no such
condition. -/
def finds_timer_or_led : rearm_event → World → Bool
  | .key_up _ _, _ => true
  | .touchscreen_idle _, w =>
    w.touch_led_timer.pending || decide (w.cptk.led_status = LED_ON_CMD)

/-- The timer calls a sequence of re-arm events makes, when the timer is
pending or not as `p` says at the start: `mod_timer` on a pending timer,
`add_timer` otherwise, each with the expiry computed at the time of its event. -/
def rearm_calls (w : World) : Bool → List rearm_event → List Event
  | _, [] => []
  | p, e :: t =>
    (if p then Event.mod_timer (led_timer_expiry { w with jiffies := event_time e })
      else Event.add_timer (led_timer_expiry { w with jiffies := event_time e })) ::
      rearm_calls w true t

/-- The demo state in TouchscreenActivated mode: LED off, no timer pending,
no notification hold. -/
def demo_touchscreen : World :=
  { demo_world with touch_led_mode := MODE_TS }

/-- The demo state in TouchscreenActivated mode on a bus that answers every
read with a key-up byte. -/
def demo_keyup : World :=
  { demo_world with bus := bus_ok 0x0A, touch_led_mode := MODE_TS }

/-! ## Lemmas on the transport layer -/

theorem after_failed_transfer_xfers (msgs : List i2c_msg) (w : World) :
    (after_failed_transfer msgs w).xfers = w.xfers + 1 := rfl

theorem after_failed_transfer_bus (msgs : List i2c_msg) (w : World) :
    (after_failed_transfer msgs w).bus = w.bus := rfl

theorem read_loop_succ (cmd : Nat) (val : List Nat) (len retry : Nat) (ret : Int) (w : World) :
    cptk_i2c_read_loop cmd val len (retry + 1) ret w =
      if 0 ≤ (w.bus w.xfers).ret then
        (0, read_fill (w.bus w.xfers).rx val len,
          mutex_unlock_i2c_lock (i2c_transfer (read_msgs w cmd val len) w).2)
      else
        cptk_i2c_read_loop cmd val len retry (w.bus w.xfers).ret
          (after_failed_transfer (read_msgs w cmd val len) w) := rfl

theorem write_loop_succ (cmd val retry : Nat) (ret : Int) (w : World) :
    cptk_i2c_write_loop cmd val (retry + 1) ret w =
      if 0 ≤ (w.bus w.xfers).ret then
        (0, mutex_unlock_i2c_lock (i2c_transfer [write_msg w cmd val] w).2)
      else
        cptk_i2c_write_loop cmd val retry (w.bus w.xfers).ret
          (after_failed_transfer [write_msg w cmd val] w) := rfl

theorem read_loop_first_ok (cmd : Nat) (val : List Nat) (len : Nat) :
    ∀ (retry k : Nat) (ret : Int) (w : World), k < retry →
      (∀ j, j < k → (w.bus (w.xfers + j)).ret < 0) →
      0 ≤ (w.bus (w.xfers + k)).ret →
      (cptk_i2c_read_loop cmd val len retry ret w).1 = 0 ∧
      (cptk_i2c_read_loop cmd val len retry ret w).2.1 =
        read_fill (w.bus (w.xfers + k)).rx val len ∧
      (cptk_i2c_read_loop cmd val len retry ret w).2.2.xfers = w.xfers + (k + 1) := by
  intro retry
  induction retry with
  | zero => intro k ret w hk; omega
  | succ n ih =>
    intro k ret w hk hfail hok
    cases k with
    | zero =>
      have h0 : 0 ≤ (w.bus w.xfers).ret := by simpa using hok
      rw [read_loop_succ, if_pos h0]
      exact ⟨rfl, rfl, rfl⟩
    | succ k =>
      have h0 : ¬ 0 ≤ (w.bus w.xfers).ret := by
        have := hfail 0 (Nat.succ_pos k)
        simp at this
        omega
      rw [read_loop_succ, if_neg h0]
      have hrec := ih k (w.bus w.xfers).ret
        (after_failed_transfer (read_msgs w cmd val len) w) (by omega)
        (by
          intro j hj
          have := hfail (j + 1) (by omega)
          rw [after_failed_transfer_bus, after_failed_transfer_xfers]
          rwa [Nat.add_assoc, Nat.add_comm 1 j])
        (by
          rw [after_failed_transfer_bus, after_failed_transfer_xfers]
          rwa [Nat.add_assoc, Nat.add_comm 1 k])
      rw [after_failed_transfer_bus, after_failed_transfer_xfers] at hrec
      rw [Nat.add_assoc, Nat.add_comm 1 k] at hrec
      refine ⟨hrec.1, hrec.2.1, ?_⟩
      rw [hrec.2.2]
      omega

theorem read_loop_all_fail (cmd : Nat) (val : List Nat) (len : Nat) :
    ∀ (retry : Nat) (ret : Int) (w : World),
      (∀ j, j < retry + 1 → (w.bus (w.xfers + j)).ret < 0) →
      (cptk_i2c_read_loop cmd val len (retry + 1) ret w).1 = (w.bus (w.xfers + retry)).ret ∧
      (cptk_i2c_read_loop cmd val len (retry + 1) ret w).2.1 = val ∧
      (cptk_i2c_read_loop cmd val len (retry + 1) ret w).2.2.xfers = w.xfers + (retry + 1) := by
  intro retry
  induction retry with
  | zero =>
    intro ret w hfail
    have h0 : ¬ 0 ≤ (w.bus w.xfers).ret := by
      have := hfail 0 (by omega)
      simp at this
      omega
    rw [read_loop_succ, if_neg h0]
    exact ⟨rfl, rfl, rfl⟩
  | succ n ih =>
    intro ret w hfail
    have h0 : ¬ 0 ≤ (w.bus w.xfers).ret := by
      have := hfail 0 (by omega)
      simp at this
      omega
    rw [read_loop_succ, if_neg h0]
    have hrec := ih (w.bus w.xfers).ret (after_failed_transfer (read_msgs w cmd val len) w)
      (by
        intro j hj
        have := hfail (j + 1) (by omega)
        rw [after_failed_transfer_bus, after_failed_transfer_xfers]
        rwa [Nat.add_assoc, Nat.add_comm 1 j])
    rw [after_failed_transfer_bus, after_failed_transfer_xfers] at hrec
    rw [Nat.add_assoc, Nat.add_comm 1 n] at hrec
    refine ⟨hrec.1, hrec.2.1, ?_⟩
    rw [hrec.2.2]
    omega

theorem write_loop_first_ok (cmd val : Nat) :
    ∀ (retry k : Nat) (ret : Int) (w : World), k < retry →
      (∀ j, j < k → (w.bus (w.xfers + j)).ret < 0) →
      0 ≤ (w.bus (w.xfers + k)).ret →
      (cptk_i2c_write_loop cmd val retry ret w).1 = 0 ∧
      (cptk_i2c_write_loop cmd val retry ret w).2.xfers = w.xfers + (k + 1) := by
  intro retry
  induction retry with
  | zero => intro k ret w hk; omega
  | succ n ih =>
    intro k ret w hk hfail hok
    cases k with
    | zero =>
      have h0 : 0 ≤ (w.bus w.xfers).ret := by simpa using hok
      rw [write_loop_succ, if_pos h0]
      exact ⟨rfl, rfl⟩
    | succ k =>
      have h0 : ¬ 0 ≤ (w.bus w.xfers).ret := by
        have := hfail 0 (Nat.succ_pos k)
        simp at this
        omega
      rw [write_loop_succ, if_neg h0]
      have hrec := ih k (w.bus w.xfers).ret
        (after_failed_transfer [write_msg w cmd val] w) (by omega)
        (by
          intro j hj
          have := hfail (j + 1) (by omega)
          rw [after_failed_transfer_bus, after_failed_transfer_xfers]
          rwa [Nat.add_assoc, Nat.add_comm 1 j])
        (by
          rw [after_failed_transfer_bus, after_failed_transfer_xfers]
          rwa [Nat.add_assoc, Nat.add_comm 1 k])
      rw [after_failed_transfer_xfers] at hrec
      refine ⟨hrec.1, ?_⟩
      rw [hrec.2]
      omega

theorem write_loop_all_fail (cmd val : Nat) :
    ∀ (retry : Nat) (ret : Int) (w : World),
      (∀ j, j < retry + 1 → (w.bus (w.xfers + j)).ret < 0) →
      (cptk_i2c_write_loop cmd val (retry + 1) ret w).1 = (w.bus (w.xfers + retry)).ret ∧
      (cptk_i2c_write_loop cmd val (retry + 1) ret w).2.xfers = w.xfers + (retry + 1) := by
  intro retry
  induction retry with
  | zero =>
    intro ret w hfail
    have h0 : ¬ 0 ≤ (w.bus w.xfers).ret := by
      have := hfail 0 (by omega)
      simp at this
      omega
    rw [write_loop_succ, if_neg h0]
    exact ⟨rfl, rfl⟩
  | succ n ih =>
    intro ret w hfail
    have h0 : ¬ 0 ≤ (w.bus w.xfers).ret := by
      have := hfail 0 (by omega)
      simp at this
      omega
    rw [write_loop_succ, if_neg h0]
    have hrec := ih (w.bus w.xfers).ret (after_failed_transfer [write_msg w cmd val] w)
      (by
        intro j hj
        have := hfail (j + 1) (by omega)
        rw [after_failed_transfer_bus, after_failed_transfer_xfers]
        rwa [Nat.add_assoc, Nat.add_comm 1 j])
    rw [after_failed_transfer_bus, after_failed_transfer_xfers] at hrec
    rw [Nat.add_assoc, Nat.add_comm 1 n] at hrec
    refine ⟨hrec.1, ?_⟩
    rw [hrec.2]
    omega

/-- Either some attempt among the first `n` is the first to succeed, or all
of them fail. -/
theorem first_ok_or_all_fail (bus : Nat → i2c_result) (x : Nat) :
    ∀ n : Nat,
      (∃ k, k < n ∧ (∀ j, j < k → (bus (x + j)).ret < 0) ∧ 0 ≤ (bus (x + k)).ret) ∨
      (∀ j, j < n → (bus (x + j)).ret < 0) := by
  intro n
  induction n with
  | zero => right; intro j hj; omega
  | succ n ih =>
    rcases ih with ⟨k, hk, hfail, hok⟩ | hall
    · exact Or.inl ⟨k, by omega, hfail, hok⟩
    · by_cases h : 0 ≤ (bus (x + n)).ret
      · exact Or.inl ⟨n, by omega, hall, h⟩
      · right
        intro j hj
        by_cases hjn : j = n
        · subst hjn; omega
        · exact hall j (by omega)

theorem bus_update_bus_update (w : World) (l l2 : Bool) (n n2 : Nat) (evs evs2 : List Event) :
    bus_update (bus_update w l n evs) l2 n2 evs2 = bus_update w l2 (n + n2) (evs ++ evs2) := by
  simp [bus_update, Nat.add_assoc, List.append_assoc]

theorem bus_events_append {msgs : List i2c_msg} {a b : List Event}
    (ha : bus_events msgs a) (hb : bus_events msgs b) : bus_events msgs (a ++ b) := by
  intro e he
  rcases List.mem_append.mp he with h | h
  · exact ha e h
  · exact hb e h

theorem bus_events_input {msgs : List i2c_msg} {evs : List Event}
    (h : bus_events msgs evs) : input_events evs = [] := by
  unfold input_events
  rw [List.filter_eq_nil_iff]
  intro e he
  rcases h e he with rfl | ⟨r, rfl⟩ <;> simp [is_input]

theorem transfers_append (a b : List Event) :
    transfers (a ++ b) = transfers a + transfers b := by
  simp [transfers, List.countP_append]

theorem input_events_append (a b : List Event) :
    input_events (a ++ b) = input_events a ++ input_events b := by
  simp [input_events, List.filter_append]

theorem read_loop_frame (cmd : Nat) (val : List Nat) (len : Nat) :
    ∀ (retry : Nat) (ret : Int) (w : World), ∃ n evs, n ≤ retry ∧
      (cptk_i2c_read_loop cmd val len retry ret w).2.2 = bus_update w false n evs ∧
      bus_events (read_msgs w cmd val len) evs ∧ transfers evs = n := by
  intro retry
  induction retry with
  | zero =>
    intro ret w
    refine ⟨0, [], le_refl _, ?_, ?_, rfl⟩
    · simp [cptk_i2c_read_loop, bus_update, mutex_unlock_i2c_lock]
    · intro e he; cases he
  | succ n ih =>
    intro ret w
    rw [read_loop_succ]
    by_cases h0 : 0 ≤ (w.bus w.xfers).ret
    · rw [if_pos h0]
      refine ⟨1, [Event.i2c_transfer (read_msgs w cmd val len) (w.bus w.xfers).ret],
        by omega, rfl, ?_, rfl⟩
      intro e he
      simp at he
      exact Or.inr ⟨_, he⟩
    · rw [if_neg h0]
      obtain ⟨m, evs, hm, hw, hev, ht⟩ :=
        ih (w.bus w.xfers).ret (after_failed_transfer (read_msgs w cmd val len) w)
      refine ⟨1 + m,
        [Event.i2c_transfer (read_msgs w cmd val len) (w.bus w.xfers).ret, Event.msleep 20]
          ++ evs, by omega, ?_, ?_, ?_⟩
      · rw [hw]
        simp [bus_update, after_failed_transfer, msleep, emit, i2c_transfer, Nat.add_assoc]
      · apply bus_events_append
        · intro e he
          simp at he
          rcases he with rfl | rfl
          · exact Or.inr ⟨_, rfl⟩
          · exact Or.inl rfl
        · exact hev
      · rw [transfers_append, ht]
        rfl

theorem write_loop_frame (cmd val : Nat) :
    ∀ (retry : Nat) (ret : Int) (w : World), ∃ n evs, n ≤ retry ∧
      (cptk_i2c_write_loop cmd val retry ret w).2 = bus_update w false n evs ∧
      bus_events [write_msg w cmd val] evs ∧ transfers evs = n := by
  intro retry
  induction retry with
  | zero =>
    intro ret w
    refine ⟨0, [], le_refl _, ?_, ?_, rfl⟩
    · simp [cptk_i2c_write_loop, bus_update, mutex_unlock_i2c_lock]
    · intro e he; cases he
  | succ n ih =>
    intro ret w
    rw [write_loop_succ]
    by_cases h0 : 0 ≤ (w.bus w.xfers).ret
    · rw [if_pos h0]
      refine ⟨1, [Event.i2c_transfer [write_msg w cmd val] (w.bus w.xfers).ret],
        by omega, rfl, ?_, rfl⟩
      intro e he
      simp at he
      exact Or.inr ⟨_, he⟩
    · rw [if_neg h0]
      obtain ⟨m, evs, hm, hw, hev, ht⟩ :=
        ih (w.bus w.xfers).ret (after_failed_transfer [write_msg w cmd val] w)
      refine ⟨1 + m,
        [Event.i2c_transfer [write_msg w cmd val] (w.bus w.xfers).ret, Event.msleep 20]
          ++ evs, by omega, ?_, ?_, ?_⟩
      · rw [hw]
        simp [bus_update, after_failed_transfer, msleep, emit, i2c_transfer, Nat.add_assoc]
      · apply bus_events_append
        · intro e he
          simp at he
          rcases he with rfl | rfl
          · exact Or.inr ⟨_, rfl⟩
          · exact Or.inl rfl
        · exact hev
      · rw [transfers_append, ht]
        rfl

/-- Frame of `cptk_i2c_read`: whatever the bus does, the call changes only the
bus lock flag, the transfer counter and the trace, and what it appends to the
trace are transfers of its two messages and retry delays. -/
theorem cptk_i2c_read_frame (w : World) (cmd : Nat) (val : List Nat) (len : Nat) :
    ∃ l n evs, n ≤ 10 ∧ (cptk_i2c_read w cmd val len).2.2 = bus_update w l n evs ∧
      bus_events (read_msgs w cmd val len) evs ∧ transfers evs = n := by
  unfold cptk_i2c_read
  cases he : w.cptk.enable with
  | false =>
    refine ⟨w.cptk.i2c_lock, 0, [], by omega, ?_, ?_, rfl⟩
    · simp [bus_update]
    · intro e h; cases h
  | true =>
    obtain ⟨n, evs, hn, hw, hev, ht⟩ :=
      read_loop_frame cmd val len 10 0 (mutex_lock_i2c_lock w)
    refine ⟨false, n, evs, hn, ?_, hev, ht⟩
    simp only [Bool.not_true, Bool.false_eq_true, if_false]
    rw [hw]
    simp [bus_update, mutex_lock_i2c_lock]

/-- Frame of `cptk_i2c_write`, as for the read. -/
theorem cptk_i2c_write_frame (w : World) (cmd val : Nat) :
    ∃ l n evs, n ≤ 2 ∧ (cptk_i2c_write w cmd val).2 = bus_update w l n evs ∧
      bus_events [write_msg w cmd val] evs ∧ transfers evs = n := by
  unfold cptk_i2c_write
  cases he : w.cptk.enable with
  | false =>
    refine ⟨w.cptk.i2c_lock, 0, [], by omega, ?_, ?_, rfl⟩
    · simp [bus_update]
    · intro e h; cases h
  | true =>
    obtain ⟨n, evs, hn, hw, hev, ht⟩ :=
      write_loop_frame cmd val 2 0 (mutex_lock_i2c_lock w)
    refine ⟨false, n, evs, hn, ?_, hev, ht⟩
    simp only [Bool.not_true, Bool.false_eq_true, if_false]
    rw [hw]
    simp [bus_update, mutex_lock_i2c_lock]

theorem disabled_read_rejects (w : World) (cmd len : Nat) (buf : List Nat)
    (h : w.cptk.enable = false) :
    cptk_i2c_read w cmd buf len = (-19, buf, w) := by
  simp [cptk_i2c_read, h, ENODEV]

/-- Claim C1: while `enable` is false, `cptk_i2c_write` and `cptk_i2c_read`
return `-ENODEV` (-19) at once; the world they return is the world they were
given, so no transfer was made (transfer counter and trace are the same) and
no field of the device changed, and the read buffer is untouched. -/
theorem disabled_transport_rejects (w : World) (cmd val len : Nat) (buf : List Nat)
    (h : w.cptk.enable = false) :
    cptk_i2c_write w cmd val = (-19, w) ∧ cptk_i2c_read w cmd buf len = (-19, buf, w) := by
  simp [cptk_i2c_write, cptk_i2c_read, h, ENODEV]

theorem disabled_transport_rejects_witness :
    demo_disabled.cptk.enable = false ∧
    cptk_i2c_write demo_disabled KEYCODE_REG LED_ON_CMD = (-19, demo_disabled) ∧
    cptk_i2c_read demo_disabled KEYCODE_REG [0, 0, 0] 3 = (-19, [0, 0, 0], demo_disabled) :=
  ⟨rfl, disabled_transport_rejects demo_disabled KEYCODE_REG LED_ON_CMD 3 [0, 0, 0] rfl⟩

theorem cptk_i2c_read_transfers (w : World) (cmd : Nat) (val : List Nat) (len : Nat) :
    transfers (cptk_i2c_read w cmd val len).2.2.trace + w.xfers =
      transfers w.trace + (cptk_i2c_read w cmd val len).2.2.xfers := by
  obtain ⟨l, n, evs, _, hw, _, ht⟩ := cptk_i2c_read_frame w cmd val len
  rw [hw]
  simp only [bus_update, transfers_append, ht]
  omega

theorem cptk_i2c_write_transfers (w : World) (cmd val : Nat) :
    transfers (cptk_i2c_write w cmd val).2.trace + w.xfers =
      transfers w.trace + (cptk_i2c_write w cmd val).2.xfers := by
  obtain ⟨l, n, evs, _, hw, _, ht⟩ := cptk_i2c_write_frame w cmd val
  rw [hw]
  simp only [bus_update, transfers_append, ht]
  omega

theorem cptk_i2c_read_enabled (w : World) (cmd : Nat) (val : List Nat) (len : Nat)
    (h : w.cptk.enable = true) :
    cptk_i2c_read w cmd val len =
      cptk_i2c_read_loop cmd val len 10 0 (mutex_lock_i2c_lock w) := by
  simp [cptk_i2c_read, h]

theorem cptk_i2c_write_enabled (w : World) (cmd val : Nat) (h : w.cptk.enable = true) :
    cptk_i2c_write w cmd val = cptk_i2c_write_loop cmd val 2 0 (mutex_lock_i2c_lock w) := by
  simp [cptk_i2c_write, h]

/-- Read on an enabled device when attempt `k + 1` is the first to succeed. -/
theorem cptk_i2c_read_first_ok (w : World) (cmd : Nat) (val : List Nat) (len k : Nat)
    (h : w.cptk.enable = true) (hk : k < 10)
    (hfail : ∀ j, j < k → (w.bus (w.xfers + j)).ret < 0)
    (hok : 0 ≤ (w.bus (w.xfers + k)).ret) :
    (cptk_i2c_read w cmd val len).1 = 0 ∧
    (cptk_i2c_read w cmd val len).2.1 = read_fill (w.bus (w.xfers + k)).rx val len ∧
    (cptk_i2c_read w cmd val len).2.2.xfers = w.xfers + (k + 1) := by
  rw [cptk_i2c_read_enabled w cmd val len h]
  exact read_loop_first_ok cmd val len 10 k 0 (mutex_lock_i2c_lock w) hk hfail hok

/-- Read on an enabled device when all ten attempts fail. -/
theorem cptk_i2c_read_all_fail (w : World) (cmd : Nat) (val : List Nat) (len : Nat)
    (h : w.cptk.enable = true)
    (hfail : ∀ j, j < 10 → (w.bus (w.xfers + j)).ret < 0) :
    (cptk_i2c_read w cmd val len).1 = (w.bus (w.xfers + 9)).ret ∧
    (cptk_i2c_read w cmd val len).2.1 = val ∧
    (cptk_i2c_read w cmd val len).2.2.xfers = w.xfers + 10 := by
  rw [cptk_i2c_read_enabled w cmd val len h]
  exact read_loop_all_fail cmd val len 9 0 (mutex_lock_i2c_lock w) hfail

theorem cptk_i2c_write_first_ok (w : World) (cmd val k : Nat)
    (h : w.cptk.enable = true) (hk : k < 2)
    (hfail : ∀ j, j < k → (w.bus (w.xfers + j)).ret < 0)
    (hok : 0 ≤ (w.bus (w.xfers + k)).ret) :
    (cptk_i2c_write w cmd val).1 = 0 ∧
    (cptk_i2c_write w cmd val).2.xfers = w.xfers + (k + 1) := by
  rw [cptk_i2c_write_enabled w cmd val h]
  exact write_loop_first_ok cmd val 2 k 0 (mutex_lock_i2c_lock w) hk hfail hok

theorem cptk_i2c_write_all_fail (w : World) (cmd val : Nat)
    (h : w.cptk.enable = true)
    (hfail : ∀ j, j < 2 → (w.bus (w.xfers + j)).ret < 0) :
    (cptk_i2c_write w cmd val).1 = (w.bus (w.xfers + 1)).ret ∧
    (cptk_i2c_write w cmd val).2.xfers = w.xfers + 2 := by
  rw [cptk_i2c_write_enabled w cmd val h]
  exact write_loop_all_fail cmd val 1 0 (mutex_lock_i2c_lock w) hfail

/-- Claim C2: on an enabled device, for every behaviour of the bus,
`cptk_i2c_read` makes transfers until the first success and at most 10 of
them, `cptk_i2c_write` at most 2.  If attempt `k + 1` (within the bound) is the
first to succeed, the call returns 0 after exactly `k + 1` transfers, the read
buffer holding the bytes delivered by that attempt; if every attempt up to the
bound fails, the call returns the (negative) status of the last attempt after
exactly 10 (resp. 2) transfers and the read buffer is as before; and a non-zero
status is returned only when every attempt failed. -/
theorem transport_retry_bounds (w : World) (cmd val len : Nat) (buf : List Nat)
    (h : w.cptk.enable = true) :
    (∀ k, k < 10 → (∀ j, j < k → (w.bus (w.xfers + j)).ret < 0) →
      0 ≤ (w.bus (w.xfers + k)).ret →
        (cptk_i2c_read w cmd buf len).1 = 0 ∧
        (cptk_i2c_read w cmd buf len).2.1 = read_fill (w.bus (w.xfers + k)).rx buf len ∧
        transfers (cptk_i2c_read w cmd buf len).2.2.trace = transfers w.trace + (k + 1)) ∧
    ((∀ j, j < 10 → (w.bus (w.xfers + j)).ret < 0) →
        (cptk_i2c_read w cmd buf len).1 = (w.bus (w.xfers + 9)).ret ∧
        (cptk_i2c_read w cmd buf len).1 < 0 ∧
        (cptk_i2c_read w cmd buf len).2.1 = buf ∧
        transfers (cptk_i2c_read w cmd buf len).2.2.trace = transfers w.trace + 10) ∧
    ((cptk_i2c_read w cmd buf len).1 ≠ 0 → ∀ j, j < 10 → (w.bus (w.xfers + j)).ret < 0) ∧
    transfers (cptk_i2c_read w cmd buf len).2.2.trace ≤ transfers w.trace + 10 ∧
    (∀ k, k < 2 → (∀ j, j < k → (w.bus (w.xfers + j)).ret < 0) →
      0 ≤ (w.bus (w.xfers + k)).ret →
        (cptk_i2c_write w cmd val).1 = 0 ∧
        transfers (cptk_i2c_write w cmd val).2.trace = transfers w.trace + (k + 1)) ∧
    ((∀ j, j < 2 → (w.bus (w.xfers + j)).ret < 0) →
        (cptk_i2c_write w cmd val).1 = (w.bus (w.xfers + 1)).ret ∧
        (cptk_i2c_write w cmd val).1 < 0 ∧
        transfers (cptk_i2c_write w cmd val).2.trace = transfers w.trace + 2) ∧
    ((cptk_i2c_write w cmd val).1 ≠ 0 → ∀ j, j < 2 → (w.bus (w.xfers + j)).ret < 0) ∧
    transfers (cptk_i2c_write w cmd val).2.trace ≤ transfers w.trace + 2 := by
  have hrt := cptk_i2c_read_transfers w cmd buf len
  have hwt := cptk_i2c_write_transfers w cmd val
  refine ⟨?_, ?_, ?_, ?_, ?_, ?_, ?_, ?_⟩
  · intro k hk hfail hok
    obtain ⟨h1, h2, h3⟩ := cptk_i2c_read_first_ok w cmd buf len k h hk hfail hok
    exact ⟨h1, h2, by omega⟩
  · intro hfail
    obtain ⟨h1, h2, h3⟩ := cptk_i2c_read_all_fail w cmd buf len h hfail
    refine ⟨h1, ?_, h2, by omega⟩
    rw [h1]
    exact hfail 9 (by omega)
  · intro hne
    rcases first_ok_or_all_fail w.bus w.xfers 10 with ⟨k, hk, hfail, hok⟩ | hall
    · exact absurd (cptk_i2c_read_first_ok w cmd buf len k h hk hfail hok).1 hne
    · exact hall
  · obtain ⟨l, n, evs, hn, hw, _, ht⟩ := cptk_i2c_read_frame w cmd buf len
    rw [hw]
    simp only [bus_update, transfers_append, ht]
    omega
  · intro k hk hfail hok
    obtain ⟨h1, h3⟩ := cptk_i2c_write_first_ok w cmd val k h hk hfail hok
    exact ⟨h1, by omega⟩
  · intro hfail
    obtain ⟨h1, h3⟩ := cptk_i2c_write_all_fail w cmd val h hfail
    refine ⟨h1, ?_, by omega⟩
    rw [h1]
    exact hfail 1 (by omega)
  · intro hne
    rcases first_ok_or_all_fail w.bus w.xfers 2 with ⟨k, hk, hfail, hok⟩ | hall
    · exact absurd (cptk_i2c_write_first_ok w cmd val k h hk hfail hok).1 hne
    · exact hall
  · obtain ⟨l, n, evs, hn, hw, _, ht⟩ := cptk_i2c_write_frame w cmd val
    rw [hw]
    simp only [bus_update, transfers_append, ht]
    omega

theorem transport_retry_bounds_witness :
    (cptk_i2c_read (demo_flaky 9 0x0A) KEYCODE_REG [0] 1).1 = 0 ∧
    (cptk_i2c_read (demo_flaky 9 0x0A) KEYCODE_REG [0] 1).2.1 = [0x0A] ∧
    transfers (cptk_i2c_read (demo_flaky 9 0x0A) KEYCODE_REG [0] 1).2.2.trace = 10 :=
  (transport_retry_bounds (demo_flaky 9 0x0A) KEYCODE_REG 0 1 [0] rfl).1 9
    (by decide) (by decide) (by decide)

/-! ## Lemmas on the interrupt handler -/

theorem quiet_step_refl (w : World) : quiet_step w w :=
  ⟨⟨[], by simp, rfl⟩, rfl, rfl, id⟩

theorem quiet_step_trans {a b c : World} (h1 : quiet_step a b) (h2 : quiet_step b c) :
    quiet_step a c := by
  obtain ⟨⟨e1, ht1, hi1⟩, hp1, hg1, he1⟩ := h1
  obtain ⟨⟨e2, ht2, hi2⟩, hp2, hg2, he2⟩ := h2
  refine ⟨⟨e1 ++ e2, ?_, ?_⟩, hp2.trans hp1, hg2.trans hg1, fun h => he2 (he1 h)⟩
  · rw [ht2, ht1, List.append_assoc]
  · rw [input_events_append, hi1, hi2]; rfl

theorem quiet_step_input {w w' : World} (h : quiet_step w w') :
    input_events w'.trace = input_events w.trace := by
  obtain ⟨⟨e, ht, hi⟩, _⟩ := h
  rw [ht, input_events_append, hi, List.append_nil]

theorem quiet_step_read (w : World) (cmd : Nat) (val : List Nat) (len : Nat) :
    quiet_step w (cptk_i2c_read w cmd val len).2.2 := by
  obtain ⟨l, n, evs, _, hw, hev, _⟩ := cptk_i2c_read_frame w cmd val len
  rw [hw]
  exact ⟨⟨evs, rfl, bus_events_input hev⟩, rfl, rfl, id⟩

theorem quiet_step_write (w : World) (cmd val : Nat) :
    quiet_step w (cptk_i2c_write w cmd val).2 := by
  obtain ⟨l, n, evs, _, hw, hev, _⟩ := cptk_i2c_write_frame w cmd val
  rw [hw]
  exact ⟨⟨evs, rfl, bus_events_input hev⟩, rfl, rfl, id⟩

theorem quiet_step_power_on_if_disabled (w : World) :
    quiet_step w (power_on_if_disabled w) := by
  unfold power_on_if_disabled
  cases he : w.cptk.enable <;> cases hp : w.pdata.power
  · exact ⟨⟨[Event.enable_irq], by simp [enable_irq, emit, pdata_power, hp], rfl⟩,
      by simp [enable_irq, emit, pdata_power, hp],
      by simp [enable_irq, emit, pdata_power, hp], fun _ => rfl⟩
  · exact ⟨⟨[Event.power 1, Event.enable_irq], by simp [enable_irq, emit, pdata_power, hp], rfl⟩,
      by simp [enable_irq, emit, pdata_power, hp],
      by simp [enable_irq, emit, pdata_power, hp], fun _ => rfl⟩
  · exact quiet_step_refl w
  · exact quiet_step_refl w

theorem quiet_step_irq_keyup_led (w : World) : quiet_step w (irq_keyup_led w) := by
  unfold irq_keyup_led
  split
  · split
    · exact ⟨⟨[Event.add_timer (led_timer_expiry w)], rfl, rfl⟩, rfl, rfl, id⟩
    · exact ⟨⟨[Event.mod_timer (led_timer_expiry w)], rfl, rfl⟩, rfl, rfl, id⟩
  · exact quiet_step_refl w

theorem quiet_step_del_if_pending (w : World) :
    quiet_step w (if timer_pending w = 1 then del_timer w else w) := by
  split
  · exact ⟨⟨[Event.del_timer], rfl, rfl⟩, rfl, rfl, id⟩
  · exact quiet_step_refl w

theorem quiet_step_set_led (w : World) (v : Nat) :
    quiet_step w { w with cptk := { w.cptk with led_status := v } } :=
  ⟨⟨[], by simp, rfl⟩, rfl, rfl, id⟩

theorem quiet_step_irq_keydown_led (w : World) : quiet_step w (irq_keydown_led w) := by
  unfold irq_keydown_led
  by_cases hm : w.touch_led_mode > MODE_OFF
  · simp only [hm, if_true]
    have h0 := quiet_step_del_if_pending w
    generalize (if timer_pending w = 1 then del_timer w else w) = w0 at h0 ⊢
    by_cases hl : w0.cptk.led_status = LED_OFF_CMD
    · simp only [hl, if_true]
      exact quiet_step_trans h0
        (quiet_step_trans (quiet_step_power_on_if_disabled _)
          (quiet_step_trans (quiet_step_write _ _ _) (quiet_step_set_led _ _)))
    · simp only [hl, if_false]
      exact h0
  · simp only [hm, if_false]
    exact quiet_step_refl w

/-- What `cptk_irq_thread` sends to the input sink when the interrupt line is
active, in terms of the byte `kc` left in `keycode` by the register read. -/
theorem cptk_irq_thread_active (cfg : Bool) (g : Nat) (w : World) (h : w.gpio_value = 0) :
    input_events (cptk_irq_thread cfg g w).2.trace =
      input_events w.trace ++
        [Event.input_report_key
          (w.pdata.keymap
            ((cptk_i2c_read (mutex_lock_lock w) KEYCODE_REG [g % 256] 1).2.1.headD 0 &&& 7))
          (if (cptk_i2c_read (mutex_lock_lock w) KEYCODE_REG [g % 256] 1).2.1.headD 0 &&& 8 ≠ 0
            then 0 else 1),
         Event.input_sync] ∧
    (cptk_irq_thread cfg g w).2.pdata = w.pdata ∧
    (cptk_irq_thread cfg g w).2.gpio_value = w.gpio_value ∧
    (w.cptk.enable = true → (cptk_irq_thread cfg g w).2.cptk.enable = true) := by
  have hg : gpio_get_value (mutex_lock_lock w) = 0 := h
  have hq := quiet_step_read (mutex_lock_lock w) KEYCODE_REG [g % 256] 1
  unfold cptk_irq_thread
  simp only [hg, if_true]
  generalize cptk_i2c_read (mutex_lock_lock w) KEYCODE_REG [g % 256] 1 = r at hq ⊢
  obtain ⟨ret, val, w1⟩ := r
  have hq1 : quiet_step w w1 := hq
  obtain ⟨hin, hp, hgp, hen⟩ := hq1
  have hin1 : input_events w1.trace = input_events w.trace := quiet_step_input hq
  simp only [UPDOWN_EVENT_BIT, KEYCODE_BIT]
  by_cases hb : val.headD 0 &&& 8 ≠ 0
  · simp only [hb, if_true, ne_eq, not_false_eq_true]
    have hk : quiet_step (input_report_key (w1.pdata.keymap (val.headD 0 &&& 7)) 0 w1)
        (if cfg = true then
          irq_keyup_led (input_report_key (w1.pdata.keymap (val.headD 0 &&& 7)) 0 w1)
         else input_report_key (w1.pdata.keymap (val.headD 0 &&& 7)) 0 w1) := by
      split
      · exact quiet_step_irq_keyup_led _
      · exact quiet_step_refl _
    have hin2 := quiet_step_input hk
    obtain ⟨_, hp2, hg2, he2⟩ := hk
    refine ⟨?_, ?_, ?_, ?_⟩
    · simp only [mutex_unlock_lock, input_sync, emit, input_events_append, hin2]
      simp [input_report_key, emit, input_events_append, hp, input_events, is_input]
      exact hin1
    · simp only [mutex_unlock_lock, input_sync, emit, hp2]
      simpa [input_report_key, emit] using hp
    · simp only [mutex_unlock_lock, input_sync, emit, hg2]
      simpa [input_report_key, emit] using hgp
    · intro he
      simp only [mutex_unlock_lock, input_sync, emit]
      exact he2 (hen he)
  · simp only [hb, if_false]
    have hk : quiet_step (input_report_key (w1.pdata.keymap (val.headD 0 &&& 7)) 1 w1)
        (if cfg = true then
          irq_keydown_led (input_report_key (w1.pdata.keymap (val.headD 0 &&& 7)) 1 w1)
         else input_report_key (w1.pdata.keymap (val.headD 0 &&& 7)) 1 w1) := by
      split
      · exact quiet_step_irq_keydown_led _
      · exact quiet_step_refl _
    have hin2 := quiet_step_input hk
    obtain ⟨_, hp2, hg2, he2⟩ := hk
    refine ⟨?_, ?_, ?_, ?_⟩
    · simp only [mutex_unlock_lock, input_sync, emit, input_events_append, hin2]
      simp [input_report_key, emit, input_events_append, hp, input_events, is_input]
      exact hin1
    · simp only [mutex_unlock_lock, input_sync, emit, hp2]
      simpa [input_report_key, emit] using hp
    · simp only [mutex_unlock_lock, input_sync, emit, hg2]
      simpa [input_report_key, emit] using hgp
    · intro he
      simp only [mutex_unlock_lock, input_sync, emit]
      exact he2 (hen he)

/-- Claim C3: when the interrupt line is active and the keycode register is
read successfully (attempt `k + 1` of the read is the first to succeed and
delivers the byte `b`), `cptk_irq_thread` sends to the input sink exactly one
key event, for key code `keymap[b & 0x07]`, with value 0 (released) when bit 3
of `b` is set and value 1 (pressed) when it is clear, followed by exactly one
sync marker, in both builds.  Hence a key-down interrupt (byte `b`, bit 3
clear) followed by a key-up interrupt for the same index (byte `b2`, bit 3
set) yields the input sequence down, sync, up, sync. -/
theorem irq_decodes_keycode (cfg : Bool) (g : Nat) (w : World) (k b : Nat)
    (he : w.cptk.enable = true) (hg : w.gpio_value = 0) (hk : k < 10)
    (hfail : ∀ j, j < k → (w.bus (w.xfers + j)).ret < 0)
    (hok : 0 ≤ (w.bus (w.xfers + k)).ret)
    (hb : (w.bus (w.xfers + k)).rx 0 % 256 = b) :
    input_events (cptk_irq_thread cfg g w).2.trace =
      input_events w.trace ++
        [Event.input_report_key (w.pdata.keymap (b &&& 7)) (if b &&& 8 ≠ 0 then 0 else 1),
         Event.input_sync] ∧
    (∀ (g2 k2 b2 : Nat), b &&& 8 = 0 → k2 < 10 →
      (∀ j, j < k2 → ((cptk_irq_thread cfg g w).2.bus
          ((cptk_irq_thread cfg g w).2.xfers + j)).ret < 0) →
      0 ≤ ((cptk_irq_thread cfg g w).2.bus ((cptk_irq_thread cfg g w).2.xfers + k2)).ret →
      ((cptk_irq_thread cfg g w).2.bus ((cptk_irq_thread cfg g w).2.xfers + k2)).rx 0 % 256
        = b2 →
      b2 &&& 8 ≠ 0 → b2 &&& 7 = b &&& 7 →
      input_events (cptk_irq_thread cfg g2 (cptk_irq_thread cfg g w).2).2.trace =
        input_events w.trace ++
          [Event.input_report_key (w.pdata.keymap (b &&& 7)) 1, Event.input_sync,
           Event.input_report_key (w.pdata.keymap (b &&& 7)) 0, Event.input_sync]) := by
  have key : ∀ (g : Nat) (w : World) (k b : Nat), w.cptk.enable = true → w.gpio_value = 0 →
      k < 10 → (∀ j, j < k → (w.bus (w.xfers + j)).ret < 0) →
      0 ≤ (w.bus (w.xfers + k)).ret → (w.bus (w.xfers + k)).rx 0 % 256 = b →
      input_events (cptk_irq_thread cfg g w).2.trace =
        input_events w.trace ++
          [Event.input_report_key (w.pdata.keymap (b &&& 7)) (if b &&& 8 ≠ 0 then 0 else 1),
           Event.input_sync] := by
    intro g w k b he hg hk hfail hok hb
    have hr := (cptk_i2c_read_first_ok (mutex_lock_lock w) KEYCODE_REG [g % 256] 1 k
      he hk hfail hok).2.1
    have hkc : (cptk_i2c_read (mutex_lock_lock w) KEYCODE_REG [g % 256] 1).2.1.headD 0 = b := by
      rw [hr]
      simpa [read_fill, mutex_lock_lock] using hb
    have h := (cptk_irq_thread_active cfg g w hg).1
    rw [hkc] at h
    exact h
  refine ⟨key g w k b he hg hk hfail hok hb, ?_⟩
  intro g2 k2 b2 hdown hk2 hfail2 hok2 hb2 hup hidx
  obtain ⟨_, hp, hgp, hen⟩ := cptk_irq_thread_active cfg g w hg
  have h1 := key g w k b he hg hk hfail hok hb
  have h2 := key g2 (cptk_irq_thread cfg g w).2 k2 b2 (hen he) (hgp.trans hg) hk2 hfail2 hok2 hb2
  rw [h2, h1, hp, hidx]
  simp [hdown, hup]

theorem irq_decodes_keycode_witness :
    input_events (cptk_irq_thread true 0 (demo_keys 0x02 0x0A)).2.trace =
      [Event.input_report_key 158 1, Event.input_sync] ∧
    input_events (cptk_irq_thread true 0
        (cptk_irq_thread true 0 (demo_keys 0x02 0x0A)).2).2.trace =
      [Event.input_report_key 158 1, Event.input_sync,
       Event.input_report_key 158 0, Event.input_sync] :=
  ⟨(irq_decodes_keycode true 0 (demo_keys 0x02 0x0A) 0 0x02 rfl rfl (by decide)
      (by decide) (by decide) rfl).1,
   (irq_decodes_keycode true 0 (demo_keys 0x02 0x0A) 0 0x02 rfl rfl (by decide)
      (by decide) (by decide) rfl).2 0 0 0x0A (by decide) (by decide) (by decide)
      (by decide) rfl (by decide) (by decide)⟩

/-- Claim C4, evaluated on the code.  First the device is disabled, so the
keycode register read fails with `-ENODEV`; then the device is enabled and
all ten read attempts fail on the bus (status -5).  In both cases `keycode`
keeps its indeterminate initial value (here 0x0A), and the handler
nevertheless reports a key event and a sync marker to the input sink. -/
theorem irq_failed_read_still_reports :
    ((cptk_i2c_read (mutex_lock_lock demo_disabled) KEYCODE_REG [0x0A] 1).1 = -19 ∧
      input_events (cptk_irq_thread true 0x0A demo_disabled).2.trace =
        [Event.input_report_key 158 0, Event.input_sync]) ∧
    ((cptk_i2c_read (mutex_lock_lock (demo_flaky 10 0)) KEYCODE_REG [0x0A] 1).1 = -5 ∧
      input_events (cptk_irq_thread true 0x0A (demo_flaky 10 0)).2.trace =
        [Event.input_report_key 158 0, Event.input_sync]) := by
  decide

/-- Whatever the build and the stack value `g`, on a disabled device with the
interrupt line active the handler reports the key decoded from `g`. -/
theorem cptk_irq_thread_disabled_reports (cfg : Bool) (g : Nat) (w : World)
    (he : w.cptk.enable = false) (hg : w.gpio_value = 0) :
    input_events (cptk_irq_thread cfg g w).2.trace =
      input_events w.trace ++
        [Event.input_report_key (w.pdata.keymap (g % 256 &&& 7))
          (if g % 256 &&& 8 ≠ 0 then 0 else 1),
         Event.input_sync] := by
  have h := (cptk_irq_thread_active cfg g w hg).1
  have hr : (cptk_i2c_read (mutex_lock_lock w) KEYCODE_REG [g % 256] 1).2.1 = [g % 256] :=
    congrArg (fun r => r.2.1)
      (disabled_read_rejects (mutex_lock_lock w) KEYCODE_REG 1 [g % 256] he)
  rw [hr] at h
  exact h

/-! ## Lemmas on suspend and resume -/

/-- Frame of `cptk_i2c_write` on an enabled device: one or two transfers of
the write message are made. -/
theorem cptk_i2c_write_frame_enabled (w : World) (cmd val : Nat) (h : w.cptk.enable = true) :
    ∃ n evs, 1 ≤ n ∧ n ≤ 2 ∧ (cptk_i2c_write w cmd val).2 = bus_update w false n evs ∧
      bus_events [write_msg w cmd val] evs ∧ transfers evs = n := by
  rw [cptk_i2c_write_enabled w cmd val h]
  obtain ⟨n, evs, hn, hw, hev, ht⟩ := write_loop_frame cmd val 2 0 (mutex_lock_i2c_lock w)
  have hx : w.xfers + 1 ≤ (cptk_i2c_write_loop cmd val 2 0 (mutex_lock_i2c_lock w)).2.xfers := by
    rcases first_ok_or_all_fail w.bus w.xfers 2 with ⟨k, hk, hfail, hok⟩ | hall
    · have := (write_loop_first_ok cmd val 2 k 0 (mutex_lock_i2c_lock w) hk hfail hok).2
      rw [this]
      show w.xfers + 1 ≤ w.xfers + (k + 1)
      omega
    · have := (write_loop_all_fail cmd val 1 0 (mutex_lock_i2c_lock w) hall).2
      rw [this]
      show w.xfers + 1 ≤ w.xfers + (1 + 1)
      omega
  refine ⟨n, evs, ?_, hn, ?_, hev, ht⟩
  · rw [hw] at hx
    simp only [bus_update, mutex_lock_i2c_lock] at hx
    omega
  · rw [hw]
    simp [bus_update, mutex_lock_i2c_lock]

theorem release_keys_from_eq :
    ∀ (n i : Nat) (w : World),
      release_keys_from i n w =
        { w with trace := w.trace ++
            (List.range' i n).map (fun j => Event.input_report_key (w.pdata.keymap j) 0) } := by
  intro n
  induction n with
  | zero => intro i w; simp [release_keys_from]
  | succ n ih =>
    intro i w
    rw [release_keys_from, ih]
    simp [input_report_key, emit, List.range'_succ]

theorem release_keys_eq (w : World) :
    release_keys w =
      { w with trace := w.trace ++ released_keys w } := by
  unfold release_keys released_keys
  exact release_keys_from_eq _ _ _

theorem suspend_power_down_eq (cfg : Bool) (w : World) :
    suspend_power_down cfg w =
      { w with
        cptk := { w.cptk with enable := false,
                              calibrated := if cfg then false else w.cptk.calibrated },
        trace := w.trace ++ ([Event.disable_irq] ++ power_events 0 w ++ released_keys w) } := by
  unfold suspend_power_down
  rw [release_keys_eq]
  cases cfg <;> cases hp : w.pdata.power <;>
    simp [disable_irq, pdata_power, emit, hp, power_events, released_keys]

/-- The world after `cptk_early_suspend` under `CONFIG_KEY_NOTIFICATION` when
the device is enabled and no notification is active. -/
theorem cptk_early_suspend_runs (w : World) (he : w.cptk.enable = true)
    (hn : w.cptk.notification = false) :
    ∃ n evs, 1 ≤ n ∧ n ≤ 2 ∧ transfers evs = n ∧
      bus_events [write_msg w KEYCODE_REG LED_OFF_CMD] evs ∧
      (cptk_early_suspend true w).2 =
        { w with
          cptk := { w.cptk with lock := false, i2c_lock := false, led_status := LED_OFF_CMD,
                                enable := false, calibrated := false },
          touch_led_timer := { w.touch_led_timer with pending := false },
          xfers := w.xfers + n,
          trace := w.trace ++ (cancel_events w ++ evs ++ [Event.disable_irq] ++
            power_events 0 w ++ released_keys w) } := by
  have hc : (mutex_lock_lock w).cptk.enable = true ∧
      (!(mutex_lock_lock w).cptk.notification) = true := by
    refine ⟨he, ?_⟩
    show (!w.cptk.notification) = true
    rw [hn]
    rfl
  have hen : (if timer_pending (mutex_lock_lock w) = 1 then del_timer (mutex_lock_lock w)
      else mutex_lock_lock w).cptk.enable = true := by
    split <;> exact he
  obtain ⟨n, evs, h1, h2, hw, hev, ht⟩ :=
    cptk_i2c_write_frame_enabled _ KEYCODE_REG LED_OFF_CMD hen
  refine ⟨n, evs, h1, h2, ht, ?_, ?_⟩
  · have : write_msg (if timer_pending (mutex_lock_lock w) = 1 then del_timer (mutex_lock_lock w)
        else mutex_lock_lock w) KEYCODE_REG LED_OFF_CMD = write_msg w KEYCODE_REG LED_OFF_CMD := by
      split <;> rfl
    rw [this] at hev
    exact hev
  · unfold cptk_early_suspend
    simp only [if_true, if_pos hc]
    rw [hw, suspend_power_down_eq]
    cases hp : w.touch_led_timer.pending
    · simp [bus_update, mutex_unlock_lock, mutex_lock_lock, timer_pending, hp,
        cancel_events, power_events, released_keys]
      rw [← hp]
    · simp [bus_update, mutex_unlock_lock, mutex_lock_lock, timer_pending, hp, del_timer,
        cancel_events, power_events, released_keys]

theorem input_events_released_keys (w : World) :
    input_events (released_keys w) = released_keys w := by
  unfold input_events released_keys
  rw [List.filter_eq_self]
  intro e he
  obtain ⟨i, _, rfl⟩ := List.mem_map.mp he
  rfl

theorem input_events_cancel_events (w : World) : input_events (cancel_events w) = [] := by
  unfold cancel_events
  split <;> rfl

theorem input_events_power_events (v : Int) (w : World) :
    input_events (power_events v w) = [] := by
  unfold power_events
  split <;> rfl

/-- Claim C5: under `CONFIG_KEY_NOTIFICATION`, on an enabled device with an
active notification `cptk_early_suspend` returns 0 and changes nothing but the
state lock, which it takes and releases: `enable` stays true, the trace is the
same (no `disable_irq`, no power call, no bus transfer, no key event), and
`led_status`, `calibrated` and the idle timer are as before. -/
theorem suspend_vetoed_by_notification (w : World) (he : w.cptk.enable = true)
    (hn : w.cptk.notification = true) :
    cptk_early_suspend true w = (0, { w with cptk := { w.cptk with lock := false } }) ∧
    (cptk_early_suspend true w).2.cptk.enable = true ∧
    (cptk_early_suspend true w).2.trace = w.trace ∧
    (cptk_early_suspend true w).2.xfers = w.xfers ∧
    (cptk_early_suspend true w).2.cptk.led_status = w.cptk.led_status ∧
    (cptk_early_suspend true w).2.cptk.calibrated = w.cptk.calibrated ∧
    (cptk_early_suspend true w).2.touch_led_timer = w.touch_led_timer := by
  have h : cptk_early_suspend true w = (0, { w with cptk := { w.cptk with lock := false } }) := by
    simp [cptk_early_suspend, mutex_lock_lock, mutex_unlock_lock, hn]
  rw [h]
  exact ⟨rfl, he, rfl, rfl, rfl, rfl, rfl⟩

theorem suspend_vetoed_by_notification_witness :
    (cptk_early_suspend true demo_notified).2.cptk.enable = true ∧
    (cptk_early_suspend true demo_notified).2.trace = [] :=
  ⟨(suspend_vetoed_by_notification demo_notified rfl rfl).2.1,
   (suspend_vetoed_by_notification demo_notified rfl rfl).2.2.1⟩

/-- Claim C6: under `CONFIG_KEY_NOTIFICATION`, on an enabled device without
notification `cptk_early_suspend` ends with `enable == false`,
`led_status == LED_OFF_CMD`, `calibrated == false` and the idle timer not
pending.  What it adds to the trace is, in this order: the timer
cancellation (if one was pending), one or two bus transfers of the message
(KEYCODE_REG, LED_OFF_CMD), `disable_irq`, the power-off call (made through
the platform callback, when the platform has one), and the key releases.  So
the LED-off write reaches the bus (it is not rejected by the disabled check)
and precedes the interrupt disable and the power cut. -/
theorem suspend_powers_down (w : World) (he : w.cptk.enable = true)
    (hn : w.cptk.notification = false) :
    (cptk_early_suspend true w).2.cptk.enable = false ∧
    (cptk_early_suspend true w).2.cptk.led_status = LED_OFF_CMD ∧
    (cptk_early_suspend true w).2.cptk.calibrated = false ∧
    (cptk_early_suspend true w).2.touch_led_timer.pending = false ∧
    ∃ evs, 1 ≤ transfers evs ∧ transfers evs ≤ 2 ∧
      bus_events [write_msg w KEYCODE_REG LED_OFF_CMD] evs ∧
      (cptk_early_suspend true w).2.trace =
        w.trace ++ (cancel_events w ++ evs ++ [Event.disable_irq] ++
          power_events 0 w ++ released_keys w) := by
  obtain ⟨n, evs, h1, h2, ht, hev, hw⟩ := cptk_early_suspend_runs w he hn
  rw [hw]
  refine ⟨rfl, rfl, rfl, rfl, evs, ?_, ?_, hev, rfl⟩ <;> omega

theorem suspend_powers_down_witness :
    (cptk_early_suspend true demo_world).2.cptk.enable = false ∧
    (cptk_early_suspend true demo_world).2.cptk.led_status = LED_OFF_CMD ∧
    (cptk_early_suspend true demo_world).2.cptk.calibrated = false ∧
    (cptk_early_suspend true demo_world).2.touch_led_timer.pending = false :=
  ⟨(suspend_powers_down demo_world rfl rfl).1, (suspend_powers_down demo_world rfl rfl).2.1,
   (suspend_powers_down demo_world rfl rfl).2.2.1,
   (suspend_powers_down demo_world rfl rfl).2.2.2.1⟩

/-- Claim C7 as stated fails: on the demo board (keymap 99, 139, 158; device
enabled, no notification, so suspend is not vetoed) no key-up is emitted for
the keymap entry at index 0; and on the same board with the device already
disabled (again no notification) no key-up is emitted at all. -/
theorem suspend_skips_keymap_index_zero :
    (demo_world.cptk.enable = true ∧ demo_world.cptk.notification = false ∧
      ¬ (∀ i, i < demo_world.pdata.keymap_size →
          Event.input_report_key (demo_world.pdata.keymap i) 0 ∈
            (cptk_early_suspend true demo_world).2.trace)) ∧
    (demo_disabled.cptk.notification = false ∧
      ¬ (∀ i, i < demo_disabled.pdata.keymap_size →
          Event.input_report_key (demo_disabled.pdata.keymap i) 0 ∈
            (cptk_early_suspend true demo_disabled).2.trace)) := by
  refine ⟨⟨rfl, rfl, ?_⟩, rfl, ?_⟩
  · intro h
    exact absurd (h 0 (by decide)) (by decide)
  · intro h
    exact absurd (h 1 (by decide)) (by decide)

/-- Claim C7, amended: under `CONFIG_KEY_NOTIFICATION`, on an enabled device
without notification `cptk_early_suspend` emits a key-up (value 0) for every
keymap index `i` with `1 <= i < keymap_size`, in increasing order of `i`, and
sends nothing else to the input sink; index 0 is not released. -/
theorem suspend_releases_keys_from_one (w : World) (he : w.cptk.enable = true)
    (hn : w.cptk.notification = false) :
    ∃ evs, (cptk_early_suspend true w).2.trace = w.trace ++ evs ∧
      input_events evs =
        (List.range' 1 (w.pdata.keymap_size - 1)).map
          (fun i => Event.input_report_key (w.pdata.keymap i) 0) ∧
      ∀ i, 1 ≤ i → i < w.pdata.keymap_size →
        Event.input_report_key (w.pdata.keymap i) 0 ∈ evs := by
  obtain ⟨n, evs, h1, h2, ht, hev, hw⟩ := cptk_early_suspend_runs w he hn
  rw [hw]
  refine ⟨_, rfl, ?_, ?_⟩
  · simp only [input_events_append, input_events_cancel_events, input_events_power_events,
      bus_events_input hev, input_events_released_keys]
    rfl
  · intro i hi1 hi2
    apply List.mem_append_right
    unfold released_keys
    apply List.mem_map.mpr
    refine ⟨i, ?_, rfl⟩
    rw [List.mem_range'_1]
    omega

theorem suspend_releases_keys_from_one_witness :
    ∃ evs, (cptk_early_suspend true demo_world).2.trace = demo_world.trace ++ evs ∧
      input_events evs =
        (List.range' 1 (demo_world.pdata.keymap_size - 1)).map
          (fun i => Event.input_report_key (demo_world.pdata.keymap i) 0) ∧
      ∀ i, 1 ≤ i → i < demo_world.pdata.keymap_size →
        Event.input_report_key (demo_world.pdata.keymap i) 0 ∈ evs :=
  suspend_releases_keys_from_one demo_world rfl rfl

theorem power_on_if_disabled_eq (w : World) :
    power_on_if_disabled w =
      { w with cptk := { w.cptk with enable := true },
               trace := w.trace ++ power_on_events w } := by
  unfold power_on_if_disabled power_on_events power_events
  cases he : w.cptk.enable <;> cases hp : w.pdata.power <;>
    simp [pdata_power, enable_irq, emit, hp]
  all_goals
    rw [← he]

/-- The world after `cptk_late_resume` under `CONFIG_KEY_NOTIFICATION`. -/
theorem cptk_late_resume_runs (w : World) :
    ∃ n1 e1 n2 e2 n3 e3,
      (1 ≤ n1 ∧ n1 ≤ 2 ∧ transfers e1 = n1 ∧
        bus_events [write_msg w KEYCODE_REG AUTO_CAL_MODE_CMD] e1) ∧
      (1 ≤ n2 ∧ n2 ≤ 2 ∧ transfers e2 = n2 ∧
        bus_events [write_msg w CMD_REG AUTO_CAL_EN_CMD] e2) ∧
      (1 ≤ n3 ∧ n3 ≤ 2 ∧ transfers e3 = n3 ∧
        bus_events [write_msg w KEYCODE_REG LED_ON_CMD] e3) ∧
      (cptk_late_resume true w).2 =
        { w with
          cptk := { w.cptk with
            lock := false, i2c_lock := false, enable := true, calibrated := true,
            led_status := if resume_led_cond w then LED_ON_CMD else w.cptk.led_status },
          touch_led_timer :=
            if resume_arm_cond w then { pending := true, expires := led_timer_expiry w }
            else w.touch_led_timer,
          xfers := w.xfers + n1 + n2 + (if resume_led_cond w then n3 else 0),
          trace := w.trace ++ (power_on_events w ++ e1 ++ e2 ++ [Event.msleep 50] ++
            (if resume_led_cond w then e3 else []) ++
            (if resume_arm_cond w then [Event.add_timer (led_timer_expiry w)] else [])) } := by
  have hen0 : (power_on_if_disabled (mutex_lock_lock w)).cptk.enable = true := by
    rw [power_on_if_disabled_eq]
  obtain ⟨n1, e1, h11, h12, hw1, hev1, ht1⟩ :=
    cptk_i2c_write_frame_enabled _ KEYCODE_REG AUTO_CAL_MODE_CMD hen0
  have hen1 : (bus_update (power_on_if_disabled (mutex_lock_lock w)) false n1 e1).cptk.enable
      = true := hen0
  obtain ⟨n2, e2, h21, h22, hw2, hev2, ht2⟩ :=
    cptk_i2c_write_frame_enabled _ CMD_REG AUTO_CAL_EN_CMD hen1
  have hen2 : (msleep 50
      { bus_update (bus_update (power_on_if_disabled (mutex_lock_lock w)) false n1 e1)
          false n2 e2 with
        cptk := { (bus_update (bus_update (power_on_if_disabled (mutex_lock_lock w))
          false n1 e1) false n2 e2).cptk with calibrated := true } }).cptk.enable = true := hen0
  obtain ⟨n3, e3, h31, h32, hw3, hev3, ht3⟩ :=
    cptk_i2c_write_frame_enabled _ KEYCODE_REG LED_ON_CMD hen2
  have hm1 : write_msg (power_on_if_disabled (mutex_lock_lock w)) KEYCODE_REG AUTO_CAL_MODE_CMD
      = write_msg w KEYCODE_REG AUTO_CAL_MODE_CMD := by
    rw [power_on_if_disabled_eq]; rfl
  have hm2 : write_msg (bus_update (power_on_if_disabled (mutex_lock_lock w)) false n1 e1)
      CMD_REG AUTO_CAL_EN_CMD = write_msg w CMD_REG AUTO_CAL_EN_CMD := by
    rw [power_on_if_disabled_eq]; rfl
  have hm3 : write_msg (msleep 50
      { bus_update (bus_update (power_on_if_disabled (mutex_lock_lock w)) false n1 e1)
          false n2 e2 with
        cptk := { (bus_update (bus_update (power_on_if_disabled (mutex_lock_lock w))
          false n1 e1) false n2 e2).cptk with calibrated := true } })
      KEYCODE_REG LED_ON_CMD = write_msg w KEYCODE_REG LED_ON_CMD := by
    rw [power_on_if_disabled_eq]; rfl
  rw [hm1] at hev1
  rw [hm2] at hev2
  rw [hm3] at hev3
  refine ⟨n1, e1, n2, e2, n3, e3, ⟨h11, h12, ht1, hev1⟩, ⟨h21, h22, ht2, hev2⟩,
    ⟨h31, h32, ht3, hev3⟩, ?_⟩
  unfold cptk_late_resume
  simp only [if_true]
  rw [hw1, hw2]
  unfold resume_led_notification
  rw [if_pos hen2, hw3, power_on_if_disabled_eq]
  have hpo : power_on_events (mutex_lock_lock w) = power_on_events w := rfl
  rw [hpo]
  by_cases hl : resume_led_cond w <;> by_cases ha : resume_arm_cond w
  all_goals
    have hl2 := hl
    have ha2 := ha
    unfold resume_led_cond at hl2
    unfold resume_arm_cond at ha2
    simp [bus_update, mutex_unlock_lock, mutex_lock_lock, msleep, emit, timer_pending,
      set_expires_add_timer, led_timer_expiry, hl, ha, hl2, ha2, Nat.add_assoc]

theorem written_append (a b : List Event) : written (a ++ b) = written a ++ written b := by
  simp [written, List.filterMap_append]

theorem written_bus_events (w : World) (cmd val : Nat) :
    ∀ evs : List Event, bus_events [write_msg w cmd val] evs →
      written evs = List.replicate (transfers evs) (cmd % 256, val % 256) := by
  intro evs
  induction evs with
  | nil => intro _; rfl
  | cons e t ih =>
    intro h
    have ht : bus_events [write_msg w cmd val] t := fun x hx => h x (List.mem_cons_of_mem _ hx)
    have iht := ih ht
    rcases h e (List.mem_cons_self _ _) with rfl | ⟨r, rfl⟩
    · simpa [written, written_pair, transfers, is_transfer] using iht
    · simp only [written, transfers] at iht ⊢
      simp [written_pair, write_msg, I2C_M_WR, is_transfer, iht, List.replicate_succ]

theorem written_power_on_events (w : World) : written (power_on_events w) = [] := by
  unfold power_on_events power_events
  split <;> (try split) <;> rfl

theorem bus_events_not_power {msgs : List i2c_msg} {evs : List Event}
    (h : bus_events msgs evs) (e : Event) (he : e ∈ evs) :
    e ≠ Event.enable_irq ∧ (∀ v, e ≠ Event.power v) ∧ (∀ x, e ≠ Event.add_timer x) := by
  rcases h e he with rfl | ⟨r, rfl⟩ <;> simp

/-- Claim C8: under `CONFIG_KEY_NOTIFICATION`, after `cptk_late_resume`
`enable == true` and `calibrated == true`.  The calls it adds to the trace
start with the power-up block, which is empty when `enable` was true on entry
and otherwise is the power-on call (made through the platform callback, when
the platform has one) followed by `enable_irq`; neither call occurs later in
the trace.  The register writes that reach the bus start with one or two
transfers of (KEYCODE_REG, AUTO_CAL_MODE_CMD) = (0x00, 0x50) followed by one or
two transfers of (CMD_REG, AUTO_CAL_EN_CMD) = (0x03, 0x01). -/
theorem resume_enables_and_calibrates (w : World) :
    (cptk_late_resume true w).2.cptk.enable = true ∧
    (cptk_late_resume true w).2.cptk.calibrated = true ∧
    ∃ tail n1 n2 later,
      (cptk_late_resume true w).2.trace = w.trace ++ (power_on_events w ++ tail) ∧
      (Event.enable_irq ∈ power_on_events w ↔ w.cptk.enable = false) ∧
      (Event.power 1 ∈ power_on_events w ↔ (w.cptk.enable = false ∧ w.pdata.power = true)) ∧
      (power_on_events w).count Event.enable_irq ≤ 1 ∧
      (power_on_events w).count (Event.power 1) ≤ 1 ∧
      Event.enable_irq ∉ tail ∧ Event.power 1 ∉ tail ∧
      written (power_on_events w) = [] ∧
      1 ≤ n1 ∧ n1 ≤ 2 ∧ 1 ≤ n2 ∧ n2 ≤ 2 ∧
      written tail = List.replicate n1 (0x00, 0x50) ++ List.replicate n2 (0x03, 0x01) ++ later := by
  obtain ⟨n1, e1, n2, e2, n3, e3, ⟨h11, h12, ht1, hev1⟩, ⟨h21, h22, ht2, hev2⟩,
    ⟨h31, h32, ht3, hev3⟩, hw⟩ := cptk_late_resume_runs w
  rw [hw]
  refine ⟨rfl, rfl,
    e1 ++ e2 ++ [Event.msleep 50] ++ (if resume_led_cond w then e3 else []) ++
      (if resume_arm_cond w then [Event.add_timer (led_timer_expiry w)] else []),
    n1, n2, written (if resume_led_cond w then e3 else []), ?_, ?_, ?_, ?_, ?_, ?_, ?_,
    written_power_on_events w, h11, h12, h21, h22, ?_⟩
  · simp [List.append_assoc]
  · unfold power_on_events power_events
    cases w.cptk.enable <;> cases w.pdata.power <;> simp
  · unfold power_on_events power_events
    cases w.cptk.enable <;> cases w.pdata.power <;> simp
  · unfold power_on_events power_events
    cases w.cptk.enable <;> cases w.pdata.power <;> simp
  · unfold power_on_events power_events
    cases w.cptk.enable <;> cases w.pdata.power <;> simp
  · intro hmem
    simp only [List.mem_append] at hmem
    rcases hmem with (((h | h) | h) | h) | h
    · exact (bus_events_not_power hev1 _ h).1 rfl
    · exact (bus_events_not_power hev2 _ h).1 rfl
    · simp at h
    · split at h
      · exact (bus_events_not_power hev3 _ h).1 rfl
      · simp at h
    · split at h <;> simp at h
  · intro hmem
    simp only [List.mem_append] at hmem
    rcases hmem with (((h | h) | h) | h) | h
    · exact (bus_events_not_power hev1 _ h).2.1 1 rfl
    · exact (bus_events_not_power hev2 _ h).2.1 1 rfl
    · simp at h
    · split at h
      · exact (bus_events_not_power hev3 _ h).2.1 1 rfl
      · simp at h
    · split at h <;> simp at h
  · have hx : written (if resume_arm_cond w then [Event.add_timer (led_timer_expiry w)] else [])
        = [] := by
      split <;> rfl
    have hs : written [Event.msleep 50] = [] := rfl
    simp only [written_append, hx, hs, List.append_nil,
      written_bus_events w KEYCODE_REG AUTO_CAL_MODE_CMD e1 hev1,
      written_bus_events w CMD_REG AUTO_CAL_EN_CMD e2 hev2, ht1, ht2]
    rfl

/-- Claim C9 as stated fails under `CONFIG_KEY_NOTIFICATION`: with
`led_status == LED_ON_CMD` on entry `cptk_late_resume` writes no `LED_ON_CMD`;
with `led_status == LED_OFF_CMD` on entry (mode KeyActivated) it does write
`LED_ON_CMD`; and with the backlight mode Off (no timer pending, no
notification) it arms the idle timer. -/
theorem resume_led_on_claim_fails :
    (demo_led_on.cptk.led_status = LED_ON_CMD ∧
      (KEYCODE_REG, LED_ON_CMD) ∉ written (cptk_late_resume true demo_led_on).2.trace) ∧
    (demo_world.cptk.led_status ≠ LED_ON_CMD ∧
      (KEYCODE_REG, LED_ON_CMD) ∈ written (cptk_late_resume true demo_world).2.trace) ∧
    (demo_mode_off.touch_led_mode = MODE_OFF ∧
      Event.add_timer 1128 ∈ (cptk_late_resume true demo_mode_off).2.trace) := by
  decide

/-- Claim C9, amended: under `CONFIG_KEY_NOTIFICATION`, `cptk_late_resume`
puts an `LED_ON_CMD` write to the keycode register on the bus exactly when the
backlight mode is not Off and `led_status` was `LED_OFF_CMD` on entry, and
then records `led_status = LED_ON_CMD` (otherwise `led_status` is unchanged);
it calls `add_timer` only when no timer is pending and no notification is
active, and with the mode not Off it does so whenever these two hold, the
expiry being `jiffies + HZ * touch_led_timeout`. -/
theorem resume_led_and_timer (w : World) :
    ∃ new, (cptk_late_resume true w).2.trace = w.trace ++ new ∧
      ((KEYCODE_REG, LED_ON_CMD) ∈ written new ↔
        (w.touch_led_mode > MODE_OFF ∧ w.cptk.led_status = LED_OFF_CMD)) ∧
      (cptk_late_resume true w).2.cptk.led_status =
        (if w.touch_led_mode > MODE_OFF ∧ w.cptk.led_status = LED_OFF_CMD then LED_ON_CMD
         else w.cptk.led_status) ∧
      (∀ x, Event.add_timer x ∈ new →
        w.touch_led_timer.pending = false ∧ w.cptk.notification = false) ∧
      (w.touch_led_mode > MODE_OFF → w.touch_led_timer.pending = false →
        w.cptk.notification = false →
          Event.add_timer (led_timer_expiry w) ∈ new ∧
          (cptk_late_resume true w).2.touch_led_timer =
            { pending := true, expires := led_timer_expiry w }) := by
  obtain ⟨n1, e1, n2, e2, n3, e3, ⟨h11, h12, ht1, hev1⟩, ⟨h21, h22, ht2, hev2⟩,
    ⟨h31, h32, ht3, hev3⟩, hw⟩ := cptk_late_resume_runs w
  rw [hw]
  refine ⟨_, rfl, ?_, rfl, ?_, ?_⟩
  · have hx : written (if resume_arm_cond w then [Event.add_timer (led_timer_expiry w)] else [])
        = [] := by
      split <;> rfl
    have hs : written [Event.msleep 50] = [] := rfl
    have hl : written (if resume_led_cond w then e3 else []) =
        if resume_led_cond w then List.replicate n3 (0x00, 0x10) else [] := by
      split
      · rw [written_bus_events w KEYCODE_REG LED_ON_CMD e3 hev3, ht3]; rfl
      · rfl
    simp only [written_append, hx, hs, hl, List.append_nil, written_power_on_events,
      List.nil_append, written_bus_events w KEYCODE_REG AUTO_CAL_MODE_CMD e1 hev1,
      written_bus_events w CMD_REG AUTO_CAL_EN_CMD e2 hev2, ht1, ht2]
    have hc : resume_led_cond w ↔
        (w.touch_led_mode > MODE_OFF ∧ w.cptk.led_status = LED_OFF_CMD) := Iff.rfl
    rw [← hc]
    by_cases hcond : resume_led_cond w
    · simp only [hcond, if_true, iff_true]
      apply List.mem_append_right
      rw [List.mem_replicate]
      exact ⟨by omega, rfl⟩
    · simp only [hcond, if_false, iff_false, List.append_nil, List.mem_append,
        List.mem_replicate]
      simp [KEYCODE_REG, LED_ON_CMD, AUTO_CAL_MODE_CMD, CMD_REG]
  · intro x hmem
    simp only [List.mem_append] at hmem
    rcases hmem with ((((h | h) | h) | h) | h) | h
    · exfalso
      unfold power_on_events power_events at h
      split at h
      · simp at h
      · split at h <;> simp at h
    · exact absurd rfl ((bus_events_not_power hev1 _ h).2.2 x)
    · exact absurd rfl ((bus_events_not_power hev2 _ h).2.2 x)
    · simp at h
    · split at h
      · exact absurd rfl ((bus_events_not_power hev3 _ h).2.2 x)
      · simp at h
    · split at h
      · assumption
      · simp at h
  · intro _ hp hn
    have harm : resume_arm_cond w := ⟨hp, hn⟩
    simp [harm]

theorem resume_led_and_timer_witness :
    ∃ new, (cptk_late_resume true demo_world).2.trace = demo_world.trace ++ new ∧
      (KEYCODE_REG, LED_ON_CMD) ∈ written new ∧ Event.add_timer 1128 ∈ new ∧
      (cptk_late_resume true demo_world).2.touch_led_timer =
        { pending := true, expires := 1128 } := by
  obtain ⟨new, ht, hled, _, _, harm⟩ := resume_led_and_timer demo_world
  exact ⟨new, ht, hled.mpr (by decide), (harm (by decide) rfl rfl).1,
    (harm (by decide) rfl rfl).2⟩

/-! ## Firmware update trigger -/

theorem cptk_update_firmware_world (w : World) :
    (cptk_update_firmware w).2 =
      { w with
        cptk := { w.cptk with touchkey_update_status := 1 },
        trace := w.trace ++
          (match w.pdata.fw_name with
           | none => []
           | some name => [Event.request_firmware_nowait name]) } := by
  unfold cptk_update_firmware
  cases h : w.pdata.fw_name with
  | none => simp [h]
  | some name =>
    simp only [h, request_firmware_nowait, emit]
    split <;> rfl

/-- Claim C10: `set_touchkey_firm_update_store` behaves as the claim says.
It calls `cptk_update_firmware` exactly under `firm_update_requested` (first
byte 'F', or 'S' with the IC version below the target or equal to 0xFF): the
function equals `firm_update_store_spec`.  Spelled out: it returns the size
in every case; when the update is requested the world afterwards is the one
`cptk_update_firmware` produces (status 1, and the asynchronous request if a
firmware name is configured); for 'S' with an up-to-date version other than
0xFF only `touchkey_update_status` changes, to 0, so nothing is requested and
nothing is flashed; for any other first byte the world is unchanged; and a
`request_firmware_nowait` call is added to the trace only when the update is
requested. -/
theorem firm_update_store_refines (w : World) (buf : List Nat) (size : Nat) :
    set_touchkey_firm_update_store w buf size = firm_update_store_spec w buf size ∧
    (set_touchkey_firm_update_store w buf size).1 = (size : Int) ∧
    (firm_update_requested w buf →
      (set_touchkey_firm_update_store w buf size).2 = (cptk_update_firmware w).2 ∧
      (set_touchkey_firm_update_store w buf size).2.cptk.touchkey_update_status = 1) ∧
    ((buf.headD 0 = 'S'.toNat ∧ w.cptk.cur_firm_ver.getD 1 0 ≥ w.pdata.firm_ver ∧
        w.cptk.cur_firm_ver.getD 1 0 ≠ 0xFF) →
      ¬ firm_update_requested w buf ∧
      (set_touchkey_firm_update_store w buf size).2 =
        { w with cptk := { w.cptk with touchkey_update_status := 0 } }) ∧
    ((buf.headD 0 ≠ 'S'.toNat ∧ buf.headD 0 ≠ 'F'.toNat) →
      ¬ firm_update_requested w buf ∧
      (set_touchkey_firm_update_store w buf size).2 = w) ∧
    (¬ firm_update_requested w buf →
      (set_touchkey_firm_update_store w buf size).2.trace = w.trace) ∧
    (∀ name, Event.request_firmware_nowait name ∈
        (set_touchkey_firm_update_store w buf size).2.trace →
      Event.request_firmware_nowait name ∉ w.trace → firm_update_requested w buf) := by
  have hSF : ('S'.toNat : Nat) ≠ 'F'.toNat := by decide
  have hspec : set_touchkey_firm_update_store w buf size = firm_update_store_spec w buf size := by
    unfold set_touchkey_firm_update_store firm_update_store_spec
    simp only []
    by_cases hr : firm_update_requested w buf
    · rw [if_pos hr]
      have h1 : buf.headD 0 = 'S'.toNat ∨ buf.headD 0 = 'F'.toNat := by
        rcases hr with h | ⟨h, _⟩
        · exact Or.inr h
        · exact Or.inl h
      have h2 : ¬ ((buf.headD 0 ≠ 'F'.toNat ∧
          w.cptk.cur_firm_ver.getD 1 0 ≥ w.pdata.firm_ver) ∧
          w.cptk.cur_firm_ver.getD 1 0 ≠ 0xFF) := by
        rintro ⟨⟨hne, hge⟩, hx⟩
        rcases hr with h | ⟨_, hlt | heq⟩
        · exact hne h
        · omega
        · exact hx heq
      rw [if_pos h1, if_neg h2]
    · rw [if_neg hr]
      by_cases hS : buf.headD 0 = 'S'.toNat
      · have hne : buf.headD 0 ≠ 'F'.toNat := by rw [hS]; exact hSF
        have hge : w.cptk.cur_firm_ver.getD 1 0 ≥ w.pdata.firm_ver := by
          by_contra hlt
          exact hr (Or.inr ⟨hS, Or.inl (by omega)⟩)
        have hx : w.cptk.cur_firm_ver.getD 1 0 ≠ 0xFF := fun heq =>
          hr (Or.inr ⟨hS, Or.inr heq⟩)
        rw [if_pos hS, if_pos (Or.inl hS), if_pos ⟨⟨hne, hge⟩, hx⟩]
      · have hF : ¬ buf.headD 0 = 'F'.toNat := fun h => hr (Or.inl h)
        rw [if_neg hS, if_neg (not_or.mpr ⟨hS, hF⟩)]
  have hnot : ¬ firm_update_requested w buf →
      (set_touchkey_firm_update_store w buf size).2.trace = w.trace := by
    intro hr
    rw [hspec]
    unfold firm_update_store_spec
    rw [if_neg hr]
    split <;> rfl
  refine ⟨hspec, ?_, ?_, ?_, ?_, hnot, ?_⟩
  · rw [hspec]
    unfold firm_update_store_spec
    split
    · rfl
    · split <;> rfl
  · intro hr
    rw [hspec]
    unfold firm_update_store_spec
    rw [if_pos hr, cptk_update_firmware_world]
    exact ⟨rfl, rfl⟩
  · rintro ⟨hS, hge, hne⟩
    have hr : ¬ firm_update_requested w buf := by
      unfold firm_update_requested
      rintro (hF | ⟨_, hlt | heq⟩)
      · rw [hS] at hF; exact hSF hF
      · omega
      · exact hne heq
    refine ⟨hr, ?_⟩
    rw [hspec]
    unfold firm_update_store_spec
    rw [if_neg hr, if_pos hS]
  · rintro ⟨hS, hF⟩
    have hr : ¬ firm_update_requested w buf := by
      unfold firm_update_requested
      rintro (hF2 | ⟨hS2, _⟩)
      · exact hF hF2
      · exact hS hS2
    refine ⟨hr, ?_⟩
    rw [hspec]
    unfold firm_update_store_spec
    rw [if_neg hr, if_neg hS]
  · intro name hmem hnew
    by_contra hr
    rw [hnot hr] at hmem
    exact hnew hmem

theorem firm_update_store_refines_witness :
    (set_touchkey_firm_update_store demo_outdated ['S'.toNat] 1).2.trace =
      [Event.request_firmware_nowait "cypress_touchkey.fw"] ∧
    (set_touchkey_firm_update_store demo_outdated ['S'.toNat] 1).2.cptk.touchkey_update_status
      = 1 ∧
    (set_touchkey_firm_update_store demo_world ['S'.toNat] 1).2 =
      { demo_world with cptk := { demo_world.cptk with touchkey_update_status := 0 } } ∧
    (set_touchkey_firm_update_store demo_world ['F'.toNat] 1).2.trace =
      [Event.request_firmware_nowait "cypress_touchkey.fw"] ∧
    (set_touchkey_firm_update_store demo_outdated ['X'.toNat] 1).2 = demo_outdated :=
  ⟨by rw [((firm_update_store_refines demo_outdated ['S'.toNat] 1).2.2.1 (by decide)).1]; rfl,
   ((firm_update_store_refines demo_outdated ['S'.toNat] 1).2.2.1 (by decide)).2,
   ((firm_update_store_refines demo_world ['S'.toNat] 1).2.2.2.1 (by decide)).2,
   by rw [((firm_update_store_refines demo_world ['F'.toNat] 1).2.2.1 (by decide)).1]; rfl,
   ((firm_update_store_refines demo_outdated ['X'.toNat] 1).2.2.2.2.1 (by decide)).2⟩

/-! ## Firmware update callback -/

/-- Claim C11: when the size of the blob is not 8192, `cptk_update_firmware_cb`
returns the world it was given: nothing is added to the trace (no flash
attempt, no `disable_irq`, no `i2c_lock_adapter`), no flash return value is
consumed, and `touchkey_update_status` and every other field are unchanged. -/
theorem firmware_cb_rejects_wrong_size (fw : firmware) (w : World) (h : fw.size ≠ 8192) :
    cptk_update_firmware_cb fw w = w ∧
    (cptk_update_firmware_cb fw w).trace = w.trace ∧
    (cptk_update_firmware_cb fw w).flashes = w.flashes ∧
    (cptk_update_firmware_cb fw w).cptk.touchkey_update_status =
      w.cptk.touchkey_update_status := by
  have hw : cptk_update_firmware_cb fw w = w := by
    unfold cptk_update_firmware_cb
    rw [if_pos (show fw.size ≠ FW_SIZE from h)]
  rw [hw]
  exact ⟨rfl, rfl, rfl, rfl⟩

theorem firmware_cb_rejects_wrong_size_witness :
    cptk_update_firmware_cb demo_fw_short (demo_flash_fails 0) = demo_flash_fails 0 ∧
    (cptk_update_firmware_cb demo_fw_short (demo_flash_fails 0)).cptk.touchkey_update_status
      = 1 :=
  ⟨(firmware_cb_rejects_wrong_size demo_fw_short (demo_flash_fails 0) (by decide)).1,
   (firmware_cb_rejects_wrong_size demo_fw_short (demo_flash_fails 0) (by decide)).2.2.2⟩

theorem flash_loop_succ (fw : firmware) (retries : Nat) (ret : Int) (w : World) :
    flash_loop fw (retries + 1) ret w =
      if w.flash w.flashes = 0 then
        (w.flash w.flashes, (touchkey_flash_firmware fw w).2)
      else
        flash_loop fw retries (w.flash w.flashes) (touchkey_flash_firmware fw w).2 := rfl

theorem flash_loop_first_ok (fw : firmware) :
    ∀ (retries k : Nat) (ret : Int) (w : World), k < retries →
      (∀ j, j < k → w.flash (w.flashes + j) ≠ 0) → w.flash (w.flashes + k) = 0 →
      flash_loop fw retries ret w =
        (0, { w with flashes := w.flashes + (k + 1),
                     trace := w.trace ++ flash_events w.flash w.flashes (k + 1) }) := by
  intro retries
  induction retries with
  | zero => intro k ret w hk; omega
  | succ n ih =>
    intro k ret w hk hfail hok
    cases k with
    | zero =>
      have h0 : w.flash w.flashes = 0 := by simpa using hok
      rw [flash_loop_succ, if_pos h0, h0]
      simp [touchkey_flash_firmware, flash_events, h0]
    | succ k =>
      have h0 : ¬ w.flash w.flashes = 0 := by
        have := hfail 0 (Nat.succ_pos k)
        simpa using this
      rw [flash_loop_succ, if_neg h0]
      have hrec := ih k (w.flash w.flashes) (touchkey_flash_firmware fw w).2 (by omega)
        (by
          intro j hj
          have := hfail (j + 1) (by omega)
          simpa [touchkey_flash_firmware, Nat.add_assoc, Nat.add_comm 1 j] using this)
        (by simpa [touchkey_flash_firmware, Nat.add_assoc, Nat.add_comm 1 k] using hok)
      rw [hrec]
      simp [touchkey_flash_firmware, flash_events, List.range'_succ, Nat.add_assoc]
      omega

theorem flash_loop_all_fail (fw : firmware) :
    ∀ (retries : Nat) (ret : Int) (w : World),
      (∀ j, j < retries + 1 → w.flash (w.flashes + j) ≠ 0) →
      flash_loop fw (retries + 1) ret w =
        (w.flash (w.flashes + retries),
          { w with flashes := w.flashes + (retries + 1),
                   trace := w.trace ++ flash_events w.flash w.flashes (retries + 1) }) := by
  intro retries
  induction retries with
  | zero =>
    intro ret w hfail
    have h0 : ¬ w.flash w.flashes = 0 := by
      have := hfail 0 (by omega)
      simpa using this
    rw [flash_loop_succ, if_neg h0]
    simp [flash_loop, touchkey_flash_firmware, flash_events]
  | succ n ih =>
    intro ret w hfail
    have h0 : ¬ w.flash w.flashes = 0 := by
      have := hfail 0 (by omega)
      simpa using this
    rw [flash_loop_succ, if_neg h0]
    have hrec := ih (w.flash w.flashes) (touchkey_flash_firmware fw w).2
      (by
        intro j hj
        have := hfail (j + 1) (by omega)
        simpa [touchkey_flash_firmware, Nat.add_assoc, Nat.add_comm 1 j] using this)
    rw [hrec]
    simp [touchkey_flash_firmware, flash_events, List.range'_succ, Nat.add_assoc,
      Nat.add_comm 1 n]
    try omega

theorem first_zero_or_none (flash : Nat → Int) (x : Nat) :
    ∀ n : Nat,
      (∃ k, k < n ∧ (∀ j, j < k → flash (x + j) ≠ 0) ∧ flash (x + k) = 0) ∨
      (∀ j, j < n → flash (x + j) ≠ 0) := by
  intro n
  induction n with
  | zero => right; intro j hj; omega
  | succ n ih =>
    rcases ih with ⟨k, hk, hfail, hok⟩ | hall
    · exact Or.inl ⟨k, by omega, hfail, hok⟩
    · by_cases h : flash (x + n) = 0
      · exact Or.inl ⟨n, by omega, hall, h⟩
      · right
        intro j hj
        by_cases hjn : j = n
        · subst hjn; exact h
        · exact hall j (by omega)

theorem reread_firm_ver_eq (w : World) :
    ∃ l n evs ver, bus_events (read_msgs w KEYCODE_REG w.cptk.cur_firm_ver 3) evs ∧
      reread_firm_ver w =
        { w with cptk := { w.cptk with i2c_lock := l, cur_firm_ver := ver },
                 xfers := w.xfers + n, trace := w.trace ++ evs } := by
  obtain ⟨l, n, evs, _, hw, hev, _⟩ := cptk_i2c_read_frame w KEYCODE_REG w.cptk.cur_firm_ver 3
  refine ⟨l, n, evs, (cptk_i2c_read w KEYCODE_REG w.cptk.cur_firm_ver 3).2.1, hev, ?_⟩
  unfold reread_firm_ver
  simp only []
  rw [hw]
  rfl

/-- The world after `cptk_update_firmware_cb` on a blob of the right size,
given what its flash loop does: `m` flash calls, `ret` left in the local. -/
theorem cptk_update_firmware_cb_runs (fw : firmware) (w : World) (h : fw.size = 8192)
    (m : Nat) (ret : Int)
    (hloop : ∀ w0 : World, w0.flash = w.flash → w0.flashes = w.flashes →
      flash_loop fw 3 0 w0 =
        (ret, { w0 with flashes := w0.flashes + m,
                        trace := w0.trace ++ flash_events w.flash w.flashes m })) :
    ∃ l n evs ver, bus_events (read_msgs w KEYCODE_REG w.cptk.cur_firm_ver 3) evs ∧
      cptk_update_firmware_cb fw w =
        { w with
          cptk := { w.cptk with lock := false, i2c_lock := l, cur_firm_ver := ver,
                                touchkey_update_status := if ret ≠ 0 then -1 else 0 },
          flashes := w.flashes + m,
          xfers := w.xfers + n,
          trace := w.trace ++ ([Event.disable_irq, Event.i2c_lock_adapter] ++
            flash_events w.flash w.flashes m ++
            [Event.i2c_unlock_adapter, Event.enable_irq, Event.release_firmware] ++ evs) } := by
  have hsz : ¬ fw.size ≠ FW_SIZE := fun hne => hne h
  have hfl := hloop (emit Event.i2c_lock_adapter (disable_irq (mutex_lock_lock w))) rfl rfl
  unfold cptk_update_firmware_cb
  rw [if_neg hsz]
  simp only []
  have hmid : mutex_unlock_lock (flash_with_irq_off fw (mutex_lock_lock w)) =
      { w with
        cptk := { w.cptk with lock := false,
                              touchkey_update_status := if ret ≠ 0 then -1 else 0 },
        flashes := w.flashes + m,
        trace := w.trace ++ ([Event.disable_irq, Event.i2c_lock_adapter] ++
          flash_events w.flash w.flashes m ++
          [Event.i2c_unlock_adapter, Event.enable_irq, Event.release_firmware]) } := by
    unfold flash_with_irq_off
    simp only []
    rw [hfl]
    by_cases hr : ret ≠ 0
    · simp [hr, mutex_unlock_lock, mutex_lock_lock, emit, enable_irq, disable_irq]
    · simp [hr, mutex_unlock_lock, mutex_lock_lock, emit, enable_irq, disable_irq]
  rw [hmid]
  obtain ⟨l, n, evs, ver, hev, hw⟩ := reread_firm_ver_eq
    { w with
      cptk := { w.cptk with lock := false,
                            touchkey_update_status := if ret ≠ 0 then -1 else 0 },
      flashes := w.flashes + m,
      trace := w.trace ++ ([Event.disable_irq, Event.i2c_lock_adapter] ++
        flash_events w.flash w.flashes m ++
        [Event.i2c_unlock_adapter, Event.enable_irq, Event.release_firmware]) }
  refine ⟨l, n, evs, ver, hev, ?_⟩
  rw [hw]
  simp [List.append_assoc]

theorem flash_events_not_irq (flash : Nat → Int) (start n : Nat) :
    Event.disable_irq ∉ flash_events flash start n ∧
    Event.enable_irq ∉ flash_events flash start n := by
  constructor <;>
  · intro hmem
    obtain ⟨j, _, hj⟩ := List.mem_map.mp hmem
    cases hj

/-- Shape of the outcome of `cptk_update_firmware_cb` on a blob of the right
size when its flash loop makes `m` calls and leaves `ret` in the local. -/
theorem cptk_update_firmware_cb_shape (fw : firmware) (w : World) (h : fw.size = 8192)
    (m : Nat) (ret : Int)
    (hloop : ∀ w0 : World, w0.flash = w.flash → w0.flashes = w.flashes →
      flash_loop fw 3 0 w0 =
        (ret, { w0 with flashes := w0.flashes + m,
                        trace := w0.trace ++ flash_events w.flash w.flashes m })) :
    (∃ evs, bus_events (read_msgs w KEYCODE_REG w.cptk.cur_firm_ver 3) evs ∧
      (cptk_update_firmware_cb fw w).trace =
        w.trace ++ ([Event.disable_irq, Event.i2c_lock_adapter] ++
          flash_events w.flash w.flashes m ++
          [Event.i2c_unlock_adapter, Event.enable_irq, Event.release_firmware] ++ evs)) ∧
    (cptk_update_firmware_cb fw w).cptk.touchkey_update_status = (if ret ≠ 0 then -1 else 0) ∧
    (cptk_update_firmware_cb fw w).flashes = w.flashes + m ∧
    (cptk_update_firmware_cb fw w).cptk.enable = w.cptk.enable ∧
    (∃ new, (cptk_update_firmware_cb fw w).trace = w.trace ++ new ∧
      new.count Event.disable_irq = 1 ∧ new.count Event.enable_irq = 1) := by
  obtain ⟨l, n, evs, ver, hev, hw⟩ := cptk_update_firmware_cb_runs fw w h m ret hloop
  rw [hw]
  refine ⟨⟨evs, hev, rfl⟩, rfl, rfl, rfl, _, rfl, ?_, ?_⟩
  · have h1 : (flash_events w.flash w.flashes m).count Event.disable_irq = 0 :=
      List.count_eq_zero.mpr (flash_events_not_irq _ _ _).1
    have h2 : evs.count Event.disable_irq = 0 := by
      apply List.count_eq_zero.mpr
      intro hmem
      rcases hev _ hmem with h | ⟨r, h⟩ <;> cases h
    simp [List.count_append, h1, h2, List.count_cons]
  · have h1 : (flash_events w.flash w.flashes m).count Event.enable_irq = 0 :=
      List.count_eq_zero.mpr (flash_events_not_irq _ _ _).2
    have h2 : evs.count Event.enable_irq = 0 := by
      apply List.count_eq_zero.mpr
      intro hmem
      exact (bus_events_not_power hev _ hmem).1 rfl
    simp [List.count_append, h1, h2, List.count_cons]

/-- Claim C12: on a blob of the right size, for every sequence of flash return
values, `cptk_update_firmware_cb` calls `touchkey_flash_firmware` until the
first call that returns 0 and at most 3 times.  If call `k + 1` (of at most 3)
is the first to succeed, exactly `k + 1` calls are made and
`touchkey_update_status` becomes 0; if all 3 fail, exactly 3 calls are made and
it becomes -1.  In both cases what is added to the trace is `disable_irq`,
`i2c_lock_adapter`, the flash calls, `i2c_unlock_adapter`, `enable_irq`,
`release_firmware` and then the bus transfers of the version read-back:
`disable_irq` occurs exactly once, before the first flash call, `enable_irq`
exactly once, after the last; and `enable` is unchanged. -/
theorem firmware_cb_flash_attempts (fw : firmware) (w : World) (h : fw.size = 8192) :
    (∀ k, k < 3 → (∀ j, j < k → w.flash (w.flashes + j) ≠ 0) → w.flash (w.flashes + k) = 0 →
      (∃ evs, bus_events (read_msgs w KEYCODE_REG w.cptk.cur_firm_ver 3) evs ∧
        (cptk_update_firmware_cb fw w).trace =
          w.trace ++ ([Event.disable_irq, Event.i2c_lock_adapter] ++
            flash_events w.flash w.flashes (k + 1) ++
            [Event.i2c_unlock_adapter, Event.enable_irq, Event.release_firmware] ++ evs)) ∧
      (cptk_update_firmware_cb fw w).cptk.touchkey_update_status = 0 ∧
      (cptk_update_firmware_cb fw w).flashes = w.flashes + (k + 1)) ∧
    ((∀ j, j < 3 → w.flash (w.flashes + j) ≠ 0) →
      (∃ evs, bus_events (read_msgs w KEYCODE_REG w.cptk.cur_firm_ver 3) evs ∧
        (cptk_update_firmware_cb fw w).trace =
          w.trace ++ ([Event.disable_irq, Event.i2c_lock_adapter] ++
            flash_events w.flash w.flashes 3 ++
            [Event.i2c_unlock_adapter, Event.enable_irq, Event.release_firmware] ++ evs)) ∧
      (cptk_update_firmware_cb fw w).cptk.touchkey_update_status = -1 ∧
      (cptk_update_firmware_cb fw w).flashes = w.flashes + 3) ∧
    (cptk_update_firmware_cb fw w).cptk.enable = w.cptk.enable ∧
    (cptk_update_firmware_cb fw w).flashes ≤ w.flashes + 3 ∧
    (∃ new, (cptk_update_firmware_cb fw w).trace = w.trace ++ new ∧
      new.count Event.disable_irq = 1 ∧ new.count Event.enable_irq = 1) := by
  have hok : ∀ k, k < 3 → (∀ j, j < k → w.flash (w.flashes + j) ≠ 0) →
      w.flash (w.flashes + k) = 0 →
      ∀ w0 : World, w0.flash = w.flash → w0.flashes = w.flashes →
        flash_loop fw 3 0 w0 =
          (0, { w0 with flashes := w0.flashes + (k + 1),
                        trace := w0.trace ++ flash_events w.flash w.flashes (k + 1) }) := by
    intro k hk hfail hz w0 hf hn
    have := flash_loop_first_ok fw 3 k 0 w0 hk (by rw [hf, hn]; exact hfail) (by rw [hf, hn]; exact hz)
    rw [this, hf, hn]
  have hbad : (∀ j, j < 3 → w.flash (w.flashes + j) ≠ 0) →
      ∀ w0 : World, w0.flash = w.flash → w0.flashes = w.flashes →
        flash_loop fw 3 0 w0 =
          Prod.mk (w.flash (w.flashes + 2))
            { w0 with flashes := w0.flashes + 3,
                      trace := w0.trace ++ flash_events w.flash w.flashes 3 } := by
    intro hfail w0 hf hn
    have := flash_loop_all_fail fw 2 0 w0 (by rw [hf, hn]; exact hfail)
    rw [this, hf, hn]
  have hcase := first_zero_or_none w.flash w.flashes 3
  refine ⟨?_, ?_, ?_, ?_, ?_⟩
  · intro k hk hfail hz
    obtain ⟨ht, hs, hf, _, _⟩ := cptk_update_firmware_cb_shape fw w h (k + 1) 0 (hok k hk hfail hz)
    exact ⟨ht, by simpa using hs, hf⟩
  · intro hfail
    obtain ⟨ht, hs, hf, _, _⟩ :=
      cptk_update_firmware_cb_shape fw w h 3 (w.flash (w.flashes + 2)) (hbad hfail)
    refine ⟨ht, ?_, hf⟩
    rw [hs, if_pos (hfail 2 (by omega))]
  · rcases hcase with ⟨k, hk, hfail, hz⟩ | hfail
    · exact (cptk_update_firmware_cb_shape fw w h (k + 1) 0 (hok k hk hfail hz)).2.2.2.1
    · exact (cptk_update_firmware_cb_shape fw w h 3 _ (hbad hfail)).2.2.2.1
  · rcases hcase with ⟨k, hk, hfail, hz⟩ | hfail
    · rw [(cptk_update_firmware_cb_shape fw w h (k + 1) 0 (hok k hk hfail hz)).2.2.1]
      omega
    · rw [(cptk_update_firmware_cb_shape fw w h 3 _ (hbad hfail)).2.2.1]
  · rcases hcase with ⟨k, hk, hfail, hz⟩ | hfail
    · exact (cptk_update_firmware_cb_shape fw w h (k + 1) 0 (hok k hk hfail hz)).2.2.2.2
    · exact (cptk_update_firmware_cb_shape fw w h 3 _ (hbad hfail)).2.2.2.2

theorem firmware_cb_flash_attempts_witness :
    (cptk_update_firmware_cb demo_fw (demo_flash_fails 2)).cptk.touchkey_update_status = 0 ∧
    (cptk_update_firmware_cb demo_fw (demo_flash_fails 2)).flashes = 3 ∧
    (cptk_update_firmware_cb demo_fw (demo_flash_fails 3)).cptk.touchkey_update_status = -1 ∧
    (cptk_update_firmware_cb demo_fw (demo_flash_fails 3)).flashes = 3 ∧
    (cptk_update_firmware_cb demo_fw (demo_flash_fails 3)).cptk.enable = true :=
  ⟨((firmware_cb_flash_attempts demo_fw (demo_flash_fails 2) rfl).1 2 (by decide) (by decide)
      (by decide)).2.1,
   ((firmware_cb_flash_attempts demo_fw (demo_flash_fails 2) rfl).1 2 (by decide) (by decide)
      (by decide)).2.2,
   ((firmware_cb_flash_attempts demo_fw (demo_flash_fails 3) rfl).2.1 (by decide)).2.1,
   ((firmware_cb_flash_attempts demo_fw (demo_flash_fails 3) rfl).2.1 (by decide)).2.2,
   (firmware_cb_flash_attempts demo_fw (demo_flash_fails 3) rfl).2.2.1⟩

/-- With no firmware name configured `cptk_update_firmware` returns `-EINVAL`
and requests nothing, but it has already set `touchkey_update_status` to 1. -/
theorem cptk_update_firmware_unconfigured (w : World) (h : w.pdata.fw_name = none) :
    cptk_update_firmware w =
      (-22, { w with cptk := { w.cptk with touchkey_update_status := 1 } }) := by
  unfold cptk_update_firmware
  simp [h, EINVAL]

/-- Claim C13, evaluated on the code: on a board without firmware name, with
`touchkey_update_status == 0` on entry, `cptk_update_firmware` returns
`-EINVAL` (-22) and issues no request (the trace stays empty), yet
`touchkey_update_status` is 1 (Downloading) afterwards. -/
theorem update_firmware_unconfigured_sets_status :
    demo_no_fw_name.pdata.fw_name = none ∧
    demo_no_fw_name.cptk.touchkey_update_status = 0 ∧
    (cptk_update_firmware demo_no_fw_name).1 = -22 ∧
    (cptk_update_firmware demo_no_fw_name).2.trace = [] ∧
    (cptk_update_firmware demo_no_fw_name).2.cptk.touchkey_update_status = 1 := by
  decide

/-! ## Backlight policy -/

/-- Claim C14: with a notification active, `touchkey_disable` and
`touch_led_timedout_work` change nothing but the state lock, which they take
and release: the trace is the same (no `LED_OFF_CMD` write, no timer call), and
`led_status`, `enable` and the idle timer are unchanged. -/
theorem notification_blocks_led_off (w : World) (hn : w.cptk.notification = true) :
    touchkey_disable w = { w with cptk := { w.cptk with lock := false } } ∧
    touch_led_timedout_work w = { w with cptk := { w.cptk with lock := false } } ∧
    (touchkey_disable w).trace = w.trace ∧
    (touch_led_timedout_work w).trace = w.trace ∧
    (touchkey_disable w).cptk.led_status = w.cptk.led_status ∧
    (touch_led_timedout_work w).cptk.led_status = w.cptk.led_status ∧
    (touchkey_disable w).cptk.enable = w.cptk.enable ∧
    (touch_led_timedout_work w).cptk.enable = w.cptk.enable ∧
    (touchkey_disable w).touch_led_timer = w.touch_led_timer ∧
    (touch_led_timedout_work w).touch_led_timer = w.touch_led_timer := by
  have h1 : touchkey_disable w = { w with cptk := { w.cptk with lock := false } } := by
    simp [touchkey_disable, mutex_lock_lock, mutex_unlock_lock, hn]
  have h2 : touch_led_timedout_work w = { w with cptk := { w.cptk with lock := false } } := by
    simp [touch_led_timedout_work, mutex_lock_lock, mutex_unlock_lock, hn]
  rw [h1, h2]
  exact ⟨rfl, rfl, rfl, rfl, rfl, rfl, rfl, rfl, rfl, rfl⟩

theorem notification_blocks_led_off_witness :
    (touchkey_disable demo_notified_lit).trace = [] ∧
    (touch_led_timedout_work demo_notified_lit).trace = [] ∧
    (touchkey_disable demo_notified_lit).cptk.led_status = LED_ON_CMD ∧
    (touch_led_timedout_work demo_notified_lit).cptk.led_status = LED_ON_CMD ∧
    (touchkey_disable demo_notified_lit).touch_led_timer = { pending := true, expires := 1100 } :=
  ⟨(notification_blocks_led_off demo_notified_lit rfl).2.2.1,
   (notification_blocks_led_off demo_notified_lit rfl).2.2.2.1,
   (notification_blocks_led_off demo_notified_lit rfl).2.2.2.2.1,
   (notification_blocks_led_off demo_notified_lit rfl).2.2.2.2.2.1,
   (notification_blocks_led_off demo_notified_lit rfl).2.2.2.2.2.2.2.2.1⟩

/-- The world after `touchkey_enable` when the backlight mode is not Off and
the LED is recorded as off. -/
theorem touchkey_enable_runs (w : World) (hm : w.touch_led_mode > MODE_OFF)
    (hl : w.cptk.led_status = LED_OFF_CMD) :
    ∃ n evs, 1 ≤ n ∧ n ≤ 2 ∧ transfers evs = n ∧
      bus_events [write_msg w KEYCODE_REG LED_ON_CMD] evs ∧
      touchkey_enable w =
        { w with
          cptk := { w.cptk with lock := false, i2c_lock := false, enable := true,
                                led_status := LED_ON_CMD },
          touch_led_timer :=
            if resume_arm_cond w then { pending := true, expires := led_timer_expiry w }
            else w.touch_led_timer,
          xfers := w.xfers + n,
          trace := w.trace ++ (power_on_events w ++ evs ++
            (if resume_arm_cond w then [Event.add_timer (led_timer_expiry w)] else [])) } := by
  have hc : (mutex_lock_lock w).touch_led_mode > MODE_OFF ∧
      (mutex_lock_lock w).cptk.led_status = LED_OFF_CMD := ⟨hm, hl⟩
  have hen : (power_on_if_disabled (mutex_lock_lock w)).cptk.enable = true := by
    rw [power_on_if_disabled_eq]
  obtain ⟨n, evs, h1, h2, hw, hev, ht⟩ :=
    cptk_i2c_write_frame_enabled _ KEYCODE_REG LED_ON_CMD hen
  have hmsg : write_msg (power_on_if_disabled (mutex_lock_lock w)) KEYCODE_REG LED_ON_CMD =
      write_msg w KEYCODE_REG LED_ON_CMD := by
    rw [power_on_if_disabled_eq]; rfl
  rw [hmsg] at hev
  refine ⟨n, evs, h1, h2, ht, hev, ?_⟩
  unfold touchkey_enable
  simp only []
  rw [if_pos hc, hw, power_on_if_disabled_eq]
  have hpo : power_on_events (mutex_lock_lock w) = power_on_events w := rfl
  rw [hpo]
  by_cases ha : resume_arm_cond w
  all_goals
    have ha2 := ha
    unfold resume_arm_cond at ha2
    simp [bus_update, mutex_unlock_lock, mutex_lock_lock, timer_pending,
      set_expires_add_timer, led_timer_expiry, ha, ha2]

theorem touchkey_enable_skips (w : World)
    (h : ¬ (w.touch_led_mode > MODE_OFF ∧ w.cptk.led_status = LED_OFF_CMD)) :
    touchkey_enable w = { w with cptk := { w.cptk with lock := false } } := by
  have hc : ¬ ((mutex_lock_lock w).touch_led_mode > MODE_OFF ∧
      (mutex_lock_lock w).cptk.led_status = LED_OFF_CMD) := h
  unfold touchkey_enable
  simp only []
  rw [if_neg hc]
  rfl

theorem disable_guard (w : World) (hm : w.touch_led_mode > MODE_OFF)
    (hn : w.cptk.notification = false) :
    (mutex_lock_lock w).touch_led_mode > MODE_OFF ∧
      (!(mutex_lock_lock w).cptk.notification) = true := by
  refine ⟨hm, ?_⟩
  show (!w.cptk.notification) = true
  rw [hn]
  rfl

/-- The world after `touchkey_disable` when it switches an enabled device off. -/
theorem touchkey_disable_runs (w : World) (hm : w.touch_led_mode > MODE_OFF)
    (hn : w.cptk.notification = false) (he : w.cptk.enable = true) :
    ∃ n evs, 1 ≤ n ∧ n ≤ 2 ∧ transfers evs = n ∧
      bus_events [write_msg w KEYCODE_REG LED_OFF_CMD] evs ∧
      touchkey_disable w =
        { w with
          cptk := { w.cptk with lock := false, i2c_lock := false, enable := false,
                                led_status := LED_OFF_CMD },
          touch_led_timer := { w.touch_led_timer with pending := false },
          xfers := w.xfers + n,
          trace := w.trace ++ (cancel_events w ++ evs ++ [Event.disable_irq] ++
            power_events 0 w) } := by
  have hc := disable_guard w hm hn
  have hen : (if timer_pending (mutex_lock_lock w) = 1 then del_timer (mutex_lock_lock w)
      else mutex_lock_lock w).cptk.enable = true := by
    split <;> exact he
  obtain ⟨n, evs, h1, h2, hw, hev, ht⟩ :=
    cptk_i2c_write_frame_enabled _ KEYCODE_REG LED_OFF_CMD hen
  refine ⟨n, evs, h1, h2, ht, ?_, ?_⟩
  · have : write_msg (if timer_pending (mutex_lock_lock w) = 1 then del_timer (mutex_lock_lock w)
        else mutex_lock_lock w) KEYCODE_REG LED_OFF_CMD = write_msg w KEYCODE_REG LED_OFF_CMD := by
      split <;> rfl
    rw [this] at hev
    exact hev
  · unfold touchkey_disable
    simp only []
    rw [if_pos hc, if_pos hen, hw]
    cases hp : w.touch_led_timer.pending <;> cases hpw : w.pdata.power
    · simp [bus_update, mutex_unlock_lock, mutex_lock_lock, timer_pending, hp, hpw,
        cancel_events, power_events, disable_irq, pdata_power, emit]
      rw [← hp]
    · simp [bus_update, mutex_unlock_lock, mutex_lock_lock, timer_pending, hp, hpw,
        cancel_events, power_events, disable_irq, pdata_power, emit]
      rw [← hp]
    · simp [bus_update, mutex_unlock_lock, mutex_lock_lock, timer_pending, hp, hpw, del_timer,
        cancel_events, power_events, disable_irq, pdata_power, emit]
    · simp [bus_update, mutex_unlock_lock, mutex_lock_lock, timer_pending, hp, hpw, del_timer,
        cancel_events, power_events, disable_irq, pdata_power, emit]

/-- The world after `touchkey_disable` on a device that is already disabled:
only a pending timer is cancelled. -/
theorem touchkey_disable_idle (w : World) (hm : w.touch_led_mode > MODE_OFF)
    (hn : w.cptk.notification = false) (he : w.cptk.enable = false) :
    touchkey_disable w =
      { w with
        cptk := { w.cptk with lock := false },
        touch_led_timer := { w.touch_led_timer with pending := false },
        trace := w.trace ++ cancel_events w } := by
  have hc := disable_guard w hm hn
  have hen : ¬ (if timer_pending (mutex_lock_lock w) = 1 then del_timer (mutex_lock_lock w)
      else mutex_lock_lock w).cptk.enable = true := by
    split <;> simp [mutex_lock_lock, del_timer, he]
  unfold touchkey_disable
  simp only []
  rw [if_pos hc, if_neg hen]
  cases hp : w.touch_led_timer.pending
  · simp [mutex_unlock_lock, mutex_lock_lock, timer_pending, hp, cancel_events]
    rw [← hp]
  · simp [mutex_unlock_lock, mutex_lock_lock, timer_pending, hp, cancel_events, del_timer]

theorem touchkey_disable_skips (w : World)
    (h : ¬ (w.touch_led_mode > MODE_OFF ∧ w.cptk.notification = false)) :
    touchkey_disable w = { w with cptk := { w.cptk with lock := false } } := by
  have hc : ¬ ((mutex_lock_lock w).touch_led_mode > MODE_OFF ∧
      (!(mutex_lock_lock w).cptk.notification) = true) := by
    rintro ⟨h1, h2⟩
    apply h
    refine ⟨h1, ?_⟩
    have h3 : (!w.cptk.notification) = true := h2
    simpa using h3
  unfold touchkey_disable
  simp only []
  rw [if_neg hc]
  rfl

theorem enable_replay_append (en : Bool) (a b : List Event) :
    enable_replay en (a ++ b) = enable_replay (enable_replay en a) b := by
  simp [enable_replay, List.foldl_append]

theorem led_on_only_enabled_append (a b : List Event) :
    ∀ en : Bool, led_on_only_enabled en (a ++ b) =
      (led_on_only_enabled en a && led_on_only_enabled (enable_replay en a) b) := by
  induction a with
  | nil => intro en; simp [led_on_only_enabled, enable_replay]
  | cons e t ih =>
    intro en
    show ((decide (written_pair e ≠ some (KEYCODE_REG, LED_ON_CMD)) || en) &&
        led_on_only_enabled (replay_step en e) (t ++ b)) =
      (((decide (written_pair e ≠ some (KEYCODE_REG, LED_ON_CMD)) || en) &&
        led_on_only_enabled (replay_step en e) t) &&
        led_on_only_enabled (enable_replay (replay_step en e) t) b)
    rw [ih, Bool.and_assoc]

theorem bus_events_replay {msgs : List i2c_msg} (evs : List Event)
    (h : bus_events msgs evs) (en : Bool) : enable_replay en evs = en := by
  induction evs with
  | nil => rfl
  | cons e t ih =>
    have ht : bus_events msgs t := fun x hx => h x (List.mem_cons_of_mem _ hx)
    have hstep : replay_step en e = en := by
      rcases h e (List.mem_cons_self _ _) with rfl | ⟨r, rfl⟩ <;> rfl
    show enable_replay (replay_step en e) t = en
    rw [hstep]
    exact ih ht

theorem bus_events_led_on_ok (w : World) (cmd val : Nat) (evs : List Event)
    (h : bus_events [write_msg w cmd val] evs) (en : Bool)
    (hok : en = true ∨ (cmd % 256, val % 256) ≠ (KEYCODE_REG, LED_ON_CMD)) :
    led_on_only_enabled en evs = true := by
  induction evs with
  | nil => rfl
  | cons e t ih =>
    have ht : bus_events [write_msg w cmd val] t := fun x hx => h x (List.mem_cons_of_mem _ hx)
    have hstep : replay_step en e = en := by
      rcases h e (List.mem_cons_self _ _) with rfl | ⟨r, rfl⟩ <;> rfl
    have hhead : (decide (written_pair e ≠ some (KEYCODE_REG, LED_ON_CMD)) || en) = true := by
      rcases hok with hen | hne
      · simp [hen]
      · rcases h e (List.mem_cons_self _ _) with rfl | ⟨r, rfl⟩
        · simp [written_pair]
        · have hp : written_pair (Event.i2c_transfer [write_msg w cmd val] r) =
              some (cmd % 256, val % 256) := by
            simp [written_pair, write_msg, I2C_M_WR]
          rw [hp]
          simp only [Bool.or_eq_true, decide_eq_true_eq]
          left
          intro heq
          exact hne (Option.some.inj heq)
    show ((decide (written_pair e ≠ some (KEYCODE_REG, LED_ON_CMD)) || en) &&
      led_on_only_enabled (replay_step en e) t) = true
    rw [hhead, hstep, ih ht]
    rfl

/-- One policy call keeps LED-on transfers inside the enabled periods and the
replayed flag in step with the `enable` field. -/
theorem touchkey_enable_led_ok (w : World) :
    ∃ new, (touchkey_enable w).trace = w.trace ++ new ∧
      led_on_only_enabled w.cptk.enable new = true ∧
      (touchkey_enable w).cptk.enable = enable_replay w.cptk.enable new := by
  by_cases hc : w.touch_led_mode > MODE_OFF ∧ w.cptk.led_status = LED_OFF_CMD
  · obtain ⟨n, evs, _, _, _, hev, hw⟩ := touchkey_enable_runs w hc.1 hc.2
    rw [hw]
    refine ⟨_, rfl, ?_, ?_⟩
    · have hpo : led_on_only_enabled w.cptk.enable (power_on_events w) = true ∧
          enable_replay w.cptk.enable (power_on_events w) = true := by
        unfold power_on_events power_events
        cases he : w.cptk.enable <;> cases hp : w.pdata.power <;> simp [he, hp] <;> decide
      have hb := bus_events_led_on_ok w _ _ evs hev true (Or.inl rfl)
      have hr := bus_events_replay evs hev true
      simp only [led_on_only_enabled_append, enable_replay_append, hpo.1, hpo.2, hb, hr,
        Bool.and_true, Bool.true_and]
      split <;> rfl
    · have hpo : enable_replay w.cptk.enable (power_on_events w) = true := by
        unfold power_on_events power_events
        cases he : w.cptk.enable <;> cases hp : w.pdata.power <;> simp [he, hp] <;> decide
      have hr := bus_events_replay evs hev true
      simp only [enable_replay_append, hpo, hr]
      split <;> rfl
  · rw [touchkey_enable_skips w hc]
    exact ⟨[], by simp, rfl, rfl⟩

theorem touchkey_disable_led_ok (w : World) :
    ∃ new, (touchkey_disable w).trace = w.trace ++ new ∧
      led_on_only_enabled w.cptk.enable new = true ∧
      (touchkey_disable w).cptk.enable = enable_replay w.cptk.enable new := by
  have hcancel : ∀ en : Bool, led_on_only_enabled en (cancel_events w) = true ∧
      enable_replay en (cancel_events w) = en := by
    intro en
    unfold cancel_events
    split <;> exact ⟨rfl, rfl⟩
  by_cases hc : w.touch_led_mode > MODE_OFF ∧ w.cptk.notification = false
  · cases he : w.cptk.enable
    · rw [touchkey_disable_idle w hc.1 hc.2 he]
      exact ⟨_, rfl, (hcancel false).1, by rw [(hcancel false).2]; exact he⟩
    · obtain ⟨n, evs, _, _, _, hev, hw⟩ := touchkey_disable_runs w hc.1 hc.2 he
      rw [hw]
      have hpw : ∀ en : Bool, led_on_only_enabled en (power_events 0 w) = true ∧
          enable_replay en (power_events 0 w) = en := by
        intro en
        unfold power_events
        split <;> exact ⟨rfl, rfl⟩
      refine ⟨_, rfl, ?_, ?_⟩
      · have hb := bus_events_led_on_ok w _ _ evs hev true (Or.inl rfl)
        have hr := bus_events_replay evs hev true
        simp only [led_on_only_enabled_append, enable_replay_append, (hcancel true).1,
          (hcancel true).2, hb, hr, (hpw _).1, Bool.and_true, Bool.true_and]
        rfl
      · have hr := bus_events_replay evs hev true
        simp only [enable_replay_append, (hcancel true).2, hr, (hpw _).2]
        rfl
  · rw [touchkey_disable_skips w hc]
    exact ⟨[], by simp, rfl, rfl⟩

/-- Claim C15: for every initial state (any backlight mode) and every finite
sequence of `touchkey_enable` / `touchkey_disable` calls, every bus transfer
of the write (KEYCODE_REG, LED_ON_CMD) that the sequence adds to the trace is
made while `enable` is true: following the flag along the added calls (it is
set before `enable_irq` and cleared after `disable_irq`), each such transfer
finds it true, and the followed flag agrees with the `enable` field after the
sequence.  The transport itself makes no transfer when `enable` is false. -/
theorem led_on_only_while_enabled (calls : List led_call) (w : World) :
    (∃ new, (run_led_calls calls w).trace = w.trace ++ new ∧
      led_on_only_enabled w.cptk.enable new = true ∧
      (run_led_calls calls w).cptk.enable = enable_replay w.cptk.enable new) ∧
    (∀ (w0 : World) (cmd val : Nat), w0.cptk.enable = false →
      (cptk_i2c_write w0 cmd val).2.trace = w0.trace) := by
  constructor
  · induction calls generalizing w with
    | nil => exact ⟨[], by simp [run_led_calls], rfl, rfl⟩
    | cons c t ih =>
      have hstep : ∃ w1 new, run_led_calls (c :: t) w = run_led_calls t w1 ∧
          w1.trace = w.trace ++ new ∧ led_on_only_enabled w.cptk.enable new = true ∧
          w1.cptk.enable = enable_replay w.cptk.enable new := by
        cases c
        · obtain ⟨new, h1, h2, h3⟩ := touchkey_enable_led_ok w
          exact ⟨_, new, rfl, h1, h2, h3⟩
        · obtain ⟨new, h1, h2, h3⟩ := touchkey_disable_led_ok w
          exact ⟨_, new, rfl, h1, h2, h3⟩
      obtain ⟨w1, new1, hrun, ht1, hl1, he1⟩ := hstep
      obtain ⟨new2, ht2, hl2, he2⟩ := ih w1
      refine ⟨new1 ++ new2, ?_, ?_, ?_⟩
      · rw [hrun, ht2, ht1, List.append_assoc]
      · rw [led_on_only_enabled_append, hl1, ← he1, hl2]
        rfl
      · rw [hrun, he2, enable_replay_append, he1]
  · intro w0 cmd val h0
    simp [cptk_i2c_write, h0]

/-- The check of claim C15 is not vacuous: it rejects an LED-on transfer made
while the followed flag is false, and a sequence of policy calls on the demo
state does put LED-on transfers on the bus. -/
theorem led_on_only_enabled_discriminates :
    led_on_only_enabled false
      [Event.i2c_transfer [write_msg demo_world KEYCODE_REG LED_ON_CMD] 1] = false ∧
    (KEYCODE_REG, LED_ON_CMD) ∈
      written (run_led_calls
        [led_call.disable, led_call.enable, led_call.enable, led_call.disable]
        demo_world).trace := by
  decide

theorem led_off_guard (w : World) (hm : w.touch_led_mode > MODE_OFF) :
    (mutex_lock_lock w).touch_led_mode > MODE_OFF := hm

/-- The world after `touch_led_disable` on an enabled device with the
backlight mode not Off. -/
theorem touch_led_disable_runs (w : World) (hm : w.touch_led_mode > MODE_OFF)
    (he : w.cptk.enable = true) :
    ∃ n evs, 1 ≤ n ∧ n ≤ 2 ∧ transfers evs = n ∧
      bus_events [write_msg w KEYCODE_REG LED_OFF_CMD] evs ∧
      touch_led_disable w =
        { w with
          cptk := { w.cptk with lock := false, i2c_lock := false, led_status := LED_OFF_CMD },
          touch_led_timer := { w.touch_led_timer with pending := false },
          xfers := w.xfers + n,
          trace := w.trace ++ (cancel_events w ++ evs) } := by
  have hc := led_off_guard w hm
  have hen : (if timer_pending (mutex_lock_lock w) = 1 then del_timer (mutex_lock_lock w)
      else mutex_lock_lock w).cptk.enable = true := by
    split <;> exact he
  obtain ⟨n, evs, h1, h2, hw, hev, ht⟩ :=
    cptk_i2c_write_frame_enabled _ KEYCODE_REG LED_OFF_CMD hen
  refine ⟨n, evs, h1, h2, ht, ?_, ?_⟩
  · have : write_msg (if timer_pending (mutex_lock_lock w) = 1 then del_timer (mutex_lock_lock w)
        else mutex_lock_lock w) KEYCODE_REG LED_OFF_CMD = write_msg w KEYCODE_REG LED_OFF_CMD := by
      split <;> rfl
    rw [this] at hev
    exact hev
  · unfold touch_led_disable
    simp only []
    rw [if_pos hc, if_pos hen, hw]
    cases hp : w.touch_led_timer.pending
    · simp [bus_update, mutex_unlock_lock, mutex_lock_lock, timer_pending, hp, cancel_events]
      rw [← hp]
    · simp [bus_update, mutex_unlock_lock, mutex_lock_lock, timer_pending, hp, del_timer,
        cancel_events]

/-- The world after `touch_led_disable` on a disabled device: only a pending
timer is cancelled. -/
theorem touch_led_disable_idle (w : World) (hm : w.touch_led_mode > MODE_OFF)
    (he : w.cptk.enable = false) :
    touch_led_disable w =
      { w with
        cptk := { w.cptk with lock := false },
        touch_led_timer := { w.touch_led_timer with pending := false },
        trace := w.trace ++ cancel_events w } := by
  have hc := led_off_guard w hm
  have hen : ¬ (if timer_pending (mutex_lock_lock w) = 1 then del_timer (mutex_lock_lock w)
      else mutex_lock_lock w).cptk.enable = true := by
    split <;> simp [mutex_lock_lock, del_timer, he]
  unfold touch_led_disable
  simp only []
  rw [if_pos hc, if_neg hen]
  cases hp : w.touch_led_timer.pending
  · simp [mutex_unlock_lock, mutex_lock_lock, timer_pending, hp, cancel_events]
    rw [← hp]
  · simp [mutex_unlock_lock, mutex_lock_lock, timer_pending, hp, cancel_events, del_timer]

theorem touch_led_disable_skips (w : World) (h : ¬ w.touch_led_mode > MODE_OFF) :
    touch_led_disable w = { w with cptk := { w.cptk with lock := false } } := by
  have hc : ¬ (mutex_lock_lock w).touch_led_mode > MODE_OFF := h
  unfold touch_led_disable
  simp only []
  rw [if_neg hc]
  rfl

theorem timedout_guard (w : World) (hn : w.cptk.notification = false)
    (ht : w.touch_led_timeout ≠ 0) :
    (!(mutex_lock_lock w).cptk.notification) = true ∧
      (mutex_lock_lock w).touch_led_timeout ≠ 0 := by
  refine ⟨?_, ht⟩
  show (!w.cptk.notification) = true
  rw [hn]
  rfl

/-- The world after `touch_led_timedout_work` when it acts on an enabled device. -/
theorem touch_led_timedout_work_runs (w : World) (hn : w.cptk.notification = false)
    (hto : w.touch_led_timeout ≠ 0) (he : w.cptk.enable = true) :
    ∃ n evs, 1 ≤ n ∧ n ≤ 2 ∧ transfers evs = n ∧
      bus_events [write_msg w KEYCODE_REG LED_OFF_CMD] evs ∧
      touch_led_timedout_work w =
        { w with
          cptk := { w.cptk with lock := false, i2c_lock := false, led_status := LED_OFF_CMD },
          xfers := w.xfers + n,
          trace := w.trace ++ evs } := by
  have hc := timedout_guard w hn hto
  have hen : (mutex_lock_lock w).cptk.enable = true := he
  obtain ⟨n, evs, h1, h2, hw, hev, ht⟩ :=
    cptk_i2c_write_frame_enabled _ KEYCODE_REG LED_OFF_CMD hen
  refine ⟨n, evs, h1, h2, ht, hev, ?_⟩
  unfold touch_led_timedout_work
  simp only []
  rw [if_pos hc, hw]
  rfl

theorem touch_led_timedout_work_skips (w : World)
    (h : ¬ (w.cptk.notification = false ∧ w.touch_led_timeout ≠ 0)) :
    touch_led_timedout_work w = { w with cptk := { w.cptk with lock := false } } := by
  have hc : ¬ ((!(mutex_lock_lock w).cptk.notification) = true ∧
      (mutex_lock_lock w).touch_led_timeout ≠ 0) := by
    rintro ⟨h1, h2⟩
    apply h
    refine ⟨?_, h2⟩
    have h3 : (!w.cptk.notification) = true := h1
    simpa using h3
  unfold touch_led_timedout_work
  simp only []
  rw [if_neg hc]
  rfl

/-- The world after `touch_led_control` on an enabled device. -/
theorem touch_led_control_runs (w : World) (data : Int) (size : Nat)
    (he : w.cptk.enable = true) :
    ∃ n evs, 1 ≤ n ∧ n ≤ 2 ∧ transfers evs = n ∧
      bus_events [write_msg w KEYCODE_REG (shl4_u8 data)] evs ∧
      touch_led_control w (some data) size =
        ((size : Int),
          { w with
            cptk := { w.cptk with lock := false, i2c_lock := false,
                                  led_status := shl4_u8 data },
            xfers := w.xfers + n,
            trace := w.trace ++ (evs ++ [Event.msleep 20]) }) := by
  have hen : (mutex_lock_lock w).cptk.enable = true := he
  obtain ⟨n, evs, h1, h2, hw, hev, ht⟩ :=
    cptk_i2c_write_frame_enabled _ KEYCODE_REG (shl4_u8 data) hen
  refine ⟨n, evs, h1, h2, ht, hev, ?_⟩
  unfold touch_led_control
  simp only []
  rw [hw]
  simp [bus_update, mutex_unlock_lock, mutex_lock_lock, msleep, emit]

theorem shl4_u8_lt (data : Int) : shl4_u8 data < 256 := by
  unfold shl4_u8
  have h1 : 0 ≤ (data * 16) % 256 := Int.emod_nonneg _ (by decide)
  have h2 : (data * 16) % 256 < 256 := Int.emod_lt_of_pos _ (by decide)
  omega

theorem written_mem_of_bus_events (w : World) (cmd val : Nat) (evs : List Event)
    (h : bus_events [write_msg w cmd val] evs) (hn : 1 ≤ transfers evs) :
    (cmd % 256, val % 256) ∈ written evs := by
  rw [written_bus_events w cmd val evs h, List.mem_replicate]
  exact ⟨by omega, rfl⟩

/-! ## What `led_status` records -/

theorem led_recorded_same {w w' : World} (new : List Event)
    (ht : w'.trace = w.trace ++ new) (hl : w'.cptk.led_status = w.cptk.led_status) :
    led_recorded w w' :=
  ⟨new, ht, Or.inl hl⟩

theorem led_recorded_refl (w : World) : led_recorded w w :=
  led_recorded_same [] (by simp) rfl

theorem led_recorded_trans {a b c : World} (h1 : led_recorded a b) (h2 : led_recorded b c) :
    led_recorded a c := by
  obtain ⟨n1, ht1, hl1⟩ := h1
  obtain ⟨n2, ht2, hl2⟩ := h2
  refine ⟨n1 ++ n2, by rw [ht2, ht1, List.append_assoc], ?_⟩
  rcases hl2 with hsame | hw2
  · rcases hl1 with hsame1 | hw1
    · exact Or.inl (hsame.trans hsame1)
    · right
      rw [written_append, hsame]
      exact List.mem_append_left _ hw1
  · right
    rw [written_append]
    exact List.mem_append_right _ hw2

theorem led_recorded_emit (e : Event) (w : World) : led_recorded w (emit e w) :=
  led_recorded_same [e] rfl rfl

theorem led_recorded_lock (w : World) : led_recorded w (mutex_lock_lock w) :=
  led_recorded_same [] (by simp [mutex_lock_lock]) rfl

theorem led_recorded_unlock (w : World) : led_recorded w (mutex_unlock_lock w) :=
  led_recorded_same [] (by simp [mutex_unlock_lock]) rfl

theorem led_recorded_read (w : World) (cmd : Nat) (val : List Nat) (len : Nat) :
    led_recorded w (cptk_i2c_read w cmd val len).2.2 := by
  obtain ⟨l, n, evs, _, hw, _, _⟩ := cptk_i2c_read_frame w cmd val len
  rw [hw]
  exact led_recorded_same evs rfl rfl

theorem led_recorded_del_if_pending (w : World) :
    led_recorded w (if timer_pending w = 1 then del_timer w else w) := by
  split
  · exact led_recorded_same [Event.del_timer] rfl rfl
  · exact led_recorded_refl w

theorem led_recorded_irq_keyup_led (w : World) : led_recorded w (irq_keyup_led w) := by
  unfold irq_keyup_led
  split
  · split
    · exact led_recorded_same [Event.add_timer (led_timer_expiry w)] rfl rfl
    · exact led_recorded_same [Event.mod_timer (led_timer_expiry w)] rfl rfl
  · exact led_recorded_refl w

/-- Power-up if needed, write `v` to the keycode register, record `v`: the
block shared by the key-down handler and `touchkey_enable`. -/
theorem led_recorded_power_write_set (w : World) (v : Nat) (hv : v < 256) :
    led_recorded w
      { (cptk_i2c_write (power_on_if_disabled w) KEYCODE_REG v).2 with
        cptk := { (cptk_i2c_write (power_on_if_disabled w) KEYCODE_REG v).2.cptk with
          led_status := v } } := by
  have hen : (power_on_if_disabled w).cptk.enable = true := by
    rw [power_on_if_disabled_eq]
  obtain ⟨n, evs, h1, _, hw, hev, ht⟩ := cptk_i2c_write_frame_enabled _ KEYCODE_REG v hen
  rw [hw, power_on_if_disabled_eq]
  refine ⟨power_on_events w ++ evs, by simp [bus_update, List.append_assoc], Or.inr ?_⟩
  rw [written_append]
  apply List.mem_append_right
  have hmem := written_mem_of_bus_events _ KEYCODE_REG v evs hev (by omega)
  have hv2 : v % 256 = v := Nat.mod_eq_of_lt hv
  rw [hv2] at hmem
  exact hmem

theorem led_recorded_irq_keydown_led (w : World) : led_recorded w (irq_keydown_led w) := by
  unfold irq_keydown_led
  by_cases hm : w.touch_led_mode > MODE_OFF
  · simp only [hm, if_true]
    have h0 := led_recorded_del_if_pending w
    generalize (if timer_pending w = 1 then del_timer w else w) = w0 at h0 ⊢
    by_cases hl : w0.cptk.led_status = LED_OFF_CMD
    · simp only [hl, if_true]
      exact led_recorded_trans h0 (led_recorded_power_write_set w0 LED_ON_CMD (by decide))
    · simp only [hl, if_false]
      exact h0
  · simp only [hm, if_false]
    exact led_recorded_refl w

theorem led_recorded_irq_thread (g : Nat) (w : World) :
    led_recorded w (cptk_irq_thread true g w).2 := by
  unfold cptk_irq_thread
  simp only [if_true]
  by_cases hg : gpio_get_value (mutex_lock_lock w) = 0
  · simp only [hg, if_true]
    have hr := led_recorded_read (mutex_lock_lock w) KEYCODE_REG [g % 256] 1
    generalize cptk_i2c_read (mutex_lock_lock w) KEYCODE_REG [g % 256] 1 = r at hr ⊢
    obtain ⟨ret, val, w1⟩ := r
    have h1 : led_recorded w w1 := led_recorded_trans (led_recorded_lock w) hr
    by_cases hb : val.headD 0 &&& UPDOWN_EVENT_BIT ≠ 0
    · simp only [hb, if_true, ne_eq, not_false_eq_true]
      exact led_recorded_trans h1
        (led_recorded_trans (led_recorded_emit _ _)
          (led_recorded_trans (led_recorded_irq_keyup_led _)
            (led_recorded_trans (led_recorded_emit _ _) (led_recorded_unlock _))))
    · simp only [hb, if_false]
      exact led_recorded_trans h1
        (led_recorded_trans (led_recorded_emit _ _)
          (led_recorded_trans (led_recorded_irq_keydown_led _)
            (led_recorded_trans (led_recorded_emit _ _) (led_recorded_unlock _))))
  · simp only [hg, if_false]
    exact led_recorded_trans (led_recorded_lock w) (led_recorded_unlock _)

theorem cptk_early_suspend_skips (w : World)
    (h : ¬ (w.cptk.enable = true ∧ w.cptk.notification = false)) :
    cptk_early_suspend true w = (0, { w with cptk := { w.cptk with lock := false } }) := by
  have hc : ¬ ((mutex_lock_lock w).cptk.enable = true ∧
      (!(mutex_lock_lock w).cptk.notification) = true) := by
    rintro ⟨h1, h2⟩
    apply h
    refine ⟨h1, ?_⟩
    have h3 : (!w.cptk.notification) = true := h2
    simpa using h3
  unfold cptk_early_suspend
  simp only [if_true]
  rw [if_neg hc]
  rfl

/-- Claim C16 as stated fails.  On an enabled device whose bus fails twice,
`touchkey_enable` changes `led_status` from `LED_OFF_CMD` to `LED_ON_CMD`
although no write was transmitted successfully; on a disabled device
`touch_led_timedout_work` changes `led_status` from `LED_ON_CMD` to
`LED_OFF_CMD` although no transfer was made at all. -/
theorem led_status_set_without_transmission :
    ((demo_flaky 2 0).cptk.led_status = LED_OFF_CMD ∧
      (touchkey_enable (demo_flaky 2 0)).cptk.led_status = LED_ON_CMD ∧
      written_ok (touchkey_enable (demo_flaky 2 0)).trace = []) ∧
    (demo_disabled_lit.cptk.led_status = LED_ON_CMD ∧
      (touch_led_timedout_work demo_disabled_lit).cptk.led_status = LED_OFF_CMD ∧
      (touch_led_timedout_work demo_disabled_lit).trace = []) := by
  decide

/-- Claim C16, amended: `led_status` records the last LED command handed to
the bus.  For every state and every behaviour of the bus, whenever one of the
operations below changes `led_status`, to `v`, at least one bus transfer
writing `v` to the keycode register is among the calls the operation adds to
the trace (whether or not a transfer succeeded): the key interrupt handler,
suspend, resume, `touchkey_enable`, `touchkey_disable`, `touch_led_disable`,
and, on an enabled device, `touch_led_timedout_work` and `touch_led_control`. -/
theorem led_status_records_attempted_write (w : World) (g : Nat) (parsed : Option Int)
    (size : Nat) :
    led_recorded w (cptk_irq_thread true g w).2 ∧
    led_recorded w (cptk_early_suspend true w).2 ∧
    led_recorded w (cptk_late_resume true w).2 ∧
    led_recorded w (touchkey_enable w) ∧
    led_recorded w (touchkey_disable w) ∧
    led_recorded w (touch_led_disable w) ∧
    (w.cptk.enable = true → led_recorded w (touch_led_timedout_work w)) ∧
    (w.cptk.enable = true → led_recorded w (touch_led_control w parsed size).2) := by
  have hoff : ∀ evs, bus_events [write_msg w KEYCODE_REG LED_OFF_CMD] evs →
      1 ≤ transfers evs → (KEYCODE_REG, LED_OFF_CMD) ∈ written evs := fun evs hev hn =>
    written_mem_of_bus_events w KEYCODE_REG LED_OFF_CMD evs hev hn
  have hon : ∀ evs, bus_events [write_msg w KEYCODE_REG LED_ON_CMD] evs →
      1 ≤ transfers evs → (KEYCODE_REG, LED_ON_CMD) ∈ written evs := fun evs hev hn =>
    written_mem_of_bus_events w KEYCODE_REG LED_ON_CMD evs hev hn
  refine ⟨led_recorded_irq_thread g w, ?_, ?_, ?_, ?_, ?_, ?_, ?_⟩
  · by_cases hc : w.cptk.enable = true ∧ w.cptk.notification = false
    · obtain ⟨n, evs, h1, _, ht, hev, hw⟩ := cptk_early_suspend_runs w hc.1 hc.2
      rw [hw]
      refine ⟨_, rfl, Or.inr ?_⟩
      simp only [written_append]
      have := hoff evs hev (by omega)
      simp [this]
    · rw [cptk_early_suspend_skips w hc]
      exact led_recorded_same [] (by simp) rfl
  · obtain ⟨n1, e1, n2, e2, n3, e3, _, _, ⟨h31, _, ht3, hev3⟩, hw⟩ := cptk_late_resume_runs w
    rw [hw]
    by_cases hc : resume_led_cond w
    · refine ⟨_, rfl, Or.inr ?_⟩
      simp only [written_append, hc, if_true]
      have := hon e3 hev3 (by omega)
      simp [this]
    · refine ⟨_, rfl, Or.inl ?_⟩
      simp [hc]
  · by_cases hc : w.touch_led_mode > MODE_OFF ∧ w.cptk.led_status = LED_OFF_CMD
    · obtain ⟨n, evs, h1, _, ht, hev, hw⟩ := touchkey_enable_runs w hc.1 hc.2
      rw [hw]
      refine ⟨_, rfl, Or.inr ?_⟩
      simp only [written_append]
      have := hon evs hev (by omega)
      simp [this]
    · rw [touchkey_enable_skips w hc]
      exact led_recorded_same [] (by simp) rfl
  · by_cases hc : w.touch_led_mode > MODE_OFF ∧ w.cptk.notification = false
    · cases he : w.cptk.enable
      · rw [touchkey_disable_idle w hc.1 hc.2 he]
        exact led_recorded_same _ rfl rfl
      · obtain ⟨n, evs, h1, _, ht, hev, hw⟩ := touchkey_disable_runs w hc.1 hc.2 he
        rw [hw]
        refine ⟨_, rfl, Or.inr ?_⟩
        simp only [written_append]
        have := hoff evs hev (by omega)
        simp [this]
    · rw [touchkey_disable_skips w hc]
      exact led_recorded_same [] (by simp) rfl
  · by_cases hm : w.touch_led_mode > MODE_OFF
    · cases he : w.cptk.enable
      · rw [touch_led_disable_idle w hm he]
        exact led_recorded_same _ rfl rfl
      · obtain ⟨n, evs, h1, _, ht, hev, hw⟩ := touch_led_disable_runs w hm he
        rw [hw]
        refine ⟨_, rfl, Or.inr ?_⟩
        simp only [written_append]
        have := hoff evs hev (by omega)
        simp [this]
    · rw [touch_led_disable_skips w hm]
      exact led_recorded_same [] (by simp) rfl
  · intro he
    by_cases hc : w.cptk.notification = false ∧ w.touch_led_timeout ≠ 0
    · obtain ⟨n, evs, h1, _, ht, hev, hw⟩ := touch_led_timedout_work_runs w hc.1 hc.2 he
      rw [hw]
      exact ⟨_, rfl, Or.inr (hoff evs hev (by omega))⟩
    · rw [touch_led_timedout_work_skips w hc]
      exact led_recorded_same [] (by simp) rfl
  · intro he
    cases parsed with
    | none =>
      exact led_recorded_same [] (by simp [touch_led_control, mutex_unlock_lock, mutex_lock_lock])
        rfl
    | some data =>
      obtain ⟨n, evs, h1, _, ht, hev, hw⟩ := touch_led_control_runs w data size he
      rw [hw]
      refine ⟨_, rfl, Or.inr ?_⟩
      simp only [written_append]
      have hmem := written_mem_of_bus_events w KEYCODE_REG (shl4_u8 data) evs hev (by omega)
      have hv : shl4_u8 data % 256 = shl4_u8 data := Nat.mod_eq_of_lt (shl4_u8_lt data)
      rw [hv] at hmem
      exact List.mem_append_left _ hmem

theorem led_status_records_attempted_write_witness :
    (touchkey_enable (demo_flaky 2 0)).cptk.led_status ≠ (demo_flaky 2 0).cptk.led_status ∧
    ∃ new, (touchkey_enable (demo_flaky 2 0)).trace = (demo_flaky 2 0).trace ++ new ∧
      (KEYCODE_REG, LED_ON_CMD) ∈ written new := by
  refine ⟨by decide, ?_⟩
  obtain ⟨new, ht, hl⟩ :=
    (led_status_records_attempted_write (demo_flaky 2 0) 0 none 0).2.2.2.1
  refine ⟨new, ht, ?_⟩
  rcases hl with hsame | hmem
  · exact absurd hsame (by decide)
  · exact hmem

theorem touchkey_enable_notification (w : World) :
    (touchkey_enable w).cptk.notification = w.cptk.notification := by
  by_cases hc : w.touch_led_mode > MODE_OFF ∧ w.cptk.led_status = LED_OFF_CMD
  · obtain ⟨n, evs, _, _, _, _, hw⟩ := touchkey_enable_runs w hc.1 hc.2
    rw [hw]
  · rw [touchkey_enable_skips w hc]

theorem touch_led_disable_notification (w : World) :
    (touch_led_disable w).cptk.notification = w.cptk.notification := by
  by_cases hm : w.touch_led_mode > MODE_OFF
  · cases he : w.cptk.enable
    · rw [touch_led_disable_idle w hm he]
    · obtain ⟨n, evs, _, _, _, _, hw⟩ := touch_led_disable_runs w hm he
      rw [hw]
  · rw [touch_led_disable_skips w hm]

/-- Claim C17 as stated fails.  With the current mode Off and the LED off,
writing the mode 1 leaves `led_status == LED_OFF_CMD` and puts nothing on the
bus; on a disabled device (mode KeyActivated, LED recorded as on), writing
the mode 0 commands nothing and leaves `led_status == LED_ON_CMD`. -/
theorem mode_store_claim_fails :
    (demo_mode_off.touch_led_mode = MODE_OFF ∧
      demo_mode_off.cptk.led_status = LED_OFF_CMD ∧
      (touch_led_mode_store demo_mode_off (some 1) 2).2.cptk.led_status = LED_OFF_CMD ∧
      (touch_led_mode_store demo_mode_off (some 1) 2).2.trace = []) ∧
    (demo_disabled_lit.cptk.enable = false ∧
      (touch_led_mode_store demo_disabled_lit (some 0) 2).2.cptk.led_status = LED_ON_CMD ∧
      (touch_led_mode_store demo_disabled_lit (some 0) 2).2.trace = []) := by
  decide

/-- Claim C17, amended: `touch_led_mode_store` returns the size and leaves
`touch_led_mode` equal to the value written, in every state.  The policy call
is made before the new mode is stored.  When the current mode is not Off: a
non-zero value performs enable(), so if the LED is off the call ends with
`led_status == LED_ON_CMD`, `enable == true` and an `LED_ON_CMD` write on the
bus; the value 0 performs the LED disable, so on an enabled device the call
ends with `led_status == LED_OFF_CMD` and an `LED_OFF_CMD` write on the bus. -/
theorem mode_store_switches_led (w : World) (data : Int) (size : Nat) :
    (touch_led_mode_store w (some data) size).1 = (size : Int) ∧
    (touch_led_mode_store w (some data) size).2.touch_led_mode = data ∧
    (data ≠ 0 → (touch_led_mode_store w (some data) size).2 =
      { touch_led_enable w with touch_led_mode := data }) ∧
    (data = 0 → (touch_led_mode_store w (some data) size).2 =
      { touch_led_disable w with touch_led_mode := data }) ∧
    (data ≠ 0 → w.touch_led_mode > MODE_OFF → w.cptk.led_status = LED_OFF_CMD →
      (touch_led_mode_store w (some data) size).2.cptk.led_status = LED_ON_CMD ∧
      (touch_led_mode_store w (some data) size).2.cptk.enable = true ∧
      ∃ new, (touch_led_mode_store w (some data) size).2.trace = w.trace ++ new ∧
        (KEYCODE_REG, LED_ON_CMD) ∈ written new) ∧
    (data = 0 → w.touch_led_mode > MODE_OFF → w.cptk.enable = true →
      (touch_led_mode_store w (some data) size).2.cptk.led_status = LED_OFF_CMD ∧
      ∃ new, (touch_led_mode_store w (some data) size).2.trace = w.trace ++ new ∧
        (KEYCODE_REG, LED_OFF_CMD) ∈ written new) := by
  have hne : data ≠ 0 → (touch_led_mode_store w (some data) size).2 =
      { touch_led_enable w with touch_led_mode := data } := by
    intro hd
    simp [touch_led_mode_store, hd]
  have hz : data = 0 → (touch_led_mode_store w (some data) size).2 =
      { touch_led_disable w with touch_led_mode := data } := by
    intro hd
    simp [touch_led_mode_store, hd]
  refine ⟨?_, ?_, hne, hz, ?_, ?_⟩
  · simp [touch_led_mode_store]
  · simp [touch_led_mode_store]
  · intro hd hm hl
    rw [hne hd]
    obtain ⟨n, evs, h1, _, ht, hev, hw⟩ := touchkey_enable_runs w hm hl
    unfold touch_led_enable
    rw [hw]
    refine ⟨rfl, rfl, _, rfl, ?_⟩
    simp only [written_append]
    have : (KEYCODE_REG, LED_ON_CMD) ∈ written evs :=
      written_mem_of_bus_events w KEYCODE_REG LED_ON_CMD evs hev (by omega)
    simp [this]
  · intro hd hm he
    rw [hz hd]
    obtain ⟨n, evs, h1, _, ht, hev, hw⟩ := touch_led_disable_runs w hm he
    rw [hw]
    refine ⟨rfl, _, rfl, ?_⟩
    simp only [written_append]
    have : (KEYCODE_REG, LED_OFF_CMD) ∈ written evs :=
      written_mem_of_bus_events w KEYCODE_REG LED_OFF_CMD evs hev (by omega)
    simp [this]

theorem mode_store_switches_led_witness :
    (touch_led_mode_store demo_world (some 2) 2).2.touch_led_mode = 2 ∧
    (touch_led_mode_store demo_world (some 2) 2).2.cptk.led_status = LED_ON_CMD ∧
    (touch_led_mode_store demo_led_on (some 0) 2).2.cptk.led_status = LED_OFF_CMD ∧
    (touch_led_mode_store demo_led_on (some 0) 2).2.touch_led_mode = 0 :=
  ⟨(mode_store_switches_led demo_world 2 2).2.1,
   ((mode_store_switches_led demo_world 2 2).2.2.2.2.1 (by decide) (by decide) rfl).1,
   ((mode_store_switches_led demo_led_on 0 2).2.2.2.2.2 rfl (by decide) rfl).1,
   (mode_store_switches_led demo_led_on 0 2).2.1⟩

/-- Claim C18 as stated fails: with the backlight mode Off, writing a positive
value to the notification attribute leaves `notification == false`. -/
theorem notification_store_claim_fails :
    demo_mode_off.touch_led_mode = MODE_OFF ∧
    (touch_led_notification demo_mode_off (some 1) 2).2.cptk.notification = false := by
  decide

/-- Claim C18, amended: `touch_led_notification` returns the size.  With a
positive value and the backlight mode not Off it sets the hold and performs
enable(): the world afterwards is `touch_led_enable` applied to the state with
`notification = true`, and `notification` is true at the end.  With a
non-positive value, or with the mode Off, it clears the hold and performs the
LED disable: the world afterwards is `touch_led_disable` applied to the state
with `notification = false`, and `notification` is false at the end. -/
theorem notification_store_sets_hold (w : World) (data : Int) (size : Nat) :
    (touch_led_notification w (some data) size).1 = (size : Int) ∧
    (data > 0 → w.touch_led_mode > MODE_OFF →
      (touch_led_notification w (some data) size).2 =
        touch_led_enable { w with cptk := { w.cptk with notification := true } } ∧
      (touch_led_notification w (some data) size).2.cptk.notification = true) ∧
    (¬ (data > 0 ∧ w.touch_led_mode > MODE_OFF) →
      (touch_led_notification w (some data) size).2 =
        touch_led_disable { w with cptk := { w.cptk with notification := false } } ∧
      (touch_led_notification w (some data) size).2.cptk.notification = false) := by
  refine ⟨?_, ?_, ?_⟩
  · unfold touch_led_notification
    simp only []
    split <;> rfl
  · intro hd hm
    have hc : data > 0 ∧ w.touch_led_mode > MODE_OFF := ⟨hd, hm⟩
    have hw : (touch_led_notification w (some data) size).2 =
        touch_led_enable { w with cptk := { w.cptk with notification := true } } := by
      unfold touch_led_notification
      simp only []
      rw [if_pos hc]
    rw [hw]
    refine ⟨rfl, ?_⟩
    unfold touch_led_enable
    rw [touchkey_enable_notification]
  · intro hc
    have hw : (touch_led_notification w (some data) size).2 =
        touch_led_disable { w with cptk := { w.cptk with notification := false } } := by
      unfold touch_led_notification
      simp only []
      rw [if_neg hc]
    rw [hw]
    refine ⟨rfl, ?_⟩
    rw [touch_led_disable_notification]

theorem notification_store_sets_hold_witness :
    (touch_led_notification demo_world (some 1) 2).2.cptk.notification = true ∧
    (touch_led_notification demo_notified (some 0) 2).2.cptk.notification = false ∧
    (touch_led_notification demo_mode_off (some 1) 2).2.cptk.notification = false :=
  ⟨((notification_store_sets_hold demo_world 1 2).2.1 (by decide) (by decide)).2,
   ((notification_store_sets_hold demo_notified 0 2).2.2 (by decide)).2,
   ((notification_store_sets_hold demo_mode_off 1 2).2.2 (by decide)).2⟩

/-- Claim C19, evaluated on the code: a notification hold is active, the
backlight mode is KeyActivated and no timer is pending; the handler reads a
key-up byte (0x0A) and calls `mod_timer`, after which the idle timer is
pending with expiry `jiffies + HZ * touch_led_timeout` = 1128. -/
theorem keyup_arms_timer_despite_notification :
    demo_notified_keyup.cptk.notification = true ∧
    demo_notified_keyup.touch_led_timer = { pending := false, expires := 0 } ∧
    (cptk_irq_thread true 0 demo_notified_keyup).2.touch_led_timer =
      { pending := true, expires := 1128 } ∧
    Event.mod_timer 1128 ∈ (cptk_irq_thread true 0 demo_notified_keyup).2.trace := by
  decide

/-- Neither teardown function touches the idle timer. -/
theorem teardown_keeps_timer (w : World) :
    (cptk_shutdown w).touch_led_timer = w.touch_led_timer ∧ (cptk_remove w).2 = w := by
  constructor
  · unfold cptk_shutdown pdata_power
    simp only []
    split <;> rfl
  · rfl

/-- Claim C20, evaluated on the code: with the idle timer pending on entry, it
is still pending after `cptk_shutdown` and after `cptk_remove`, and neither
function calls `del_timer`. -/
theorem teardown_leaves_timer_pending :
    demo_timer_pending.touch_led_timer.pending = true ∧
    (cptk_shutdown demo_timer_pending).touch_led_timer.pending = true ∧
    (cptk_shutdown demo_timer_pending).trace = [Event.disable_irq, Event.power 0] ∧
    (cptk_remove demo_timer_pending).2.touch_led_timer.pending = true ∧
    (cptk_remove demo_timer_pending).2.trace = [] := by
  decide

/-! ## Field frames of the transport functions -/

/-- The world after `cptk_i2c_write`, with the state of the bus lock made
explicit: free after a call on an enabled device, untouched otherwise. -/
theorem cptk_i2c_write_frame_lock (w : World) (cmd val : Nat) :
    ∃ n evs, (cptk_i2c_write w cmd val).2 =
        bus_update w (w.cptk.i2c_lock && !w.cptk.enable) n evs ∧
      bus_events [write_msg w cmd val] evs := by
  cases he : w.cptk.enable with
  | false =>
    refine ⟨0, [], ?_, ?_⟩
    · have hw : (cptk_i2c_write w cmd val).2 = w := by simp [cptk_i2c_write, he]
      rw [hw]
      simp [bus_update]
    · intro e h; cases h
  | true =>
    obtain ⟨n, evs, _, _, hw, hev, _⟩ := cptk_i2c_write_frame_enabled w cmd val he
    refine ⟨n, evs, ?_, hev⟩
    rw [hw]
    simp

/-- The world after `cptk_i2c_read`, with the state of the bus lock made
explicit. -/
theorem cptk_i2c_read_frame_lock (w : World) (cmd : Nat) (val : List Nat) (len : Nat) :
    ∃ n evs, (cptk_i2c_read w cmd val len).2.2 =
        bus_update w (w.cptk.i2c_lock && !w.cptk.enable) n evs ∧
      bus_events (read_msgs w cmd val len) evs := by
  cases he : w.cptk.enable with
  | false =>
    refine ⟨0, [], ?_, ?_⟩
    · have hw : (cptk_i2c_read w cmd val len).2.2 = w := by simp [cptk_i2c_read, he]
      rw [hw]
      simp [bus_update]
    · intro e h; cases h
  | true =>
    rw [cptk_i2c_read_enabled w cmd val len he]
    obtain ⟨n, evs, _, hw, hev, _⟩ :=
      read_loop_frame cmd val len 10 0 (mutex_lock_i2c_lock w)
    refine ⟨n, evs, ?_, hev⟩
    rw [hw]
    simp [bus_update, mutex_lock_i2c_lock]

theorem cptk_i2c_write_cptk (w : World) (cmd val : Nat) :
    (cptk_i2c_write w cmd val).2.cptk =
      { w.cptk with i2c_lock := w.cptk.i2c_lock && !w.cptk.enable } := by
  obtain ⟨n, evs, hw, _⟩ := cptk_i2c_write_frame_lock w cmd val
  rw [hw]; rfl

theorem cptk_i2c_write_timer (w : World) (cmd val : Nat) :
    (cptk_i2c_write w cmd val).2.touch_led_timer = w.touch_led_timer := by
  obtain ⟨n, evs, hw, _⟩ := cptk_i2c_write_frame_lock w cmd val
  rw [hw]; rfl

theorem cptk_i2c_write_mode (w : World) (cmd val : Nat) :
    (cptk_i2c_write w cmd val).2.touch_led_mode = w.touch_led_mode := by
  obtain ⟨n, evs, hw, _⟩ := cptk_i2c_write_frame_lock w cmd val
  rw [hw]; rfl

theorem cptk_i2c_write_timeout (w : World) (cmd val : Nat) :
    (cptk_i2c_write w cmd val).2.touch_led_timeout = w.touch_led_timeout := by
  obtain ⟨n, evs, hw, _⟩ := cptk_i2c_write_frame_lock w cmd val
  rw [hw]; rfl

theorem cptk_i2c_write_pdata (w : World) (cmd val : Nat) :
    (cptk_i2c_write w cmd val).2.pdata = w.pdata := by
  obtain ⟨n, evs, hw, _⟩ := cptk_i2c_write_frame_lock w cmd val
  rw [hw]; rfl

theorem cptk_i2c_read_cptk (w : World) (cmd : Nat) (val : List Nat) (len : Nat) :
    (cptk_i2c_read w cmd val len).2.2.cptk =
      { w.cptk with i2c_lock := w.cptk.i2c_lock && !w.cptk.enable } := by
  obtain ⟨n, evs, hw, _⟩ := cptk_i2c_read_frame_lock w cmd val len
  rw [hw]; rfl

theorem cptk_i2c_read_timer (w : World) (cmd : Nat) (val : List Nat) (len : Nat) :
    (cptk_i2c_read w cmd val len).2.2.touch_led_timer = w.touch_led_timer := by
  obtain ⟨n, evs, hw, _⟩ := cptk_i2c_read_frame_lock w cmd val len
  rw [hw]; rfl

theorem cptk_i2c_read_mode (w : World) (cmd : Nat) (val : List Nat) (len : Nat) :
    (cptk_i2c_read w cmd val len).2.2.touch_led_mode = w.touch_led_mode := by
  obtain ⟨n, evs, hw, _⟩ := cptk_i2c_read_frame_lock w cmd val len
  rw [hw]; rfl

theorem cptk_i2c_read_timeout (w : World) (cmd : Nat) (val : List Nat) (len : Nat) :
    (cptk_i2c_read w cmd val len).2.2.touch_led_timeout = w.touch_led_timeout := by
  obtain ⟨n, evs, hw, _⟩ := cptk_i2c_read_frame_lock w cmd val len
  rw [hw]; rfl

theorem cptk_i2c_read_pdata (w : World) (cmd : Nat) (val : List Nat) (len : Nat) :
    (cptk_i2c_read w cmd val len).2.2.pdata = w.pdata := by
  obtain ⟨n, evs, hw, _⟩ := cptk_i2c_read_frame_lock w cmd val len
  rw [hw]; rfl

theorem pdata_power_cptk (onoff : Int) (w : World) : (pdata_power onoff w).cptk = w.cptk := by
  unfold pdata_power; split <;> rfl

theorem pdata_power_timer (onoff : Int) (w : World) :
    (pdata_power onoff w).touch_led_timer = w.touch_led_timer := by
  unfold pdata_power; split <;> rfl

theorem pdata_power_mode (onoff : Int) (w : World) :
    (pdata_power onoff w).touch_led_mode = w.touch_led_mode := by
  unfold pdata_power; split <;> rfl

theorem pdata_power_timeout (onoff : Int) (w : World) :
    (pdata_power onoff w).touch_led_timeout = w.touch_led_timeout := by
  unfold pdata_power; split <;> rfl

theorem pdata_power_pdata (onoff : Int) (w : World) : (pdata_power onoff w).pdata = w.pdata := by
  unfold pdata_power; split <;> rfl

theorem release_keys_from_cptk : ∀ (n i : Nat) (w : World),
    (release_keys_from i n w).cptk = w.cptk ∧
    (release_keys_from i n w).touch_led_timer = w.touch_led_timer ∧
    (release_keys_from i n w).touch_led_mode = w.touch_led_mode ∧
    (release_keys_from i n w).touch_led_timeout = w.touch_led_timeout := by
  intro n
  induction n with
  | zero => intro i w; exact ⟨rfl, rfl, rfl, rfl⟩
  | succ n ih =>
    intro i w
    exact ih (i + 1) (input_report_key (w.pdata.keymap i) 0 w)

theorem release_keys_cptk (w : World) : (release_keys w).cptk = w.cptk :=
  (release_keys_from_cptk _ _ w).1

theorem power_on_if_disabled_cptk (w : World) :
    (power_on_if_disabled w).cptk = { w.cptk with enable := true } := by
  rw [power_on_if_disabled_eq]

theorem power_on_if_disabled_timer (w : World) :
    (power_on_if_disabled w).touch_led_timer = w.touch_led_timer := by
  rw [power_on_if_disabled_eq]

theorem power_on_if_disabled_mode (w : World) :
    (power_on_if_disabled w).touch_led_mode = w.touch_led_mode := by
  rw [power_on_if_disabled_eq]

theorem power_on_if_disabled_timeout (w : World) :
    (power_on_if_disabled w).touch_led_timeout = w.touch_led_timeout := by
  rw [power_on_if_disabled_eq]

/-! ## Lock balance -/

theorem ite_cptk (c : Prop) [Decidable c] (a b : World) :
    (if c then a else b).cptk = if c then a.cptk else b.cptk := by
  split <;> rfl

theorem ite_world_snd {α : Type} (c : Prop) [Decidable c] (a b : α × World) :
    (if c then a else b).2 = if c then a.2 else b.2 := by
  split <;> rfl

theorem ite_i2c_lock (c : Prop) [Decidable c] (a b : cptk_data) :
    (if c then a else b).i2c_lock = if c then a.i2c_lock else b.i2c_lock := by
  split <;> rfl

theorem ite_lock (c : Prop) [Decidable c] (a b : cptk_data) :
    (if c then a else b).lock = if c then a.lock else b.lock := by
  split <;> rfl

theorem mutex_lock_lock_cptk (w : World) :
    (mutex_lock_lock w).cptk = { w.cptk with lock := true } := rfl

theorem mutex_unlock_lock_cptk (w : World) :
    (mutex_unlock_lock w).cptk = { w.cptk with lock := false } := rfl

theorem emit_cptk (e : Event) (w : World) : (emit e w).cptk = w.cptk := rfl

theorem msleep_cptk (n : Nat) (w : World) : (msleep n w).cptk = w.cptk := rfl

theorem input_report_key_cptk (c : Nat) (v : Int) (w : World) :
    (input_report_key c v w).cptk = w.cptk := rfl

theorem input_sync_cptk (w : World) : (input_sync w).cptk = w.cptk := rfl

theorem enable_irq_cptk (w : World) : (enable_irq w).cptk = w.cptk := rfl

theorem disable_irq_cptk (w : World) : (disable_irq w).cptk = w.cptk := rfl

theorem set_expires_add_timer_cptk (w : World) : (set_expires_add_timer w).cptk = w.cptk := rfl

theorem mod_timer_cptk (w : World) : (mod_timer w).cptk = w.cptk := rfl

theorem del_timer_cptk (w : World) : (del_timer w).cptk = w.cptk := rfl

theorem flash_loop_cptk (fw : firmware) : ∀ (retries : Nat) (ret : Int) (w : World),
    (flash_loop fw retries ret w).2.cptk = w.cptk := by
  intro retries
  induction retries with
  | zero => intro ret w; rfl
  | succ n ih =>
    intro ret w
    rw [flash_loop_succ]
    split
    · rfl
    · rw [ih]; rfl

theorem locks_free_write (cmd val : Nat) (w : World) (h : locks_free w) :
    locks_free (cptk_i2c_write w cmd val).2 := by
  unfold locks_free 
  simp only [ite_world_snd, ite_cptk, ite_i2c_lock, ite_lock, mutex_lock_lock_cptk, mutex_unlock_lock_cptk,
    emit_cptk, msleep_cptk, input_report_key_cptk, input_sync_cptk, enable_irq_cptk,
    disable_irq_cptk, set_expires_add_timer_cptk, mod_timer_cptk, del_timer_cptk,
    cptk_i2c_write_cptk, cptk_i2c_read_cptk, power_on_if_disabled_cptk, pdata_power_cptk,
    release_keys_cptk, flash_loop_cptk, h.1, h.2, Bool.false_and, ite_self, and_self]

theorem locks_free_read (cmd : Nat) (val : List Nat) (len : Nat) (w : World) (h : locks_free w) :
    locks_free (cptk_i2c_read w cmd val len).2.2 := by
  unfold locks_free 
  simp only [ite_world_snd, ite_cptk, ite_i2c_lock, ite_lock, mutex_lock_lock_cptk, mutex_unlock_lock_cptk,
    emit_cptk, msleep_cptk, input_report_key_cptk, input_sync_cptk, enable_irq_cptk,
    disable_irq_cptk, set_expires_add_timer_cptk, mod_timer_cptk, del_timer_cptk,
    cptk_i2c_write_cptk, cptk_i2c_read_cptk, power_on_if_disabled_cptk, pdata_power_cptk,
    release_keys_cptk, flash_loop_cptk, h.1, h.2, Bool.false_and, ite_self, and_self]

theorem locks_free_irq_thread (cfg : Bool) (g : Nat) (w : World) (h : locks_free w) :
    locks_free (cptk_irq_thread cfg g w).2 := by
  unfold locks_free cptk_irq_thread irq_keyup_led irq_keydown_led
  simp only [ite_world_snd, ite_cptk, ite_i2c_lock, ite_lock, mutex_lock_lock_cptk, mutex_unlock_lock_cptk,
    emit_cptk, msleep_cptk, input_report_key_cptk, input_sync_cptk, enable_irq_cptk,
    disable_irq_cptk, set_expires_add_timer_cptk, mod_timer_cptk, del_timer_cptk,
    cptk_i2c_write_cptk, cptk_i2c_read_cptk, power_on_if_disabled_cptk, pdata_power_cptk,
    release_keys_cptk, flash_loop_cptk, h.1, h.2, Bool.false_and, ite_self, and_self]

theorem locks_free_early_suspend (cfg : Bool) (w : World) (h : locks_free w) :
    locks_free (cptk_early_suspend cfg w).2 := by
  unfold locks_free cptk_early_suspend suspend_power_down
  simp only [ite_world_snd, ite_cptk, ite_i2c_lock, ite_lock, mutex_lock_lock_cptk, mutex_unlock_lock_cptk,
    emit_cptk, msleep_cptk, input_report_key_cptk, input_sync_cptk, enable_irq_cptk,
    disable_irq_cptk, set_expires_add_timer_cptk, mod_timer_cptk, del_timer_cptk,
    cptk_i2c_write_cptk, cptk_i2c_read_cptk, power_on_if_disabled_cptk, pdata_power_cptk,
    release_keys_cptk, flash_loop_cptk, h.1, h.2, Bool.false_and, ite_self, and_self]

theorem locks_free_late_resume (cfg : Bool) (w : World) (h : locks_free w) :
    locks_free (cptk_late_resume cfg w).2 := by
  unfold locks_free cptk_late_resume resume_power_on resume_led_notification resume_led_plain
  simp only [ite_world_snd, ite_cptk, ite_i2c_lock, ite_lock, mutex_lock_lock_cptk, mutex_unlock_lock_cptk,
    emit_cptk, msleep_cptk, input_report_key_cptk, input_sync_cptk, enable_irq_cptk,
    disable_irq_cptk, set_expires_add_timer_cptk, mod_timer_cptk, del_timer_cptk,
    cptk_i2c_write_cptk, cptk_i2c_read_cptk, power_on_if_disabled_cptk, pdata_power_cptk,
    release_keys_cptk, flash_loop_cptk, h.1, h.2, Bool.false_and, ite_self, and_self]

theorem locks_free_update_firmware_cb (fw : firmware) (w : World) (h : locks_free w) :
    locks_free (cptk_update_firmware_cb fw w) := by
  unfold locks_free cptk_update_firmware_cb flash_with_irq_off reread_firm_ver
  simp only [ite_world_snd, ite_cptk, ite_i2c_lock, ite_lock, mutex_lock_lock_cptk, mutex_unlock_lock_cptk,
    emit_cptk, msleep_cptk, input_report_key_cptk, input_sync_cptk, enable_irq_cptk,
    disable_irq_cptk, set_expires_add_timer_cptk, mod_timer_cptk, del_timer_cptk,
    cptk_i2c_write_cptk, cptk_i2c_read_cptk, power_on_if_disabled_cptk, pdata_power_cptk,
    release_keys_cptk, flash_loop_cptk, h.1, h.2, Bool.false_and, ite_self, and_self]

theorem locks_free_firm_version_read_show (w : World) (h : locks_free w) :
    locks_free (set_touchkey_firm_version_read_show w).2 := by
  unfold locks_free set_touchkey_firm_version_read_show
  simp only [ite_world_snd, ite_cptk, ite_i2c_lock, ite_lock, mutex_lock_lock_cptk, mutex_unlock_lock_cptk,
    emit_cptk, msleep_cptk, input_report_key_cptk, input_sync_cptk, enable_irq_cptk,
    disable_irq_cptk, set_expires_add_timer_cptk, mod_timer_cptk, del_timer_cptk,
    cptk_i2c_write_cptk, cptk_i2c_read_cptk, power_on_if_disabled_cptk, pdata_power_cptk,
    release_keys_cptk, flash_loop_cptk, h.1, h.2, Bool.false_and, ite_self, and_self]

theorem locks_free_touchkey_enable (w : World) (h : locks_free w) :
    locks_free (touchkey_enable w) := by
  unfold locks_free touchkey_enable
  simp only [ite_world_snd, ite_cptk, ite_i2c_lock, ite_lock, mutex_lock_lock_cptk, mutex_unlock_lock_cptk,
    emit_cptk, msleep_cptk, input_report_key_cptk, input_sync_cptk, enable_irq_cptk,
    disable_irq_cptk, set_expires_add_timer_cptk, mod_timer_cptk, del_timer_cptk,
    cptk_i2c_write_cptk, cptk_i2c_read_cptk, power_on_if_disabled_cptk, pdata_power_cptk,
    release_keys_cptk, flash_loop_cptk, h.1, h.2, Bool.false_and, ite_self, and_self]

theorem locks_free_touchkey_disable (w : World) (h : locks_free w) :
    locks_free (touchkey_disable w) := by
  unfold locks_free touchkey_disable
  simp only [ite_world_snd, ite_cptk, ite_i2c_lock, ite_lock, mutex_lock_lock_cptk, mutex_unlock_lock_cptk,
    emit_cptk, msleep_cptk, input_report_key_cptk, input_sync_cptk, enable_irq_cptk,
    disable_irq_cptk, set_expires_add_timer_cptk, mod_timer_cptk, del_timer_cptk,
    cptk_i2c_write_cptk, cptk_i2c_read_cptk, power_on_if_disabled_cptk, pdata_power_cptk,
    release_keys_cptk, flash_loop_cptk, h.1, h.2, Bool.false_and, ite_self, and_self]

theorem locks_free_touch_led_disable (w : World) (h : locks_free w) :
    locks_free (touch_led_disable w) := by
  unfold locks_free touch_led_disable
  simp only [ite_world_snd, ite_cptk, ite_i2c_lock, ite_lock, mutex_lock_lock_cptk, mutex_unlock_lock_cptk,
    emit_cptk, msleep_cptk, input_report_key_cptk, input_sync_cptk, enable_irq_cptk,
    disable_irq_cptk, set_expires_add_timer_cptk, mod_timer_cptk, del_timer_cptk,
    cptk_i2c_write_cptk, cptk_i2c_read_cptk, power_on_if_disabled_cptk, pdata_power_cptk,
    release_keys_cptk, flash_loop_cptk, h.1, h.2, Bool.false_and, ite_self, and_self]

theorem locks_free_touch_led_timedout_work (w : World) (h : locks_free w) :
    locks_free (touch_led_timedout_work w) := by
  unfold locks_free touch_led_timedout_work
  simp only [ite_world_snd, ite_cptk, ite_i2c_lock, ite_lock, mutex_lock_lock_cptk, mutex_unlock_lock_cptk,
    emit_cptk, msleep_cptk, input_report_key_cptk, input_sync_cptk, enable_irq_cptk,
    disable_irq_cptk, set_expires_add_timer_cptk, mod_timer_cptk, del_timer_cptk,
    cptk_i2c_write_cptk, cptk_i2c_read_cptk, power_on_if_disabled_cptk, pdata_power_cptk,
    release_keys_cptk, flash_loop_cptk, h.1, h.2, Bool.false_and, ite_self, and_self]

theorem locks_free_touch_led_control (parsed : Option Int) (size : Nat) (w : World) (h : locks_free w) :
    locks_free (touch_led_control w parsed size).2 := by
  unfold locks_free touch_led_control
  cases parsed <;>
  simp only [ite_world_snd, ite_cptk, ite_i2c_lock, ite_lock, mutex_lock_lock_cptk, mutex_unlock_lock_cptk,
    emit_cptk, msleep_cptk, input_report_key_cptk, input_sync_cptk, enable_irq_cptk,
    disable_irq_cptk, set_expires_add_timer_cptk, mod_timer_cptk, del_timer_cptk,
    cptk_i2c_write_cptk, cptk_i2c_read_cptk, power_on_if_disabled_cptk, pdata_power_cptk,
    release_keys_cptk, flash_loop_cptk, h.1, h.2, Bool.false_and, ite_self, and_self]

theorem locks_free_menu_show (d0 d1 : Nat) (w : World) (h : locks_free w) :
    locks_free (touchkey_menu_show d0 d1 w).2 := by
  unfold locks_free touchkey_menu_show
  simp only [ite_world_snd, ite_cptk, ite_i2c_lock, ite_lock, mutex_lock_lock_cptk, mutex_unlock_lock_cptk,
    emit_cptk, msleep_cptk, input_report_key_cptk, input_sync_cptk, enable_irq_cptk,
    disable_irq_cptk, set_expires_add_timer_cptk, mod_timer_cptk, del_timer_cptk,
    cptk_i2c_write_cptk, cptk_i2c_read_cptk, power_on_if_disabled_cptk, pdata_power_cptk,
    release_keys_cptk, flash_loop_cptk, h.1, h.2, Bool.false_and, ite_self, and_self]

theorem locks_free_back_show (d0 d1 : Nat) (w : World) (h : locks_free w) :
    locks_free (touchkey_back_show d0 d1 w).2 := by
  unfold locks_free touchkey_back_show
  simp only [ite_world_snd, ite_cptk, ite_i2c_lock, ite_lock, mutex_lock_lock_cptk, mutex_unlock_lock_cptk,
    emit_cptk, msleep_cptk, input_report_key_cptk, input_sync_cptk, enable_irq_cptk,
    disable_irq_cptk, set_expires_add_timer_cptk, mod_timer_cptk, del_timer_cptk,
    cptk_i2c_write_cptk, cptk_i2c_read_cptk, power_on_if_disabled_cptk, pdata_power_cptk,
    release_keys_cptk, flash_loop_cptk, h.1, h.2, Bool.false_and, ite_self, and_self]

theorem locks_free_sensitivity_control (size : Nat) (w : World) (h : locks_free w) :
    locks_free (touch_sensitivity_control w size).2 := by
  unfold locks_free touch_sensitivity_control
  simp only [ite_world_snd, ite_cptk, ite_i2c_lock, ite_lock, mutex_lock_lock_cptk, mutex_unlock_lock_cptk,
    emit_cptk, msleep_cptk, input_report_key_cptk, input_sync_cptk, enable_irq_cptk,
    disable_irq_cptk, set_expires_add_timer_cptk, mod_timer_cptk, del_timer_cptk,
    cptk_i2c_write_cptk, cptk_i2c_read_cptk, power_on_if_disabled_cptk, pdata_power_cptk,
    release_keys_cptk, flash_loop_cptk, h.1, h.2, Bool.false_and, ite_self, and_self]

theorem locks_free_state_report (state : Int) (w : World) (h : locks_free w) :
    locks_free (touchscreen_state_report state w) := by
  unfold touchscreen_state_report
  split
  · split
    · split
      · exact locks_free_touchkey_enable w h
      · split
        · exact h
        · exact h
    · split
      · split
        · exact h
        · split
          · exact h
          · exact h
      · exact h
  · exact h

/-- Claim C23: with each mutex a held/free flag, every function of the driver
that takes `cptk->lock` or `cptk->i2c_lock` (the two transport functions, the
interrupt handler, suspend and resume in both builds, the firmware callback,
the policy calls, the work item and every sysfs operation that reaches a
lock), entered with both locks free, returns with both locks free, whatever
the device state, the parse result and the outcome of every bus transfer and
flash attempt; each early return is a path of the embedded function. -/
theorem locks_balanced (c : locking_call) (w : World) (h : locks_free w) :
    locks_free (world_after c w) := by
  cases c with
  | i2c_write cmd val => exact locks_free_write cmd val w h
  | i2c_read cmd val len => exact locks_free_read cmd val len w h
  | irq_thread cfg keycode => exact locks_free_irq_thread cfg keycode w h
  | early_suspend cfg => exact locks_free_early_suspend cfg w h
  | late_resume cfg => exact locks_free_late_resume cfg w h
  | update_firmware_cb fw => exact locks_free_update_firmware_cb fw w h
  | firm_version_read_show => exact locks_free_firm_version_read_show w h
  | enable => exact locks_free_touchkey_enable w h
  | disable => exact locks_free_touchkey_disable w h
  | enable_disable parsed size =>
    cases parsed with
    | none => exact h
    | some data =>
      show locks_free (if data > 0 then touchkey_enable w else touchkey_disable w)
      split
      · exact locks_free_touchkey_enable w h
      · exact locks_free_touchkey_disable w h
  | led_enable => exact locks_free_touchkey_enable w h
  | led_disable => exact locks_free_touch_led_disable w h
  | led_mode_store parsed size =>
    cases parsed with
    | none => exact h
    | some data =>
      show locks_free (if data = 0 then touch_led_disable w else touch_led_enable w)
      split
      · exact locks_free_touch_led_disable w h
      · exact locks_free_touchkey_enable w h
  | led_notification parsed size =>
    cases parsed with
    | none => exact h
    | some data =>
      show locks_free (touch_led_notification w (some data) size).2
      unfold touch_led_notification
      simp only []
      split
      · exact locks_free_touchkey_enable _ h
      · exact locks_free_touch_led_disable _ h
  | led_timedout => exact locks_free_touch_led_timedout_work w h
  | state_report state => exact locks_free_state_report state w h
  | led_control parsed size => exact locks_free_touch_led_control parsed size w h
  | menu_show d0 d1 => exact locks_free_menu_show d0 d1 w h
  | back_show d0 d1 => exact locks_free_back_show d0 d1 w h
  | sensitivity_control size => exact locks_free_sensitivity_control size w h
  | raw_data0_show d0 d1 => exact locks_free_read _ _ _ w h
  | raw_data1_show d0 d1 => exact locks_free_read _ _ _ w h
  | threshold_show data => exact locks_free_read _ _ _ w h
  | autocal_status_show data => exact locks_free_read _ _ _ w h
  | idac0_show data => exact locks_free_read _ _ _ w h
  | idac1_show data => exact locks_free_read _ _ _ w h

theorem locks_balanced_witness :
    locks_free demo_world ∧
    ((touch_led_control demo_world none 0).1 = -22 ∧
      locks_free (world_after (locking_call.led_control none 0) demo_world)) ∧
    ((set_touchkey_firm_version_read_show (demo_flaky 10 0)).1 = Except.error (-5) ∧
      locks_free (world_after locking_call.firm_version_read_show (demo_flaky 10 0))) ∧
    ((cptk_i2c_write (demo_flaky 2 0) KEYCODE_REG LED_ON_CMD).1 = -5 ∧
      locks_free (world_after (locking_call.i2c_write KEYCODE_REG LED_ON_CMD) (demo_flaky 2 0))) :=
  ⟨by decide,
   ⟨by decide, locks_balanced (locking_call.led_control none 0) demo_world (by decide)⟩,
   ⟨rfl, locks_balanced locking_call.firm_version_read_show (demo_flaky 10 0) (by decide)⟩,
   ⟨by decide,
    locks_balanced (locking_call.i2c_write KEYCODE_REG LED_ON_CMD) (demo_flaky 2 0)
      (by decide)⟩⟩

/-! ## Reachable states of the backlight policy -/

theorem ite_enable (c : Prop) [Decidable c] (a b : cptk_data) :
    (if c then a else b).enable = if c then a.enable else b.enable := by
  split <;> rfl

theorem ite_led_status (c : Prop) [Decidable c] (a b : cptk_data) :
    (if c then a else b).led_status = if c then a.led_status else b.led_status := by
  split <;> rfl

theorem led_inv_irq_thread (g : Nat) (w : World) (h : led_inv w) :
    led_inv (cptk_irq_thread true g w).2 := by
  unfold led_inv at *
  unfold cptk_irq_thread irq_keyup_led irq_keydown_led
  simp only [ite_world_snd, ite_cptk, ite_enable, ite_led_status, mutex_lock_lock_cptk,
    mutex_unlock_lock_cptk, emit_cptk, msleep_cptk, input_report_key_cptk, input_sync_cptk,
    enable_irq_cptk, disable_irq_cptk, set_expires_add_timer_cptk, mod_timer_cptk,
    del_timer_cptk, cptk_i2c_write_cptk, cptk_i2c_read_cptk, power_on_if_disabled_cptk,
    pdata_power_cptk, release_keys_cptk, ite_self]
  split_ifs <;> simp_all

theorem led_inv_early_suspend (w : World) (h : led_inv w) :
    led_inv (cptk_early_suspend true w).2 := by
  unfold led_inv at *
  unfold cptk_early_suspend suspend_power_down
  simp only [ite_world_snd, ite_cptk, ite_enable, ite_led_status, mutex_lock_lock_cptk,
    mutex_unlock_lock_cptk, emit_cptk, msleep_cptk, input_report_key_cptk, input_sync_cptk,
    enable_irq_cptk, disable_irq_cptk, set_expires_add_timer_cptk, mod_timer_cptk,
    del_timer_cptk, cptk_i2c_write_cptk, cptk_i2c_read_cptk, power_on_if_disabled_cptk,
    pdata_power_cptk, release_keys_cptk, ite_self]
  split_ifs <;> simp_all

theorem led_inv_late_resume (w : World) : led_inv (cptk_late_resume true w).2 := by
  unfold led_inv
  unfold cptk_late_resume resume_led_notification
  simp only [ite_world_snd, ite_cptk, ite_enable, ite_led_status, mutex_lock_lock_cptk,
    mutex_unlock_lock_cptk, emit_cptk, msleep_cptk, input_report_key_cptk, input_sync_cptk,
    enable_irq_cptk, disable_irq_cptk, set_expires_add_timer_cptk, mod_timer_cptk,
    del_timer_cptk, cptk_i2c_write_cptk, cptk_i2c_read_cptk, power_on_if_disabled_cptk,
    pdata_power_cptk, release_keys_cptk, ite_self]
  split_ifs <;> simp_all

theorem led_inv_touchkey_enable (w : World) (h : led_inv w) :
    led_inv (touchkey_enable w) := by
  unfold led_inv at *
  unfold touchkey_enable
  simp only [ite_world_snd, ite_cptk, ite_enable, ite_led_status, mutex_lock_lock_cptk,
    mutex_unlock_lock_cptk, emit_cptk, msleep_cptk, input_report_key_cptk, input_sync_cptk,
    enable_irq_cptk, disable_irq_cptk, set_expires_add_timer_cptk, mod_timer_cptk,
    del_timer_cptk, cptk_i2c_write_cptk, cptk_i2c_read_cptk, power_on_if_disabled_cptk,
    pdata_power_cptk, release_keys_cptk, ite_self]
  split_ifs <;> simp_all

theorem led_inv_touchkey_disable (w : World) (h : led_inv w) :
    led_inv (touchkey_disable w) := by
  unfold led_inv at *
  unfold touchkey_disable
  simp only [ite_world_snd, ite_cptk, ite_enable, ite_led_status, mutex_lock_lock_cptk,
    mutex_unlock_lock_cptk, emit_cptk, msleep_cptk, input_report_key_cptk, input_sync_cptk,
    enable_irq_cptk, disable_irq_cptk, set_expires_add_timer_cptk, mod_timer_cptk,
    del_timer_cptk, cptk_i2c_write_cptk, cptk_i2c_read_cptk, power_on_if_disabled_cptk,
    pdata_power_cptk, release_keys_cptk, ite_self]
  split_ifs <;> simp_all

theorem led_inv_touch_led_disable (w : World) (h : led_inv w) :
    led_inv (touch_led_disable w) := by
  unfold led_inv at *
  unfold touch_led_disable
  simp only [ite_world_snd, ite_cptk, ite_enable, ite_led_status, mutex_lock_lock_cptk,
    mutex_unlock_lock_cptk, emit_cptk, msleep_cptk, input_report_key_cptk, input_sync_cptk,
    enable_irq_cptk, disable_irq_cptk, set_expires_add_timer_cptk, mod_timer_cptk,
    del_timer_cptk, cptk_i2c_write_cptk, cptk_i2c_read_cptk, power_on_if_disabled_cptk,
    pdata_power_cptk, release_keys_cptk, ite_self]
  split_ifs <;> simp_all

theorem led_inv_touch_led_timedout_work (w : World) (h : led_inv w) :
    led_inv (touch_led_timedout_work w) := by
  unfold led_inv at *
  unfold touch_led_timedout_work
  simp only [ite_world_snd, ite_cptk, ite_enable, ite_led_status, mutex_lock_lock_cptk,
    mutex_unlock_lock_cptk, emit_cptk, msleep_cptk, input_report_key_cptk, input_sync_cptk,
    enable_irq_cptk, disable_irq_cptk, set_expires_add_timer_cptk, mod_timer_cptk,
    del_timer_cptk, cptk_i2c_write_cptk, cptk_i2c_read_cptk, power_on_if_disabled_cptk,
    pdata_power_cptk, release_keys_cptk, ite_self]
  split_ifs <;> simp_all

theorem led_inv_state_report (state : Int) (w : World) (h : led_inv w) :
    led_inv (touchscreen_state_report state w) := by
  unfold touchscreen_state_report
  split
  · split
    · split
      · exact led_inv_touchkey_enable w h
      · split
        · exact h
        · exact h
    · split
      · split
        · exact h
        · split
          · exact h
          · exact h
      · exact h
  · exact h

theorem led_inv_apply_op (o : policy_op) (w : World) (h : led_inv w) :
    led_inv (apply_op o w) := by
  cases o with
  | key_interrupt g keycode => exact led_inv_irq_thread keycode _ h
  | suspend => exact led_inv_early_suspend w h
  | resume => exact led_inv_late_resume w
  | enable => exact led_inv_touchkey_enable w h
  | disable => exact led_inv_touchkey_disable w h
  | led_disable => exact led_inv_touch_led_disable w h
  | enable_write parsed size =>
    cases parsed with
    | none => exact h
    | some data =>
      show led_inv (if data > 0 then touchkey_enable w else touchkey_disable w)
      split
      · exact led_inv_touchkey_enable w h
      · exact led_inv_touchkey_disable w h
  | mode_write parsed size =>
    cases parsed with
    | none => exact h
    | some data =>
      show led_inv (if data = 0 then touch_led_disable w else touch_led_enable w)
      split
      · exact led_inv_touch_led_disable w h
      · exact led_inv_touchkey_enable w h
  | notification_write parsed size =>
    cases parsed with
    | none => exact h
    | some data =>
      show led_inv (touch_led_notification w (some data) size).2
      unfold touch_led_notification
      simp only []
      split
      · exact led_inv_touchkey_enable _ h
      · exact led_inv_touch_led_disable _ h
  | timeout_write parsed size =>
    cases parsed with
    | none => exact h
    | some data => exact h
  | touchscreen_report state => exact led_inv_state_report state w h
  | timer_fire => exact led_inv_touch_led_timedout_work _ h
  | clock j => exact h

theorem led_inv_run_ops : ∀ (ops : List policy_op) (w : World), led_inv w →
    led_inv (run_ops ops w) := by
  intro ops
  induction ops with
  | nil => intro w h; exact h
  | cons o t ih => intro w h; exact ih _ (led_inv_apply_op o w h)

/-- Claim C22: from a state as probe sets it up (`enable == true`,
`led_status == LED_OFF_CMD`, `notification == false`), after any finite
sequence of key interrupts, suspend, resume, `touchkey_enable`,
`touchkey_disable`, `touch_led_disable`, writes to `enable_disable`,
`led_mode`, `notification` and `timeout`, touchscreen reports, timer fires and
clock ticks, in the `CONFIG_KEY_NOTIFICATION` build and whatever the bus
does: if `enable` is false then `led_status` is `LED_OFF_CMD`, and if
`led_status` is `LED_ON_CMD` then `enable` is true. -/
theorem disabled_device_has_led_off (ops : List policy_op) (w : World) (h : probe_state w) :
    ((run_ops ops w).cptk.enable = false → (run_ops ops w).cptk.led_status = LED_OFF_CMD) ∧
    ((run_ops ops w).cptk.led_status = LED_ON_CMD → (run_ops ops w).cptk.enable = true) := by
  have hinv : led_inv (run_ops ops w) :=
    led_inv_run_ops ops w (fun he => absurd (h.1.symm.trans he) (by decide))
  refine ⟨hinv, ?_⟩
  intro hon
  cases he : (run_ops ops w).cptk.enable with
  | true => rfl
  | false =>
    have hoff := hinv he
    rw [hon] at hoff
    exact absurd hoff (by decide)

theorem disabled_device_has_led_off_witness :
    probe_state demo_world ∧
    (run_ops [policy_op.key_interrupt 0 0, policy_op.suspend] demo_world).cptk.enable = false ∧
    (run_ops [policy_op.key_interrupt 0 0, policy_op.suspend] demo_world).cptk.led_status =
      LED_OFF_CMD ∧
    (run_ops [policy_op.suspend, policy_op.touchscreen_report 1, policy_op.enable]
      demo_world).cptk.led_status = LED_ON_CMD ∧
    (run_ops [policy_op.suspend, policy_op.touchscreen_report 1, policy_op.enable]
      demo_world).cptk.enable = true :=
  ⟨by decide, by decide,
   (disabled_device_has_led_off [policy_op.key_interrupt 0 0, policy_op.suspend] demo_world
      (by decide)).1 (by decide),
   by decide,
   (disabled_device_has_led_off
      [policy_op.suspend, policy_op.touchscreen_report 1, policy_op.enable] demo_world
      (by decide)).2 (by decide)⟩

/-! ## Re-arming the idle timer -/

/-- Claim C21 as stated fails: in TouchscreenActivated mode with no hold, the
LED off and no timer pending, `touchscreen_state_report(0)` is a re-arm event
of the claim, yet it calls neither `add_timer` nor `mod_timer` and no timer is
pending afterwards; the same holds after three such reports. -/
theorem touchscreen_idle_arms_nothing :
    is_rearm (rearm_event.touchscreen_idle 2000) demo_touchscreen = true ∧
    (run_rearms [rearm_event.touchscreen_idle 2000] demo_touchscreen).touch_led_timer.pending =
      false ∧
    (run_rearms [rearm_event.touchscreen_idle 2000] demo_touchscreen).trace = [] ∧
    all_rearm [rearm_event.touchscreen_idle 2000, rearm_event.touchscreen_idle 2001,
      rearm_event.touchscreen_idle 2002] demo_touchscreen = true ∧
    (run_rearms [rearm_event.touchscreen_idle 2000, rearm_event.touchscreen_idle 2001,
      rearm_event.touchscreen_idle 2002] demo_touchscreen).touch_led_timer.pending = false := by
  decide

theorem timer_calls_append (a b : List Event) :
    timer_calls (a ++ b) = timer_calls a ++ timer_calls b := by
  simp [timer_calls, List.filter_append]

theorem bus_events_timer_calls {msgs : List i2c_msg} {evs : List Event}
    (h : bus_events msgs evs) : timer_calls evs = [] := by
  unfold timer_calls
  rw [List.filter_eq_nil_iff]
  intro e he
  rcases h e he with rfl | ⟨r, rfl⟩ <;> simp [is_timer_call]

theorem led_timer_expiry_congr (w w' : World) (hj : w'.jiffies = w.jiffies)
    (hz : w'.HZ = w.HZ) (ht : w'.touch_led_timeout = w.touch_led_timeout) :
    led_timer_expiry w' = led_timer_expiry w := by
  unfold led_timer_expiry
  rw [hj, hz, ht]

/-- The key-up block of the interrupt handler when the policy is active and
no hold is set: `add_timer` on an idle timer, `mod_timer` on a pending one. -/
theorem irq_keyup_led_arms (w : World) (hm : w.touch_led_mode > MODE_OFF)
    (hn : w.cptk.notification = false) :
    irq_keyup_led w =
      { w with
        touch_led_timer := { pending := true, expires := led_timer_expiry w },
        trace := w.trace ++
          [if w.touch_led_timer.pending then Event.mod_timer (led_timer_expiry w)
            else Event.add_timer (led_timer_expiry w)] } := by
  unfold irq_keyup_led
  rw [if_pos hm]
  cases hp : w.touch_led_timer.pending <;>
    simp [timer_pending, hp, hn, set_expires_add_timer, mod_timer]

theorem rearm_key_up_step (t keycode : Nat) (w : World)
    (h : is_rearm (rearm_event.key_up t keycode) w = true) :
    (rearm (rearm_event.key_up t keycode) w).touch_led_timer =
      { pending := true, expires := led_timer_expiry { w with jiffies := t } } ∧
    timer_calls (rearm (rearm_event.key_up t keycode) w).trace =
      timer_calls w.trace ++
        [if w.touch_led_timer.pending
          then Event.mod_timer (led_timer_expiry { w with jiffies := t })
          else Event.add_timer (led_timer_expiry { w with jiffies := t })] ∧
    (rearm (rearm_event.key_up t keycode) w).HZ = w.HZ ∧
    (rearm (rearm_event.key_up t keycode) w).touch_led_timeout = w.touch_led_timeout := by
  simp only [is_rearm, Bool.and_eq_true, decide_eq_true_eq, Bool.not_eq_true'] at h
  obtain ⟨⟨⟨hm, hn⟩, hg⟩, hb⟩ := h
  unfold irq_keycode at hb
  obtain ⟨n, evs, hw1, hev⟩ :=
    cptk_i2c_read_frame_lock (mutex_lock_lock { w with jiffies := t }) KEYCODE_REG
      [keycode % 256] 1
  have hg1 : gpio_get_value (mutex_lock_lock { w with jiffies := t }) = 0 := hg
  have hrun : rearm (rearm_event.key_up t keycode) w =
      mutex_unlock_lock (input_sync (irq_keyup_led (input_report_key
        ((cptk_i2c_read (mutex_lock_lock { w with jiffies := t }) KEYCODE_REG
            [keycode % 256] 1).2.2.pdata.keymap
          ((cptk_i2c_read (mutex_lock_lock { w with jiffies := t }) KEYCODE_REG
            [keycode % 256] 1).2.1.headD 0 &&& KEYCODE_BIT)) 0
        (cptk_i2c_read (mutex_lock_lock { w with jiffies := t }) KEYCODE_REG
            [keycode % 256] 1).2.2))) := by
    unfold rearm cptk_irq_thread
    simp only [hg1, if_true, hb, ne_eq, not_false_eq_true]
  rw [hrun, irq_keyup_led_arms _ (by rw [hw1]; exact hm) (by rw [hw1]; exact hn), hw1]
  have hte : timer_calls evs = [] := bus_events_timer_calls hev
  refine ⟨rfl, ?_, rfl, rfl⟩
  simp only [mutex_unlock_lock, input_sync, input_report_key, emit, bus_update, mutex_lock_lock,
    timer_calls_append, hte, List.append_nil]
  cases hp : w.touch_led_timer.pending <;> simp [timer_calls, is_timer_call]
  all_goals rfl

theorem rearm_touchscreen_step (t : Nat) (w : World)
    (h : is_rearm (rearm_event.touchscreen_idle t) w = true)
    (ha : finds_timer_or_led (rearm_event.touchscreen_idle t) w = true) :
    (rearm (rearm_event.touchscreen_idle t) w).touch_led_timer =
      { pending := true, expires := led_timer_expiry { w with jiffies := t } } ∧
    timer_calls (rearm (rearm_event.touchscreen_idle t) w).trace =
      timer_calls w.trace ++
        [if w.touch_led_timer.pending
          then Event.mod_timer (led_timer_expiry { w with jiffies := t })
          else Event.add_timer (led_timer_expiry { w with jiffies := t })] ∧
    (rearm (rearm_event.touchscreen_idle t) w).HZ = w.HZ ∧
    (rearm (rearm_event.touchscreen_idle t) w).touch_led_timeout = w.touch_led_timeout := by
  simp only [is_rearm, Bool.and_eq_true, decide_eq_true_eq, Bool.not_eq_true'] at h
  obtain ⟨hm, hn⟩ := h
  simp only [finds_timer_or_led, Bool.or_eq_true, decide_eq_true_eq] at ha
  have hm1 : ({ w with jiffies := t } : World).touch_led_mode = MODE_TS := hm
  have hc : (0 : Int) = 0 ∧ (!({ w with jiffies := t } : World).cptk.notification) = true := by
    refine ⟨rfl, ?_⟩
    show (!w.cptk.notification) = true
    rw [hn]; rfl
  have hrun : rearm (rearm_event.touchscreen_idle t) w =
      touchscreen_state_report 0 { w with jiffies := t } := rfl
  rw [hrun]
  unfold touchscreen_state_report
  rw [if_pos hm1, if_neg (by decide), if_pos hc]
  cases hp : w.touch_led_timer.pending with
  | true =>
    have hp1 : timer_pending ({ w with jiffies := t } : World) = 1 := by
      simp [timer_pending, hp]
    rw [if_pos hp1]
    refine ⟨rfl, ?_, rfl, rfl⟩
    simp [mod_timer, timer_calls_append, timer_calls, is_timer_call]
  | false =>
    have hp1 : ¬ timer_pending ({ w with jiffies := t } : World) = 1 := by
      simp [timer_pending, hp]
    have hl : ({ w with jiffies := t } : World).cptk.led_status = LED_ON_CMD := by
      rcases ha with ha | ha
      · rw [hp] at ha; cases ha
      · exact ha
    rw [if_neg hp1, if_pos hl]
    refine ⟨rfl, ?_, rfl, rfl⟩
    simp [set_expires_add_timer, timer_calls_append, timer_calls, is_timer_call]

theorem rearm_step (e : rearm_event) (w : World) (h : is_rearm e w = true)
    (ha : finds_timer_or_led e w = true) :
    (rearm e w).touch_led_timer =
      { pending := true, expires := led_timer_expiry { w with jiffies := event_time e } } ∧
    timer_calls (rearm e w).trace =
      timer_calls w.trace ++ rearm_calls w w.touch_led_timer.pending [e] ∧
    (rearm e w).HZ = w.HZ ∧
    (rearm e w).touch_led_timeout = w.touch_led_timeout := by
  cases e with
  | key_up t keycode => exact rearm_key_up_step t keycode w h
  | touchscreen_idle t => exact rearm_touchscreen_step t w h ha

theorem rearm_calls_congr (w w' : World) (hz : w'.HZ = w.HZ)
    (ht : w'.touch_led_timeout = w.touch_led_timeout) :
    ∀ (es : List rearm_event) (p : Bool), rearm_calls w' p es = rearm_calls w p es := by
  intro es
  induction es with
  | nil => intro p; rfl
  | cons e t ih =>
    intro p
    have hx : led_timer_expiry { w' with jiffies := event_time e } =
        led_timer_expiry { w with jiffies := event_time e } :=
      led_timer_expiry_congr _ _ rfl hz ht
    show (if p then Event.mod_timer (led_timer_expiry { w' with jiffies := event_time e })
        else Event.add_timer (led_timer_expiry { w' with jiffies := event_time e })) ::
        rearm_calls w' true t = _
    rw [hx, ih true]
    rfl

theorem add_timer_only_idle_rearm_calls (w : World) :
    ∀ (es : List rearm_event) (p : Bool), add_timer_only_idle p (rearm_calls w p es) = true := by
  intro es
  induction es with
  | nil => intro p; rfl
  | cons e t ih =>
    intro p
    cases p with
    | true => exact ih true
    | false => exact ih true

theorem run_rearms_spec : ∀ (es : List rearm_event) (e : rearm_event) (w : World),
    all_rearm (e :: es) w = true → finds_timer_or_led e w = true →
    (run_rearms (e :: es) w).touch_led_timer =
      { pending := true,
        expires := led_timer_expiry
          { w with jiffies := event_time ((e :: es).getLast (List.cons_ne_nil e es)) } } ∧
    timer_calls (run_rearms (e :: es) w).trace =
      timer_calls w.trace ++ rearm_calls w w.touch_led_timer.pending (e :: es) := by
  intro es
  induction es with
  | nil =>
    intro e w h ha
    have h1 : is_rearm e w = true := by
      simpa [all_rearm] using h
    obtain ⟨ht, hc, _, _⟩ := rearm_step e w h1 ha
    exact ⟨ht, hc⟩
  | cons e' t ih =>
    intro e w h ha
    have h12 : is_rearm e w = true ∧ all_rearm (e' :: t) (rearm e w) = true := by
      have h0 : (is_rearm e w && all_rearm (e' :: t) (rearm e w)) = true := h
      simpa using h0
    obtain ⟨ht, hc, hz, hto⟩ := rearm_step e w h12.1 ha
    have hp : (rearm e w).touch_led_timer.pending = true := by rw [ht]
    have ha' : finds_timer_or_led e' (rearm e w) = true := by
      cases e' with
      | key_up t' k' => rfl
      | touchscreen_idle t' => simp [finds_timer_or_led, hp]
    obtain ⟨ht2, hc2⟩ := ih e' (rearm e w) h12.2 ha'
    have hrun : run_rearms (e :: e' :: t) w = run_rearms (e' :: t) (rearm e w) := rfl
    have hlast : (e :: e' :: t).getLast (List.cons_ne_nil e (e' :: t)) =
        (e' :: t).getLast (List.cons_ne_nil e' t) := rfl
    rw [hrun, hlast, ht2, hc2, hc, hp, rearm_calls_congr w (rearm e w) hz hto]
    refine ⟨?_, ?_⟩
    · have hx : led_timer_expiry { rearm e w with
            jiffies := event_time ((e' :: t).getLast (List.cons_ne_nil e' t)) } =
          led_timer_expiry { w with
            jiffies := event_time ((e' :: t).getLast (List.cons_ne_nil e' t)) } :=
        led_timer_expiry_congr _ _ rfl hz hto
      rw [hx]
    · rw [List.append_assoc]
      rfl

/-- Claim C21, amended: take `N >= 1` successive events, each a key-up
interrupt or `touchscreen_state_report(0)` in TouchscreenActivated mode, each
meeting the policy active and no hold, at any times `t1 .. tN`, where the
first event, if it is a touchscreen report, finds a timer pending or the LED
recorded as on.  Then afterwards the timer is pending with the expiry
`tN + HZ * touch_led_timeout` as an `unsigned long` (that sum itself when it
lies in `0 .. 2^32 - 1`); the timer calls made are one call per event,
`add_timer` for the first event when no timer was pending at the start and
`mod_timer` in every other case; and so `add_timer` is called only while no
timer is pending. -/
theorem rearm_leaves_one_pending (e : rearm_event) (es : List rearm_event) (w : World)
    (h : all_rearm (e :: es) w = true) (ha : finds_timer_or_led e w = true) :
    (run_rearms (e :: es) w).touch_led_timer =
      { pending := true,
        expires := led_timer_expiry
          { w with jiffies := event_time ((e :: es).getLast (List.cons_ne_nil e es)) } } ∧
    timer_calls (run_rearms (e :: es) w).trace =
      timer_calls w.trace ++ rearm_calls w w.touch_led_timer.pending (e :: es) ∧
    add_timer_only_idle w.touch_led_timer.pending
      (rearm_calls w w.touch_led_timer.pending (e :: es)) = true ∧
    (0 ≤ (event_time ((e :: es).getLast (List.cons_ne_nil e es)) : Int) +
        (w.HZ : Int) * w.touch_led_timeout →
      (event_time ((e :: es).getLast (List.cons_ne_nil e es)) : Int) +
        (w.HZ : Int) * w.touch_led_timeout < 4294967296 →
      ((run_rearms (e :: es) w).touch_led_timer.expires : Int) =
        (event_time ((e :: es).getLast (List.cons_ne_nil e es)) : Int) +
          (w.HZ : Int) * w.touch_led_timeout) := by
  obtain ⟨ht, hc⟩ := run_rearms_spec es e w h ha
  refine ⟨ht, hc, add_timer_only_idle_rearm_calls w _ _, ?_⟩
  intro h0 h1
  rw [ht]
  show ((led_timer_expiry
    { w with jiffies := event_time ((e :: es).getLast (List.cons_ne_nil e es)) } : Nat) : Int) = _
  unfold led_timer_expiry
  simp only []
  rw [Int.emod_eq_of_lt h0 h1, Int.toNat_of_nonneg h0]

theorem rearm_leaves_one_pending_witness :
    (run_rearms [rearm_event.key_up 2000 0, rearm_event.touchscreen_idle 2100,
      rearm_event.key_up 2200 0] demo_keyup).touch_led_timer =
      { pending := true, expires := 2328 } ∧
    timer_calls (run_rearms [rearm_event.key_up 2000 0, rearm_event.touchscreen_idle 2100,
      rearm_event.key_up 2200 0] demo_keyup).trace =
      [Event.add_timer 2128, Event.mod_timer 2228, Event.mod_timer 2328] :=
  ⟨(rearm_leaves_one_pending (rearm_event.key_up 2000 0)
      [rearm_event.touchscreen_idle 2100, rearm_event.key_up 2200 0] demo_keyup
      (by decide) (by decide)).1,
   (rearm_leaves_one_pending (rearm_event.key_up 2000 0)
      [rearm_event.touchscreen_idle 2100, rearm_event.key_up 2200 0] demo_keyup
      (by decide) (by decide)).2.1⟩

end Cptk

/-! # USB PHY trim tuning: the value written to `USB2PHYCM_TRIM` -/

namespace PhyTune

/-! ## Lemmas on the trim computation -/

theorem to_int_nonneg_iff (u : Nat) (hu : u < 4294967296) :
    0 ≤ to_int u ↔ u < 2147483648 := by
  unfold to_int
  split <;> omega

theorem add_u32_int_lt (cal : Nat) (offset : Int) : add_u32_int cal offset < 4294967296 := by
  unfold add_u32_int
  have h1 : 0 ≤ ((cal : Int) + offset) % 4294967296 := Int.emod_nonneg _ (by decide)
  have h2 : ((cal : Int) + offset) % 4294967296 < 4294967296 :=
    Int.emod_lt_of_pos _ (by decide)
  omega

theorem trim_value_le (cal : Nat) (offset : Int) (max : Nat) (hmax : max < 2147483648) :
    trim_value cal offset max ≤ max := by
  have hlt := add_u32_int_lt cal offset
  unfold trim_value
  split
  · omega
  · split
    · omega
    · rename_i h1 h2
      unfold to_int at h1 h2
      split at h1 <;> split at h2 <;> omega

theorem trim_value_eq_clamp (cal : Nat) (offset : Int) (max : Nat) :
    (trim_value cal offset max : Int) = clamp (to_int (add_u32_int cal offset)) 0 max := by
  have hlt := add_u32_int_lt cal offset
  unfold trim_value clamp
  split
  · rename_i h1
    simp [h1]
  · split
    · rename_i h1 h2
      omega
    · rename_i h1 h2
      have : to_int (add_u32_int cal offset) = (add_u32_int cal offset : Int) := by
        unfold to_int at h1 ⊢
        split
        · rfl
        · rename_i h3
          rw [if_neg h3] at h1
          omega
      omega

theorem add_u32_int_exact (cal : Nat) (offset : Int)
    (hlo : 0 ≤ (cal : Int) + offset ∨ -2147483648 ≤ (cal : Int) + offset)
    (hhi : (cal : Int) + offset < 2147483648) :
    to_int (add_u32_int cal offset) = (cal : Int) + offset := by
  unfold to_int add_u32_int
  by_cases hneg : (cal : Int) + offset < 0
  · have h1 : ((cal : Int) + offset) % 4294967296 = (cal : Int) + offset + 4294967296 := by
      rw [← Int.add_emod_self]
      exact Int.emod_eq_of_lt (by omega) (by omega)
    rw [h1]
    split <;> omega
  · have h1 : ((cal : Int) + offset) % 4294967296 = (cal : Int) + offset :=
      Int.emod_eq_of_lt (by omega) (by omega)
    rw [h1]
    split <;> omega

theorem bg_stage_snd (bo : Int) (t : omap_phy_tune) (v : Nat) :
    ∃ bg, (bg_stage bo t v).2 =
      if bo ≠ 0 then ((v &&& 0x0000FFFF) ||| (bg <<< 16)) ||| 0x80000000
      else v &&& 0x7FFFFFFF := by
  by_cases h : bo ≠ 0
  · refine ⟨trim_value
      (if t.cal_check &&& bg_trim_check_offset = 0 then
        { t with bg_trim_cal := (v &&& 0x7FFF0000) >>> 16,
                 cal_check := t.cal_check ||| bg_trim_check_offset }
       else t).bg_trim_cal bo 0x7FFF, ?_⟩
    unfold bg_stage
    simp only [h, if_true, ne_eq, not_false_eq_true]
  · refine ⟨0, ?_⟩
    unfold bg_stage
    simp only [h, if_false]

/-- The `bg_trim` part leaves bits 0..15 of the register value alone. -/
theorem bg_stage_low_bits (bo : Int) (t : omap_phy_tune) (v k : Nat) (hk : k < 16) :
    (bg_stage bo t v).2.testBit k = v.testBit k := by
  have h1 : ∀ j, j < 16 → Nat.testBit 0x0000FFFF j = true := by decide
  have h2 : ∀ j, j < 16 → Nat.testBit 0x80000000 j = false := by decide
  have h3 : ∀ j, j < 16 → Nat.testBit 0x7FFFFFFF j = true := by decide
  obtain ⟨bg, hbg⟩ := bg_stage_snd bo t v
  rw [hbg]
  split
  · simp only [Nat.testBit_or, Nat.testBit_and, Nat.testBit_shiftLeft, h1 k hk, h2 k hk]
    have : ¬ k ≥ 16 := by omega
    simp [this]
  · simp only [Nat.testBit_and, h3 k hk, Bool.and_true]

theorem swcap_field_testBit (v i : Nat) :
    (swcap_field v).testBit i = (v.testBit (8 + i) && decide (i < 7)) := by
  unfold swcap_field
  have h7 : (0x7F : Nat) = 2 ^ 7 - 1 := rfl
  rw [h7, Nat.testBit_and, Nat.testBit_shiftRight, Nat.testBit_two_pow_sub_one]

/-- Two register values that agree on bits 8..14 have the same field. -/
theorem swcap_field_congr (v v2 : Nat) (h : ∀ k, 8 ≤ k → k < 15 → v.testBit k = v2.testBit k) :
    swcap_field v = swcap_field v2 := by
  apply Nat.eq_of_testBit_eq
  intro i
  rw [swcap_field_testBit, swcap_field_testBit]
  by_cases hi : i < 7
  · rw [h (8 + i) (by omega) (by omega)]
  · simp [hi]

theorem swcap_field_insert (rv tv : Nat) (ht : tv ≤ 0x7F) :
    swcap_field (((rv &&& 0xFFFF80FF) ||| (tv <<< 8)) ||| 0x00008000) = tv := by
  have h1 : ∀ j, j < 15 → 8 ≤ j → Nat.testBit 0xFFFF80FF j = false := by decide
  have h2 : ∀ j, j < 15 → Nat.testBit 0x00008000 j = false := by decide
  apply Nat.eq_of_testBit_eq
  intro i
  rw [swcap_field_testBit]
  by_cases hi : i < 7
  · simp only [Nat.testBit_or, Nat.testBit_and, Nat.testBit_shiftLeft,
      h1 (8 + i) (by omega) (by omega), h2 (8 + i) (by omega)]
    simp [hi]
  · have : tv.testBit i = false := by
      apply Nat.testBit_lt_two_pow
      calc tv < 2 ^ 7 := by omega
        _ ≤ 2 ^ i := Nat.pow_le_pow_right (by decide) (by omega)
    simp [hi, this]

theorem swcap_stage_snd (so : Int) (t : omap_phy_tune) (rv : Nat) :
    (swcap_stage so t rv).2 =
      if so ≠ 0 then
        ((rv &&& 0xFFFF80FF) |||
          (trim_value (if t.cal_check &&& swcap_trim_check_offset = 0 then
              (rv &&& 0x00007F00) >>> 8 else t.swcap_trim_cal) so 0x7f <<< 8)) ||| 0x00008000
      else rv &&& 0xFFFF7FFF := by
  unfold swcap_stage
  by_cases h : so ≠ 0 <;> by_cases hc : t.cal_check &&& swcap_trim_check_offset = 0 <;>
    simp only [h, hc, if_true, if_false, ne_eq, not_false_eq_true, not_true_eq_false]

theorem written_trim (so bo ro : Int) (t : omap_phy_tune) (r : scm_regs) :
    (omap4430_phy_init_for_eyediagram so bo ro t r).2.usb2phycm_trim =
      (bg_stage bo (swcap_stage so t r.usb2phycm_trim).1
        (swcap_stage so t r.usb2phycm_trim).2).2 := by
  unfold omap4430_phy_init_for_eyediagram
  simp only []
  split <;> rfl

/-- Claim C24 as stated fails: on the first call, with the register field
holding 1 and `swcap_trim_offset = 2147483647`, the sum over the integers is
`2^31`, whose clamp to `0 .. 0x7F` is `0x7F`, but bits 8..14 of the value
written back are 0 (bit 15 is set). -/
theorem swcap_trim_wraps_at_int_max :
    latched_swcap_cal tune_fresh (regs_with_cal 1) = 1 ∧
    clamp ((1 : Int) + 2147483647) 0 0x7F = 0x7F ∧
    swcap_field (omap4430_phy_init_for_eyediagram 2147483647 0 0 tune_fresh
      (regs_with_cal 1)).2.usb2phycm_trim = 0 ∧
    (omap4430_phy_init_for_eyediagram 2147483647 0 0 tune_fresh
      (regs_with_cal 1)).2.usb2phycm_trim.testBit 15 = true := by
  decide

/-- Claim C24, amended: for every prior register value, every state of
`phy_tune` and all three offsets, with `cal` the latched calibration value
(bits 8..14 of the register when this call latches it, the stored value
otherwise): for a non-zero `swcap_trim_offset`, bits 8..14 of the value
written to `USB2PHYCM_TRIM` equal `clamp(s, 0, 0x7F)` where `s` is
`cal + swcap_trim_offset` computed in 32 bits and read as a signed `int`, and
bit 15 is set; `s` is the sum over the integers, so the field is
`clamp(cal + swcap_trim_offset, 0, 0x7F)`, whenever the offset is at least
`-2^31` and `cal + swcap_trim_offset < 2^31`.  For a zero offset bit 15 is
cleared and bits 8..14 are unchanged. -/
theorem swcap_trim_written (so bo ro : Int) (t : omap_phy_tune) (r : scm_regs) :
    (so ≠ 0 →
      (swcap_field (omap4430_phy_init_for_eyediagram so bo ro t r).2.usb2phycm_trim : Int) =
        clamp (to_int (add_u32_int (latched_swcap_cal t r) so)) 0 0x7F ∧
      (omap4430_phy_init_for_eyediagram so bo ro t r).2.usb2phycm_trim.testBit 15 = true) ∧
    (so ≠ 0 → -2147483648 ≤ so → (latched_swcap_cal t r : Int) + so < 2147483648 →
      (swcap_field (omap4430_phy_init_for_eyediagram so bo ro t r).2.usb2phycm_trim : Int) =
        clamp ((latched_swcap_cal t r : Int) + so) 0 0x7F) ∧
    (so = 0 →
      (omap4430_phy_init_for_eyediagram so bo ro t r).2.usb2phycm_trim.testBit 15 = false ∧
      swcap_field (omap4430_phy_init_for_eyediagram so bo ro t r).2.usb2phycm_trim =
        swcap_field r.usb2phycm_trim) := by
  have hb15 : Nat.testBit 0x00008000 15 = true := by decide
  have hm15 : Nat.testBit 0xFFFF7FFF 15 = false := by decide
  have hmlow : ∀ j, j < 15 → Nat.testBit 0xFFFF7FFF j = true := by decide
  have hnz : so ≠ 0 →
      (swcap_field (omap4430_phy_init_for_eyediagram so bo ro t r).2.usb2phycm_trim : Int) =
        clamp (to_int (add_u32_int (latched_swcap_cal t r) so)) 0 0x7F ∧
      (omap4430_phy_init_for_eyediagram so bo ro t r).2.usb2phycm_trim.testBit 15 = true := by
    intro hso
    rw [written_trim]
    constructor
    · have hfield : swcap_field (bg_stage bo (swcap_stage so t r.usb2phycm_trim).1
          (swcap_stage so t r.usb2phycm_trim).2).2 =
          swcap_field (swcap_stage so t r.usb2phycm_trim).2 :=
        swcap_field_congr _ _ (fun k _ hk => bg_stage_low_bits bo _ _ k (by omega))
      rw [hfield, swcap_stage_snd, if_pos hso,
        swcap_field_insert _ _ (trim_value_le _ _ 0x7f (by decide))]
      exact trim_value_eq_clamp _ _ _
    · rw [bg_stage_low_bits bo _ _ 15 (by omega), swcap_stage_snd, if_pos hso,
        Nat.testBit_or, hb15, Bool.or_true]
  refine ⟨hnz, ?_, ?_⟩
  · intro hso hlo hhi
    rw [(hnz hso).1, add_u32_int_exact _ _ (Or.inr (by omega)) hhi]
  · intro hso
    have hz : ¬ so ≠ 0 := fun h => h hso
    rw [written_trim]
    constructor
    · rw [bg_stage_low_bits bo _ _ 15 (by omega), swcap_stage_snd, if_neg hz,
        Nat.testBit_and, hm15, Bool.and_false]
    · apply swcap_field_congr
      intro k _ hk
      rw [bg_stage_low_bits bo _ _ k (by omega), swcap_stage_snd, if_neg hz,
        Nat.testBit_and, hmlow k hk, Bool.and_true]

theorem swcap_trim_written_witness :
    (swcap_field (omap4430_phy_init_for_eyediagram 5 0 0 tune_fresh
      (regs_with_cal 0x7E)).2.usb2phycm_trim : Int) = 0x7F ∧
    (swcap_field (omap4430_phy_init_for_eyediagram (-3) 0 0 tune_fresh
      (regs_with_cal 0x7E)).2.usb2phycm_trim : Int) = 0x7B ∧
    swcap_field (omap4430_phy_init_for_eyediagram 0 9 0 tune_fresh
      (regs_with_cal 0x7E)).2.usb2phycm_trim = 0x7E :=
  ⟨(swcap_trim_written 5 0 0 tune_fresh (regs_with_cal 0x7E)).2.1 (by decide) (by decide)
      (by decide),
   (swcap_trim_written (-3) 0 0 tune_fresh (regs_with_cal 0x7E)).2.1 (by decide) (by decide)
      (by decide),
   ((swcap_trim_written 0 9 0 tune_fresh (regs_with_cal 0x7E)).2.2 rfl).2⟩

end PhyTune
